import Mathlib

/-!
Verification of the folkrace core: a shallow embedding in Lean 4 of

  * `src/protocol/src/protocol.rs` — the ASCII wire codec for `BotCommand`
    and `BotEvent` over a fixed 256-byte `ProtocolBuffer`;
  * `src/protocol/src/map.rs` — the track-section model, map assembly and
    geometry chaining (`f32` arithmetic is modelled by `ℝ`);
  * `src/map/src/lib.rs` — the segmentation engine (`map_segmentation`).

Modelling conventions:

  * A `ProtocolBuffer` (`[u8; 256]`) is a total function `ℕ → ℕ`; reading is
    bounds-checked (`bget`), so an out-of-range access — a Rust panic — shows
    up as the `PR.crash` result of a parser.  Writing `buf[i] = c` is the
    unchecked point update `bset` (encode's capacity contract is the
    caller's responsibility in the source as well).
  * Rust `i32` values are modelled by `ℤ`; parse-side arithmetic never
    overflows on the ranges considered.  The one write-side `i32` overflow,
    the `pow10 *= 10` of `write_i32` (reached exactly when the written
    magnitude is at least `10^9`), is modelled faithfully: `findPow10` and
    `writeI32` return `Option`, `none` being the debug-mode overflow panic
    (release builds wrap instead, emitting garbled digits or looping
    forever — equally non-canonical, and excluded by the same bound).
    `usize` is `ℕ`; the `as i32` / `as usize` casts are modelled
    two's-complement faithfully, and the panicking `usize` subtraction in
    `Map::previous_index` is modelled by a checked subtraction returning
    `Option`.
  * A `ProtocolLogLineData { length, message: [u8; 200] }` is observably
    (by its hand-written `PartialEq`, which compares only the first
    `length` bytes) the list of its first `length` bytes; it is modelled by
    that `List ℕ`.
-/

namespace FR

/-- Parser outcome: `crash` models a Rust panic (out-of-range buffer
access), `err i` is `Err(i)`, `ok a` is `Ok(a)`. -/
inductive PR (α : Type) where
  | crash : PR α
  | err : ℕ → PR α
  | ok : α → PR α
  deriving DecidableEq

namespace PR

def bind {α β : Type} : PR α → (α → PR β) → PR β
  | .crash, _ => .crash
  | .err i, _ => .err i
  | .ok a, f => f a

def isOk {α : Type} : PR α → Bool
  | .ok _ => true
  | _ => false

end PR

/-- `hal::PROTOCOL_BUFFER_SIZE`. -/
def PROTOCOL_BUFFER_SIZE : ℕ := 256

/-- The 256-byte `ProtocolBuffer`, as a total byte map; only indices
`< 256` are addressable (see `bget`). -/
def Buf : Type := ℕ → ℕ

/-- Bounds-checked read `buf[i]`; `none` is the Rust out-of-range panic. -/
def bget (buf : Buf) (i : ℕ) : Option ℕ :=
  if i < PROTOCOL_BUFFER_SIZE then some (buf i) else none

/-- Point update `buf[i] = c`. -/
def bset (buf : Buf) (i : ℕ) (c : ℕ) : Buf :=
  fun j => if j = i then c else buf j

/-- `hal::new_protocol_buffer()`: an all-zero buffer. -/
def bufZero : Buf := fun _ => 0

/-- `CODE_MINUS` -/
def CODE_MINUS : ℕ := 45
/-- `CODE_SEPARATOR` -/
def CODE_SEPARATOR : ℕ := 58
/-- `CODE_END` (`'\n'`) -/
def CODE_END : ℕ := 10

/-- `append_code` -/
def appendCode (buf : Buf) (index : ℕ) (code : ℕ) : Buf × ℕ :=
  (bset buf index code, index + 1)

/-- `append_separator` -/
def appendSeparator (buf : Buf) (index : ℕ) : Buf × ℕ :=
  appendCode buf index CODE_SEPARATOR

/-- `append_end` -/
def appendEnd (buf : Buf) (index : ℕ) : Buf × ℕ :=
  appendCode buf index CODE_END

/-- `match_code`: `Ok` is next index, `Err` is index of wrong character. -/
def matchCode (buf : Buf) (index : ℕ) (code : ℕ) : PR ℕ :=
  match bget buf index with
  | none => .crash
  | some b => if b = code then .ok (index + 1) else .err index

/-- `match_separator` -/
def matchSeparator (buf : Buf) (index : ℕ) : PR ℕ :=
  matchCode buf index CODE_SEPARATOR

/-- `match_end` -/
def matchEnd (buf : Buf) (index : ℕ) : PR ℕ :=
  matchCode buf index CODE_END

/-- Byte values of a keyword string (each `char as u8`). -/
def strB (s : String) : List ℕ :=
  s.toList.map (fun c => c.toNat)

/-- `write_string` (and, run on an explicit byte list, the generic
sequential buffer write used to state all writer specifications). -/
def writeString (buf : Buf) (index : ℕ) : List ℕ → Buf × ℕ
  | [] => (buf, index)
  | c :: cs => writeString (bset buf index c) (index + 1) cs

/-- `match_string`: `Ok` is next index, `Err` is index of wrong character. -/
def matchString (buf : Buf) (index : ℕ) : List ℕ → PR ℕ
  | [] => .ok index
  | c :: cs =>
    match bget buf index with
    | none => .crash
    | some b => if b = c then matchString buf (index + 1) cs else .err index

/-- `digit_value` -/
def digitValue (code : ℕ) : Option ℤ :=
  if 48 ≤ code ∧ code ≤ 57 then some ((code : ℤ) - 48) else none

/-- `digit_code` (on the ℕ digit produced by the emit loop). -/
def digitCode (digit : ℕ) : ℕ := digit + 48

/-- The value the `pow10` loop of `write_i32` computes whenever it stays
within `i32`: the canonical power of ten just above `value`.  This is the
specification-level companion of `findPow10` below, used by the byte-string
spec `i32Bytes`.  The extra `0 < pow10` guard is needed for termination; it
is invariant at every call site (`pow10` starts at `10`). -/
def canonPow10 (pow10 value : ℕ) : ℕ :=
  if h : 0 < pow10 ∧ pow10 ≤ value then canonPow10 (pow10 * 10) value else pow10
termination_by value + 1 - pow10
decreasing_by omega

/-- The first `write_i32` loop: `while pow10 <= value { pow10 *= 10 }`,
on `i32`.  `none` is the debug-mode overflow panic of `pow10 * 10` past
`i32::MAX`, reached exactly when `value ≥ 10^9` (release builds wrap
instead, emitting garbled digits or looping forever — also non-canonical).
The extra `0 < pow10` guard is needed for termination; it is invariant at
every call site (`pow10` starts at `10`). -/
def findPow10 (pow10 value : ℕ) : Option ℕ :=
  if h : 0 < pow10 ∧ pow10 ≤ value then
    if pow10 * 10 ≤ 2147483647 then findPow10 (pow10 * 10) value else none
  else some pow10
termination_by value + 1 - pow10
decreasing_by omega

/-- The second `write_i32` loop: emit the digit `value / pow10`, then
continue with `value % pow10` and `pow10 / 10`. -/
def emitDigits (buf : Buf) (index : ℕ) (pow10 value : ℕ) : Buf × ℕ :=
  if h : pow10 = 0 then (buf, index)
  else emitDigits (bset buf index (digitCode (value / pow10))) (index + 1) (pow10 / 10) (value % pow10)
termination_by pow10
decreasing_by exact Nat.div_lt_self (Nat.pos_of_ne_zero h) (by omega)

/-- `write_i32`.  After the sign handling the running value is the
non-negative `value.natAbs`; `none` is the debug-mode `i32` overflow panic
(negating `i32::MIN`, or the `pow10` loop overflowing for
`value.natAbs ≥ 10^9`). -/
def writeI32 (buf : Buf) (index : ℕ) (value : ℤ) : Option (Buf × ℕ) :=
  if value = 0 then some (bset buf index (digitCode 0), index + 1)
  else if value = -2147483648 then none
  else
    let bi : Buf × ℕ := if value < 0 then (bset buf index CODE_MINUS, index + 1) else (buf, index)
    let v : ℕ := value.natAbs
    (findPow10 10 v).map fun pow10 => emitDigits bi.1 bi.2 (pow10 / 10) v

/-- The digit-scanning loop of `match_i32`; recursion is bounded by the
buffer capacity (an out-of-range read is `crash`). -/
def matchI32Loop (buf : Buf) (value : ℤ) (index : ℕ) : PR (ℤ × ℕ) :=
  if h : index < PROTOCOL_BUFFER_SIZE then
    match digitValue (buf index) with
    | some v => matchI32Loop buf (value * 10 + v) (index + 1)
    | none => .ok (value, index)
  else .crash
termination_by PROTOCOL_BUFFER_SIZE - index

/-- `match_i32`: `Ok` is value and next index, `Err` is index of wrong
character. -/
def matchI32 (buf : Buf) (index : ℕ) : PR (ℤ × ℕ) :=
  match bget buf index with
  | none => .crash
  | some b =>
    let negative := b = CODE_MINUS
    let index := if negative then index + 1 else index
    match bget buf index with
    | none => .crash
    | some c =>
      match digitValue c with
      | none => .err index
      | some v =>
        (matchI32Loop buf v (index + 1)).bind fun vi =>
          .ok ((if negative then -vi.1 else vi.1), vi.2)

/-- Rust `usize as i32` (two's-complement truncation to 32 bits). -/
def usizeAsI32 (n : ℕ) : ℤ :=
  if (n % 4294967296) < 2147483648 then ((n % 4294967296 : ℕ) : ℤ)
  else ((n % 4294967296 : ℕ) : ℤ) - 4294967296

/-- Rust `i32 as usize` (sign extension to 64 bits, reinterpreted). -/
def i32ToUsize (v : ℤ) : ℕ := (v % 18446744073709551616).toNat

end FR

namespace FR

/-- `MotorsPowerData` -/
structure MotorsPowerData where
  back_left : ℤ
  back_right : ℤ
  front_left : ℤ
  front_right : ℤ
  deriving DecidableEq

/-- `ProtocolMapSectionDataStraight` -/
structure ProtocolMapSectionDataStraight where
  width_start : ℤ
  width_end : ℤ
  length : ℤ
  deriving DecidableEq

/-- `ProtocolMapSectionDataTurn` -/
structure ProtocolMapSectionDataTurn where
  width_start : ℤ
  radius_start : ℤ
  width_end : ℤ
  radius_end : ℤ
  angle : ℤ
  deriving DecidableEq

/-- `ProtocolMapSectionDataSlope` -/
structure ProtocolMapSectionDataSlope where
  width_start : ℤ
  width_end : ℤ
  length : ℤ
  height : ℤ
  deriving DecidableEq

/-- `ProtocolMapSectionData` -/
inductive ProtocolMapSectionData where
  | straight : ProtocolMapSectionDataStraight → ProtocolMapSectionData
  | turnRight : ProtocolMapSectionDataTurn → ProtocolMapSectionData
  | turnLeft : ProtocolMapSectionDataTurn → ProtocolMapSectionData
  | slopeUp : ProtocolMapSectionDataSlope → ProtocolMapSectionData
  | slopeDown : ProtocolMapSectionDataSlope → ProtocolMapSectionData
  deriving DecidableEq

/-- `ProtocolMapSection` -/
structure ProtocolMapSection where
  index : ℕ
  data : ProtocolMapSectionData
  deriving DecidableEq

/-- `BotCommand` -/
inductive BotCommand where
  | mapStart : ℕ → BotCommand
  | mapSection : ProtocolMapSection → BotCommand
  | mapEnd : BotCommand
  | reset : BotCommand
  | start : BotCommand
  | pause : BotCommand
  | restart : BotCommand
  | direct : MotorsPowerData → BotCommand
  deriving DecidableEq

/-- `ProtocolWaitingData` -/
structure ProtocolWaitingData where
  target : ℤ
  elapsed : ℤ
  deriving DecidableEq

/-- `ProtocolRacingData` -/
structure ProtocolRacingData where
  section_ : ℕ
  completion_low : ℤ
  completion_high : ℤ
  positioning_left : ℤ
  positioning_right : ℤ
  deriving DecidableEq

/-- `ProtocolImuData` -/
structure ProtocolImuData where
  rotation_x : ℤ
  rotation_y : ℤ
  rotation_z : ℤ
  acceleration_x : ℤ
  acceleration_y : ℤ
  acceleration_z : ℤ
  gravity_x : ℤ
  gravity_y : ℤ
  gravity_z : ℤ
  deriving DecidableEq

/-- `ProtocolBotStatus` -/
inductive ProtocolBotStatus where
  | invalidMap : ProtocolBotStatus
  | deviceError : ProtocolBotStatus
  | stopped : ProtocolBotStatus
  | waiting : ProtocolWaitingData → ProtocolBotStatus
  | racing : ProtocolRacingData → ProtocolBotStatus
  deriving DecidableEq

/-- `hal::LASER_COUNT` -/
def LASER_COUNT : ℕ := 20

/-- `MAX_LOG_LINE_SIZE` -/
def MAX_LOG_LINE_SIZE : ℕ := 200

/-- `BotEvent`.  `lasers` carries the 20 `i32` distances as a list;
`log` carries the observable content of a `ProtocolLogLineData` (its
first `length` message bytes — the source `PartialEq` ignores the rest). -/
inductive BotEvent where
  | status : ProtocolBotStatus → BotEvent
  | lasers : List ℤ → BotEvent
  | imu : ProtocolImuData → BotEvent
  | log : List ℕ → BotEvent
  deriving DecidableEq

def kwMAP_START : List ℕ := strB "MAP-START"
def kwMAP_SECTION : List ℕ := strB "MAP-SECTION"
def kwMAP_END : List ℕ := strB "MAP-END"
def kwRESET : List ℕ := strB "RESET"
def kwSTART : List ℕ := strB "START"
def kwPAUSE : List ℕ := strB "PAUSE"
def kwRESTART : List ℕ := strB "RESTART"
def kwDIRECT : List ℕ := strB "DIRECT"

def kwSTRAIGHT : List ℕ := strB "STRAIGHT"
def kwLEFT : List ℕ := strB "LEFT"
def kwRIGHT : List ℕ := strB "RIGHT"
def kwUP : List ℕ := strB "UP"
def kwDOWN : List ℕ := strB "DOWN"

def kwSTATUS : List ℕ := strB "STATUS"
def kwLASERS : List ℕ := strB "LASERS"
def kwIMU : List ℕ := strB "IMU"
def kwLOG : List ℕ := strB "LOG"

def kwINVALID_MAP : List ℕ := strB "INVALID-MAP"
def kwDEVICE_ERROR : List ℕ := strB "DEVICE-ERROR"
def kwSTOPPED : List ℕ := strB "STOPPED"
def kwWAITING : List ℕ := strB "WAITING"
def kwRACING : List ℕ := strB "RACING"

/-- `BotCommand::write`.  The source mutates the buffer in place and
returns nothing; the model returns the final buffer. -/
def writeBotCommand (cmd : BotCommand) (buf : Buf) : Option Buf :=
  let obi : Option (Buf × ℕ) :=
    match cmd with
    | .mapStart n =>
      let bi := writeString buf 0 kwMAP_START
      let bi := appendSeparator bi.1 bi.2
      writeI32 bi.1 bi.2 (usizeAsI32 n)
    | .mapSection s =>
      let bi := writeString buf 0 kwMAP_SECTION
      let bi := appendSeparator bi.1 bi.2
      (writeI32 bi.1 bi.2 (usizeAsI32 s.index)).bind fun bi =>
      let bi := appendSeparator bi.1 bi.2
      match s.data with
      | .straight d =>
        let bi := writeString bi.1 bi.2 kwSTRAIGHT
        let bi := appendSeparator bi.1 bi.2
        (writeI32 bi.1 bi.2 d.length).bind fun bi =>
        let bi := appendSeparator bi.1 bi.2
        (writeI32 bi.1 bi.2 d.width_start).bind fun bi =>
        let bi := appendSeparator bi.1 bi.2
        writeI32 bi.1 bi.2 d.width_end
      | .turnLeft d =>
        let bi := writeString bi.1 bi.2 kwLEFT
        let bi := appendSeparator bi.1 bi.2
        (writeI32 bi.1 bi.2 d.angle).bind fun bi =>
        let bi := appendSeparator bi.1 bi.2
        (writeI32 bi.1 bi.2 d.width_start).bind fun bi =>
        let bi := appendSeparator bi.1 bi.2
        (writeI32 bi.1 bi.2 d.width_end).bind fun bi =>
        let bi := appendSeparator bi.1 bi.2
        (writeI32 bi.1 bi.2 d.radius_start).bind fun bi =>
        let bi := appendSeparator bi.1 bi.2
        writeI32 bi.1 bi.2 d.radius_end
      | .turnRight d =>
        let bi := writeString bi.1 bi.2 kwRIGHT
        let bi := appendSeparator bi.1 bi.2
        (writeI32 bi.1 bi.2 d.angle).bind fun bi =>
        let bi := appendSeparator bi.1 bi.2
        (writeI32 bi.1 bi.2 d.width_start).bind fun bi =>
        let bi := appendSeparator bi.1 bi.2
        (writeI32 bi.1 bi.2 d.width_end).bind fun bi =>
        let bi := appendSeparator bi.1 bi.2
        (writeI32 bi.1 bi.2 d.radius_start).bind fun bi =>
        let bi := appendSeparator bi.1 bi.2
        writeI32 bi.1 bi.2 d.radius_end
      | .slopeUp d =>
        let bi := writeString bi.1 bi.2 kwUP
        let bi := appendSeparator bi.1 bi.2
        (writeI32 bi.1 bi.2 d.length).bind fun bi =>
        let bi := appendSeparator bi.1 bi.2
        (writeI32 bi.1 bi.2 d.height).bind fun bi =>
        let bi := appendSeparator bi.1 bi.2
        (writeI32 bi.1 bi.2 d.width_start).bind fun bi =>
        let bi := appendSeparator bi.1 bi.2
        writeI32 bi.1 bi.2 d.width_end
      | .slopeDown d =>
        let bi := writeString bi.1 bi.2 kwDOWN
        let bi := appendSeparator bi.1 bi.2
        (writeI32 bi.1 bi.2 d.length).bind fun bi =>
        let bi := appendSeparator bi.1 bi.2
        (writeI32 bi.1 bi.2 d.height).bind fun bi =>
        let bi := appendSeparator bi.1 bi.2
        (writeI32 bi.1 bi.2 d.width_start).bind fun bi =>
        let bi := appendSeparator bi.1 bi.2
        writeI32 bi.1 bi.2 d.width_end
    | .mapEnd => some (writeString buf 0 kwMAP_END)
    | .reset => some (writeString buf 0 kwRESET)
    | .start => some (writeString buf 0 kwSTART)
    | .pause => some (writeString buf 0 kwPAUSE)
    | .restart => some (writeString buf 0 kwRESTART)
    | .direct m =>
      let bi := writeString buf 0 kwDIRECT
      let bi := appendSeparator bi.1 bi.2
      (writeI32 bi.1 bi.2 m.back_left).bind fun bi =>
      let bi := appendSeparator bi.1 bi.2
      (writeI32 bi.1 bi.2 m.back_right).bind fun bi =>
      let bi := appendSeparator bi.1 bi.2
      (writeI32 bi.1 bi.2 m.front_left).bind fun bi =>
      let bi := appendSeparator bi.1 bi.2
      writeI32 bi.1 bi.2 m.front_right
  obi.map fun bi => (appendEnd bi.1 bi.2).1

/-- `BotCommand::parse`. -/
def parseBotCommand (buf : Buf) : PR BotCommand :=
  match matchString buf 0 kwMAP_START with
  | .crash => .crash
  | .ok next =>
    (matchSeparator buf next).bind fun i =>
    (matchI32 buf i).bind fun si =>
    (matchEnd buf si.2).bind fun _ =>
    .ok (.mapStart (i32ToUsize si.1))
  | .err _ =>
  match matchString buf 0 kwMAP_SECTION with
  | .crash => .crash
  | .ok next =>
    (matchSeparator buf next).bind fun i =>
    (matchI32 buf i).bind fun si =>
    (matchSeparator buf si.2).bind fun i2 =>
    match matchString buf i2 kwSTRAIGHT with
    | .crash => .crash
    | .ok next2 =>
      (matchSeparator buf next2).bind fun j0 =>
      (matchI32 buf j0).bind fun lv =>
      (matchSeparator buf lv.2).bind fun j1 =>
      (matchI32 buf j1).bind fun ws =>
      (matchSeparator buf ws.2).bind fun j2 =>
      (matchI32 buf j2).bind fun we =>
      (matchEnd buf we.2).bind fun _ =>
      .ok (.mapSection ⟨i32ToUsize si.1,
        .straight ⟨ws.1, we.1, lv.1⟩⟩)
    | .err _ =>
    match matchString buf i2 kwLEFT with
    | .crash => .crash
    | .ok next2 =>
      (matchSeparator buf next2).bind fun j0 =>
      (matchI32 buf j0).bind fun an =>
      (matchSeparator buf an.2).bind fun j1 =>
      (matchI32 buf j1).bind fun ws =>
      (matchSeparator buf ws.2).bind fun j2 =>
      (matchI32 buf j2).bind fun we =>
      (matchSeparator buf we.2).bind fun j3 =>
      (matchI32 buf j3).bind fun rs =>
      (matchSeparator buf rs.2).bind fun j4 =>
      (matchI32 buf j4).bind fun re =>
      (matchEnd buf re.2).bind fun _ =>
      .ok (.mapSection ⟨i32ToUsize si.1,
        .turnLeft ⟨ws.1, rs.1, we.1, re.1, an.1⟩⟩)
    | .err _ =>
    match matchString buf i2 kwRIGHT with
    | .crash => .crash
    | .ok next2 =>
      (matchSeparator buf next2).bind fun j0 =>
      (matchI32 buf j0).bind fun an =>
      (matchSeparator buf an.2).bind fun j1 =>
      (matchI32 buf j1).bind fun ws =>
      (matchSeparator buf ws.2).bind fun j2 =>
      (matchI32 buf j2).bind fun we =>
      (matchSeparator buf we.2).bind fun j3 =>
      (matchI32 buf j3).bind fun rs =>
      (matchSeparator buf rs.2).bind fun j4 =>
      (matchI32 buf j4).bind fun re =>
      (matchEnd buf re.2).bind fun _ =>
      .ok (.mapSection ⟨i32ToUsize si.1,
        .turnRight ⟨ws.1, rs.1, we.1, re.1, an.1⟩⟩)
    | .err _ =>
    match matchString buf i2 kwUP with
    | .crash => .crash
    | .ok next2 =>
      (matchSeparator buf next2).bind fun j0 =>
      (matchI32 buf j0).bind fun lv =>
      (matchSeparator buf lv.2).bind fun j1 =>
      (matchI32 buf j1).bind fun hv =>
      (matchSeparator buf hv.2).bind fun j2 =>
      (matchI32 buf j2).bind fun ws =>
      (matchSeparator buf ws.2).bind fun j3 =>
      (matchI32 buf j3).bind fun we =>
      (matchEnd buf we.2).bind fun _ =>
      .ok (.mapSection ⟨i32ToUsize si.1,
        .slopeUp ⟨ws.1, we.1, lv.1, hv.1⟩⟩)
    | .err _ =>
    match matchString buf i2 kwDOWN with
    | .crash => .crash
    | .ok next2 =>
      (matchSeparator buf next2).bind fun j0 =>
      (matchI32 buf j0).bind fun lv =>
      (matchSeparator buf lv.2).bind fun j1 =>
      (matchI32 buf j1).bind fun hv =>
      (matchSeparator buf hv.2).bind fun j2 =>
      (matchI32 buf j2).bind fun ws =>
      (matchSeparator buf ws.2).bind fun j3 =>
      (matchI32 buf j3).bind fun we =>
      (matchEnd buf we.2).bind fun _ =>
      .ok (.mapSection ⟨i32ToUsize si.1,
        .slopeDown ⟨ws.1, we.1, lv.1, hv.1⟩⟩)
    | .err _ => .err i2
  | .err _ =>
  match matchString buf 0 kwMAP_END with
  | .crash => .crash
  | .ok next => (matchEnd buf next).bind fun _ => .ok .mapEnd
  | .err _ =>
  match matchString buf 0 kwRESET with
  | .crash => .crash
  | .ok next => (matchEnd buf next).bind fun _ => .ok .reset
  | .err _ =>
  match matchString buf 0 kwSTART with
  | .crash => .crash
  | .ok next => (matchEnd buf next).bind fun _ => .ok .start
  | .err _ =>
  match matchString buf 0 kwPAUSE with
  | .crash => .crash
  | .ok next => (matchEnd buf next).bind fun _ => .ok .pause
  | .err _ =>
  match matchString buf 0 kwRESTART with
  | .crash => .crash
  | .ok next => (matchEnd buf next).bind fun _ => .ok .restart
  | .err _ =>
  match matchString buf 0 kwDIRECT with
  | .crash => .crash
  | .ok next =>
    (matchSeparator buf next).bind fun i =>
    (matchI32 buf i).bind fun bl =>
    (matchSeparator buf bl.2).bind fun i1 =>
    (matchI32 buf i1).bind fun br =>
    (matchSeparator buf br.2).bind fun i2 =>
    (matchI32 buf i2).bind fun fl =>
    (matchSeparator buf fl.2).bind fun i3 =>
    (matchI32 buf i3).bind fun fr =>
    (matchEnd buf fr.2).bind fun _ =>
    .ok (.direct ⟨bl.1, br.1, fl.1, fr.1⟩)
  | .err _ => .err 0

end FR

namespace FR

/-- `BotEvent::write`; the `LASERS` arm iterates the laser list, the `LOG`
arm appends the message bytes one by one. -/
def writeBotEvent (evt : BotEvent) (buf : Buf) : Option Buf :=
  let obi : Option (Buf × ℕ) :=
    match evt with
    | .status s =>
      let bi := writeString buf 0 kwSTATUS
      let bi := appendSeparator bi.1 bi.2
      match s with
      | .invalidMap => some (writeString bi.1 bi.2 kwINVALID_MAP)
      | .deviceError => some (writeString bi.1 bi.2 kwDEVICE_ERROR)
      | .stopped => some (writeString bi.1 bi.2 kwSTOPPED)
      | .waiting d =>
        let bi := writeString bi.1 bi.2 kwWAITING
        let bi := appendSeparator bi.1 bi.2
        (writeI32 bi.1 bi.2 d.target).bind fun bi =>
        let bi := appendSeparator bi.1 bi.2
        writeI32 bi.1 bi.2 d.elapsed
      | .racing d =>
        let bi := writeString bi.1 bi.2 kwRACING
        let bi := appendSeparator bi.1 bi.2
        (writeI32 bi.1 bi.2 (usizeAsI32 d.section_)).bind fun bi =>
        let bi := appendSeparator bi.1 bi.2
        (writeI32 bi.1 bi.2 d.completion_low).bind fun bi =>
        let bi := appendSeparator bi.1 bi.2
        (writeI32 bi.1 bi.2 d.completion_high).bind fun bi =>
        let bi := appendSeparator bi.1 bi.2
        (writeI32 bi.1 bi.2 d.positioning_left).bind fun bi =>
        let bi := appendSeparator bi.1 bi.2
        writeI32 bi.1 bi.2 d.positioning_right
    | .lasers vs =>
      let bi := writeString buf 0 kwLASERS
      vs.foldl (fun obi laser =>
        obi.bind fun bi =>
        let bi := appendSeparator bi.1 bi.2
        writeI32 bi.1 bi.2 laser) (some bi)
    | .imu d =>
      let bi := writeString buf 0 kwIMU
      let bi := appendSeparator bi.1 bi.2
      (writeI32 bi.1 bi.2 d.rotation_x).bind fun bi =>
      let bi := appendSeparator bi.1 bi.2
      (writeI32 bi.1 bi.2 d.rotation_y).bind fun bi =>
      let bi := appendSeparator bi.1 bi.2
      (writeI32 bi.1 bi.2 d.rotation_z).bind fun bi =>
      let bi := appendSeparator bi.1 bi.2
      (writeI32 bi.1 bi.2 d.acceleration_x).bind fun bi =>
      let bi := appendSeparator bi.1 bi.2
      (writeI32 bi.1 bi.2 d.acceleration_y).bind fun bi =>
      let bi := appendSeparator bi.1 bi.2
      (writeI32 bi.1 bi.2 d.acceleration_z).bind fun bi =>
      let bi := appendSeparator bi.1 bi.2
      (writeI32 bi.1 bi.2 d.gravity_x).bind fun bi =>
      let bi := appendSeparator bi.1 bi.2
      (writeI32 bi.1 bi.2 d.gravity_y).bind fun bi =>
      let bi := appendSeparator bi.1 bi.2
      writeI32 bi.1 bi.2 d.gravity_z
    | .log msg =>
      let bi := writeString buf 0 kwLOG
      let bi := appendSeparator bi.1 bi.2
      some (msg.foldl (fun bi code => appendCode bi.1 bi.2 code) bi)
  obi.map fun bi => (appendEnd bi.1 bi.2).1

/-- The `LASERS` read loop of `BotEvent::parse` (`for i in 0..LASER_COUNT`,
counted down by `k`): reads `k` `':'`-preceded integers. -/
def lasersLoop (buf : Buf) (index : ℕ) : ℕ → PR (List ℤ × ℕ)
  | 0 => .ok ([], index)
  | k + 1 =>
    (matchSeparator buf index).bind fun i =>
    (matchI32 buf i).bind fun vi =>
    (lasersLoop buf vi.2 k).bind fun rest =>
    .ok (vi.1 :: rest.1, rest.2)

/-- The `LOG` read loop of `BotEvent::parse`.  `i` is the loop counter;
on `break` (a `'\n'` byte) the collected bytes are the observable message;
if the loop exhausts all `MAX_LOG_LINE_SIZE` iterations the source leaves
`data.length = 0`, whose observable value is the empty message. -/
def logLoop (buf : Buf) (i : ℕ) (index : ℕ) (acc : List ℕ) : PR (List ℕ × ℕ) :=
  if h : i < MAX_LOG_LINE_SIZE then
    match bget buf index with
    | none => .crash
    | some code =>
      if code ≠ CODE_END then logLoop buf (i + 1) (index + 1) (acc ++ [code])
      else .ok (acc, index)
  else .ok ([], index)
termination_by MAX_LOG_LINE_SIZE - i

/-- `BotEvent::parse`.  Note the `LASERS` arm returns `Ok` directly after
the twentieth integer, without `match_end`. -/
def parseBotEvent (buf : Buf) : PR BotEvent :=
  match matchString buf 0 kwSTATUS with
  | .crash => .crash
  | .ok next =>
    (matchSeparator buf next).bind fun i =>
    match matchString buf i kwINVALID_MAP with
    | .crash => .crash
    | .ok next2 => (matchEnd buf next2).bind fun _ => .ok (.status .invalidMap)
    | .err _ =>
    match matchString buf i kwDEVICE_ERROR with
    | .crash => .crash
    | .ok next2 => (matchEnd buf next2).bind fun _ => .ok (.status .deviceError)
    | .err _ =>
    match matchString buf i kwSTOPPED with
    | .crash => .crash
    | .ok next2 => (matchEnd buf next2).bind fun _ => .ok (.status .stopped)
    | .err _ =>
    match matchString buf i kwWAITING with
    | .crash => .crash
    | .ok next2 =>
      (matchSeparator buf next2).bind fun j0 =>
      (matchI32 buf j0).bind fun tg =>
      (matchSeparator buf tg.2).bind fun j1 =>
      (matchI32 buf j1).bind fun el =>
      (matchEnd buf el.2).bind fun _ =>
      .ok (.status (.waiting ⟨tg.1, el.1⟩))
    | .err _ =>
    match matchString buf i kwRACING with
    | .crash => .crash
    | .ok next2 =>
      (matchSeparator buf next2).bind fun j0 =>
      (matchI32 buf j0).bind fun se =>
      (matchSeparator buf se.2).bind fun j1 =>
      (matchI32 buf j1).bind fun cl =>
      (matchSeparator buf cl.2).bind fun j2 =>
      (matchI32 buf j2).bind fun ch =>
      (matchSeparator buf ch.2).bind fun j3 =>
      (matchI32 buf j3).bind fun pl =>
      (matchSeparator buf pl.2).bind fun j4 =>
      (matchI32 buf j4).bind fun pr =>
      (matchEnd buf pr.2).bind fun _ =>
      .ok (.status (.racing ⟨i32ToUsize se.1, cl.1, ch.1, pl.1, pr.1⟩))
    | .err _ => .err i
  | .err _ =>
  match matchString buf 0 kwLASERS with
  | .crash => .crash
  | .ok next =>
    (lasersLoop buf next LASER_COUNT).bind fun data =>
    .ok (.lasers data.1)
  | .err _ =>
  match matchString buf 0 kwIMU with
  | .crash => .crash
  | .ok next =>
    (matchSeparator buf next).bind fun i =>
    (matchI32 buf i).bind fun rx =>
    (matchSeparator buf rx.2).bind fun i1 =>
    (matchI32 buf i1).bind fun ry =>
    (matchSeparator buf ry.2).bind fun i2 =>
    (matchI32 buf i2).bind fun rz =>
    (matchSeparator buf rz.2).bind fun i3 =>
    (matchI32 buf i3).bind fun ax =>
    (matchSeparator buf ax.2).bind fun i4 =>
    (matchI32 buf i4).bind fun ay =>
    (matchSeparator buf ay.2).bind fun i5 =>
    (matchI32 buf i5).bind fun az =>
    (matchSeparator buf az.2).bind fun i6 =>
    (matchI32 buf i6).bind fun gx =>
    (matchSeparator buf gx.2).bind fun i7 =>
    (matchI32 buf i7).bind fun gy =>
    (matchSeparator buf gy.2).bind fun i8 =>
    (matchI32 buf i8).bind fun gz =>
    (matchEnd buf gz.2).bind fun _ =>
    .ok (.imu ⟨rx.1, ry.1, rz.1, ax.1, ay.1, az.1, gx.1, gy.1, gz.1⟩)
  | .err _ =>
  match matchString buf 0 kwLOG with
  | .crash => .crash
  | .ok next =>
    (matchSeparator buf next).bind fun i =>
    (logLoop buf 0 i []).bind fun data =>
    (matchEnd buf data.2).bind fun _ =>
    .ok (.log data.1)
  | .err _ => .err 0

end FR

namespace FR

noncomputable section

open Real

open scoped Classical

/-- `vek::Vec3<f32>` (`V3`), over `ℝ`. -/
structure V3 where
  x : ℝ
  y : ℝ
  z : ℝ

namespace V3

def zero : V3 := ⟨0, 0, 0⟩
def unit_y : V3 := ⟨0, 1, 0⟩
def unit_z : V3 := ⟨0, 0, 1⟩

def add (a b : V3) : V3 := ⟨a.x + b.x, a.y + b.y, a.z + b.z⟩
def sub (a b : V3) : V3 := ⟨a.x - b.x, a.y - b.y, a.z - b.z⟩
def neg (a : V3) : V3 := ⟨-a.x, -a.y, -a.z⟩
def smul (a : V3) (s : ℝ) : V3 := ⟨a.x * s, a.y * s, a.z * s⟩
def sdiv (a : V3) (s : ℝ) : V3 := ⟨a.x / s, a.y / s, a.z / s⟩
def magnitude (a : V3) : ℝ := Real.sqrt (a.x ^ 2 + a.y ^ 2 + a.z ^ 2)
def normalized (a : V3) : V3 := a.sdiv a.magnitude

end V3

/-- The action of `Q::rotation_y(a)` (and of nalgebra's
`UnitQuaternion::from_axis_angle(y_axis, a)`) on a vector: the standard
right-handed rotation about the `y` axis. -/
def rotY (a : ℝ) (v : V3) : V3 :=
  ⟨v.x * Real.cos a + v.z * Real.sin a, v.y, -v.x * Real.sin a + v.z * Real.cos a⟩

/-- `MapSectionStraigth` (source spelling) -/
structure MapSectionStraigth where
  length : ℝ

/-- `MapSectionSlope` -/
structure MapSectionSlope where
  length : ℝ
  height : ℝ

/-- `MapSectionTurn` -/
structure MapSectionTurn where
  radius_start : ℝ
  radius_end : ℝ
  turning_angle : ℝ

/-- `MapSectionShape` -/
inductive MapSectionShape where
  | straigth : MapSectionStraigth → MapSectionShape
  | slope : MapSectionSlope → MapSectionShape
  | turn : MapSectionTurn → MapSectionShape

/-- `MapSection`.  The Rust field `end` is called `endPos` here (`end` is a
Lean keyword). -/
structure MapSection where
  shape : MapSectionShape
  width_start : ℝ
  width_end : ℝ
  start : V3
  endPos : V3
  center : V3
  heading_start : ℝ
  heading_end : ℝ

/-- `dim_from_proto` -/
def dim_from_proto (dim : ℤ) : ℝ := (dim : ℝ) / 1000

/-- `ang_from_proto`.  Note the source constant is the literal `3.1415`,
not `f32::consts::PI`. -/
def ang_from_proto (ang : ℤ) : ℝ := -(ang : ℝ) * 3.1415 / 180

/-- The measure for the first `normalize_angle` loop. -/
def normLoop1Fuel (angle : ℝ) : ℕ := (⌈(angle - π ^ 2 / 180) / (2 * π)⌉).toNat

/-- First loop of `normalize_angle`:
`while angle.to_degrees() > PI { angle -= PI * 2.0 }`.
(`to_degrees` multiplies by `180 / π`, so the guard is `angle > π²/180`.) -/
def normLoop1 (angle : ℝ) : ℝ :=
  if h : angle * (180 / π) > π then normLoop1 (angle - π * 2) else angle
termination_by normLoop1Fuel angle
decreasing_by
  have hπ : (0:ℝ) < π := Real.pi_pos
  have hgt : angle - π ^ 2 / 180 > 0 := by
    have h2 : π < angle * 180 / π := by rw [mul_div_assoc]; exact h
    have h3 : π * π < angle * 180 := (lt_div_iff₀ hπ).mp h2
    rw [gt_iff_lt, sub_pos, pow_two]
    linarith
  have hd : (angle - π * 2 - π ^ 2 / 180) / (2 * π) = (angle - π ^ 2 / 180) / (2 * π) - 1 := by
    field_simp
    ring
  have hpos : 0 < (angle - π ^ 2 / 180) / (2 * π) := by positivity
  have hceil : (0:ℤ) < ⌈(angle - π ^ 2 / 180) / (2 * π)⌉ := Int.ceil_pos.mpr hpos
  unfold normLoop1Fuel
  rw [hd, Int.ceil_sub_one]
  omega

/-- The measure for the second `normalize_angle` loop. -/
def normLoop2Fuel (angle : ℝ) : ℕ := (⌈(-π - angle) / (2 * π)⌉).toNat

/-- Second loop of `normalize_angle`:
`while angle < -PI { angle += PI * 2.0 }`. -/
def normLoop2 (angle : ℝ) : ℝ :=
  if h : angle < -π then normLoop2 (angle + π * 2) else angle
termination_by normLoop2Fuel angle
decreasing_by
  have hπ : (0:ℝ) < π := Real.pi_pos
  have hd : (-π - (angle + π * 2)) / (2 * π) = (-π - angle) / (2 * π) - 1 := by
    field_simp
    ring
  have hpos : 0 < (-π - angle) / (2 * π) := by
    apply div_pos (by linarith) (by positivity)
  have hceil : (0:ℤ) < ⌈(-π - angle) / (2 * π)⌉ := Int.ceil_pos.mpr hpos
  unfold normLoop2Fuel
  rw [hd, Int.ceil_sub_one]
  omega

/-- `normalize_angle` -/
def normalize_angle (angle : ℝ) : ℝ := normLoop2 (normLoop1 angle)

namespace MapSection

/-- `MapSection::new` -/
def new (shape : MapSectionShape) (width_start width_end : ℝ) : MapSection :=
  { shape := shape
    width_start := width_start
    width_end := width_end
    start := V3.zero
    endPos := V3.zero
    center := V3.zero
    heading_start := 0
    heading_end := 0 }

/-- `MapSection::is_valid` -/
def isValid (s : MapSection) : Prop :=
  0 < s.width_start ∧ 0 < s.width_end ∧
  match s.shape with
  | .straigth d => 0 < d.length
  | .slope d => 0 < d.length ∧ d.height ≠ 0
  | .turn d => 0 < d.radius_start ∧ 0 < d.radius_end

/-- `MapSection::from_protocol_data` -/
def from_protocol_data (data : ProtocolMapSectionData) : MapSection :=
  match data with
  | .straight s =>
    new (.straigth ⟨dim_from_proto s.length⟩)
      (dim_from_proto s.width_start) (dim_from_proto s.width_end)
  | .turnRight s =>
    new (.turn ⟨dim_from_proto s.radius_start, dim_from_proto s.radius_end,
        ang_from_proto s.angle⟩)
      (dim_from_proto s.width_start) (dim_from_proto s.width_end)
  | .turnLeft s =>
    new (.turn ⟨dim_from_proto s.radius_start, dim_from_proto s.radius_end,
        -ang_from_proto s.angle⟩)
      (dim_from_proto s.width_start) (dim_from_proto s.width_end)
  | .slopeUp s =>
    new (.slope ⟨dim_from_proto s.length, dim_from_proto s.height⟩)
      (dim_from_proto s.width_start) (dim_from_proto s.width_end)
  | .slopeDown s =>
    new (.slope ⟨dim_from_proto s.length, -dim_from_proto s.height⟩)
      (dim_from_proto s.width_start) (dim_from_proto s.width_end)

/-- `MapSection::compute_end_geometry` -/
def compute_end_geometry (s : MapSection) : V3 × ℝ × V3 :=
  match s.shape with
  | .straigth d =>
    let delta := (rotY s.heading_start V3.unit_z).smul d.length
    let center := s.start.add (delta.sdiv 2)
    (s.start.add delta, s.heading_start, center)
  | .turn d =>
    let dir_front := rotY s.heading_start V3.unit_z
    let dir_to_center :=
      if d.turning_angle > 0 then rotY (π / 2) dir_front else rotY (-(π / 2)) dir_front
    let center := s.start.add (dir_to_center.smul d.radius_start)
    let dir_from_center_to_start := dir_to_center.neg
    let from_center_to_end :=
      rotY d.turning_angle (dir_from_center_to_start.smul d.radius_end)
    (center.add from_center_to_end,
      normalize_angle (s.heading_start + d.turning_angle),
      center)
  | .slope d =>
    let delta_flat := (rotY s.heading_start V3.unit_z).smul d.length
    let delta_height := V3.unit_y.smul d.height
    let delta := delta_flat.add delta_height
    let center := s.start.add (delta.sdiv 2)
    (s.start.add delta, s.heading_start, center)

end MapSection

/-- `MAP_SECTIONS_MAX_COUNT` -/
def MAP_SECTIONS_MAX_COUNT : ℕ := 20

/-- `Map`: `sections` is the fixed array of 20 sections, modelled as a
total function (only indices `< 20` are ever used by the source). -/
structure Map where
  length : ℕ
  sections : ℕ → MapSection

/-- `EMPTY_SECTION` -/
def EMPTY_SECTION : MapSection :=
  { shape := .straigth ⟨0⟩
    width_start := 0
    width_end := 0
    start := V3.zero
    endPos := V3.zero
    center := V3.zero
    heading_start := 0
    heading_end := 0 }

namespace Map

/-- `Map::new` -/
def new : Map := { length := 0, sections := fun _ => EMPTY_SECTION }

/-- `Map::is_valid` -/
def isValid (m : Map) : Prop :=
  0 < m.length ∧ ∀ i < m.length, (m.sections i).isValid

/-- `Map::configure_section` -/
def configure_section (m : Map) (index : ℕ) (section_ : MapSection) : Map :=
  { m with sections := fun j => if j = index then section_ else m.sections j }

/-- The `length`-computation loop of `complete_configuration`: for
`i in 0..MAP_SECTIONS_MAX_COUNT`, `length` becomes `i + 1` whenever
section `i` is individually valid. -/
def completeLength (s : ℕ → MapSection) : ℕ :=
  (List.range MAP_SECTIONS_MAX_COUNT).foldl
    (fun acc i => if (s i).isValid then i + 1 else acc) 0

/-- The chaining loop of `complete_configuration`: starting at slot `i`,
chain `n` sections from pose (`start`, `heading_start`). -/
def chainFrom (s : ℕ → MapSection) (i : ℕ) (n : ℕ) (start : V3) (heading_start : ℝ) :
    ℕ → MapSection :=
  match n with
  | 0 => s
  | n + 1 =>
    let sec0 := s i
    let sec1 := { sec0 with start := start, heading_start := heading_start }
    let ehc := sec1.compute_end_geometry
    let sec2 := { sec1 with endPos := ehc.1, heading_end := ehc.2.1, center := ehc.2.2 }
    chainFrom (fun j => if j = i then sec2 else s j) (i + 1) n ehc.1 ehc.2.1

/-- `Map::complete_configuration` -/
def complete_configuration (m : Map) : Map :=
  let len := completeLength m.sections
  let m1 : Map := { length := len, sections := m.sections }
  if m1.isValid then
    { m1 with sections := chainFrom m1.sections 0 len V3.zero 0 }
  else m1

/-- `Map::fix_index` -/
def fix_index (m : Map) (index : ℕ) : ℕ :=
  if 0 < m.length then index % m.length else index

/-- `Map::next_index` -/
def next_index (m : Map) (index : ℕ) : ℕ := m.fix_index (index + 1)

/-- Checked `usize` subtraction: `none` is the Rust debug-mode underflow
panic of `a - b` with `b > a`. -/
def usizeSub (a b : ℕ) : Option ℕ := if b ≤ a then some (a - b) else none

/-- `Map::previous_index`; the `index == 0` arm computes `self.length - 1`,
which underflows when `length == 0`. -/
def previous_index (m : Map) (index : ℕ) : Option ℕ :=
  if index > 0 then usizeSub index 1 else usizeSub m.length 1

/-- The `Index<usize>` impl: `map[i]` is `sections[fix_index(i)]`. -/
def get (m : Map) (index : ℕ) : MapSection := m.sections (m.fix_index index)

end Map

end

end FR

namespace FR

noncomputable section

open Real

open scoped Classical

/-- `MapSectionSegment` (the `NaV3` center is the same `V3` model). -/
structure MapSectionSegment where
  center : V3
  heading : ℝ
  pitch : ℝ
  length_left : ℝ
  length_right : ℝ
  width_start : ℝ
  width_end : ℝ
  is_lighter : Bool

/-- `lerp` -/
def lerp (v1 v2 interval : ℝ) : ℝ := v1 + (v2 - v1) * interval

/-- Truncation toward zero of a real (the rounding mode of Rust's
`as i32` float cast). -/
def truncToInt (x : ℝ) : ℤ := if 0 ≤ x then ⌊x⌋ else -⌊-x⌋

/-- Rust `f32 as i32`: truncation toward zero, saturating at the `i32`
bounds. -/
def rustCastI32 (x : ℝ) : ℤ := max (-2147483648) (min 2147483647 (truncToInt x))

/-- The per-turn segment loop of `map_segmentation` (`for i in 0..steps`):
`k` counts the remaining iterations, `i` is the loop variable, `lighter`
is the running `is_lighter` flag toggled after each push. -/
def turnSegs (sec : MapSection) (d : MapSectionTurn) (steps : ℤ)
    (left_length_start right_length_start left_length_end right_length_end : ℝ)
    (center_to_start : V3) : ℕ → ℕ → Bool → List MapSectionSegment
  | 0, _, _ => []
  | k + 1, i, lighter =>
    let half_steps := steps * 2
    let half_interval : ℝ := 1 / (half_steps : ℝ)
    let interval := half_interval * ((i : ℝ) * 2 + 1)
    let angle := lerp 0 d.turning_angle interval
    let center_to_segment_center :=
      (rotY angle center_to_start).smul (lerp d.radius_start d.radius_end interval)
    let segment_center := sec.center.add center_to_segment_center
    { center := segment_center
      heading := sec.heading_start + angle
      pitch := 0
      length_left := lerp left_length_start left_length_end interval
      length_right := lerp right_length_start right_length_end interval
      width_start := lerp sec.width_start sec.width_end interval
      width_end := lerp sec.width_start sec.width_end interval
      is_lighter := lighter } ::
      turnSegs sec d steps left_length_start right_length_start
        left_length_end right_length_end center_to_start k (i + 1) (!lighter)

/-- The body of the `map_segmentation` loop for one section: the list of
segments pushed for that section. -/
def sectionSegments (sec : MapSection) : List MapSectionSegment :=
  match sec.shape with
  | .straigth s =>
    [{ center := sec.center
       heading := sec.heading_start
       pitch := 0
       length_left := s.length
       length_right := s.length
       width_start := sec.width_start
       width_end := sec.width_end
       is_lighter := true }]
  | .slope s =>
    [{ center := sec.center
       heading := sec.heading_start
       pitch := Real.arctan (s.height / s.length)
       length_left := Real.sqrt (s.length ^ 2 + s.height ^ 2)
       length_right := Real.sqrt (s.length ^ 2 + s.height ^ 2)
       width_start := sec.width_start
       width_end := sec.width_end
       is_lighter := true }]
  | .turn s =>
    let steps := rustCastI32 (|s.turning_angle| * (180 / π) / 15)
    let steps := if steps % 2 = 0 then steps + 1 else steps
    let half_steps := steps * 2
    let half_interval : ℝ := 1 / (half_steps : ℝ)
    let angle_half_interval := |s.turning_angle * half_interval|
    let inner_length_start :=
      (s.radius_start - sec.width_start / 2) * Real.sin angle_half_interval * 2
    let outer_length_start :=
      (s.radius_start + sec.width_start / 2) * Real.sin angle_half_interval * 2
    let inner_length_end :=
      (s.radius_end - sec.width_end / 2) * Real.sin angle_half_interval * 2
    let outer_length_end :=
      (s.radius_end + sec.width_end / 2) * Real.sin angle_half_interval * 2
    let lr :=
      if s.turning_angle > 0 then
        (inner_length_start, outer_length_start, inner_length_end, outer_length_end)
      else
        (outer_length_start, inner_length_start, outer_length_end, inner_length_end)
    let center_to_start := (sec.start.sub sec.center).normalized
    turnSegs sec s steps lr.1 lr.2.1 lr.2.2.1 lr.2.2.2 center_to_start steps.toNat 0 false

/-- `map_segmentation`: the concatenation, in order, of the segments of
sections `0 .. map.length`. -/
def mapSegmentation (m : Map) : List MapSectionSegment :=
  (List.range m.length).flatMap (fun i => sectionSegments (m.get i))

end

end FR

namespace FR

/-! ### Specification-level byte strings

Pure descriptions of what the imperative writers put in the buffer; each
writer is proved equal to `writeString` of its byte string. -/

/-- The digit codes emitted by the `emitDigits` loop. -/
def digitsBytes (pow10 value : ℕ) : List ℕ :=
  if h : pow10 = 0 then []
  else digitCode (value / pow10) :: digitsBytes (pow10 / 10) (value % pow10)
termination_by pow10
decreasing_by exact Nat.div_lt_self (Nat.pos_of_ne_zero h) (by omega)

/-- The bytes emitted by `write_i32`. -/
def i32Bytes (value : ℤ) : List ℕ :=
  if value = 0 then [digitCode 0]
  else
    (if value < 0 then [CODE_MINUS] else []) ++
      digitsBytes (canonPow10 10 value.natAbs / 10) value.natAbs

/-- The bytes of one `":<i32>"` group. -/
def sepI32 (v : ℤ) : List ℕ := CODE_SEPARATOR :: i32Bytes v

/-- The frame bytes produced by `BotCommand::write`. -/
def cmdBytes : BotCommand → List ℕ
  | .mapStart n => kwMAP_START ++ (sepI32 (usizeAsI32 n) ++ [CODE_END])
  | .mapSection s =>
    kwMAP_SECTION ++ (sepI32 (usizeAsI32 s.index) ++ ([CODE_SEPARATOR] ++
      (match s.data with
       | .straight d =>
         kwSTRAIGHT ++ (sepI32 d.length ++ (sepI32 d.width_start ++
           (sepI32 d.width_end ++ [CODE_END])))
       | .turnLeft d =>
         kwLEFT ++ (sepI32 d.angle ++ (sepI32 d.width_start ++ (sepI32 d.width_end ++
           (sepI32 d.radius_start ++ (sepI32 d.radius_end ++ [CODE_END])))))
       | .turnRight d =>
         kwRIGHT ++ (sepI32 d.angle ++ (sepI32 d.width_start ++ (sepI32 d.width_end ++
           (sepI32 d.radius_start ++ (sepI32 d.radius_end ++ [CODE_END])))))
       | .slopeUp d =>
         kwUP ++ (sepI32 d.length ++ (sepI32 d.height ++ (sepI32 d.width_start ++
           (sepI32 d.width_end ++ [CODE_END]))))
       | .slopeDown d =>
         kwDOWN ++ (sepI32 d.length ++ (sepI32 d.height ++ (sepI32 d.width_start ++
           (sepI32 d.width_end ++ [CODE_END])))))))
  | .mapEnd => kwMAP_END ++ [CODE_END]
  | .reset => kwRESET ++ [CODE_END]
  | .start => kwSTART ++ [CODE_END]
  | .pause => kwPAUSE ++ [CODE_END]
  | .restart => kwRESTART ++ [CODE_END]
  | .direct m =>
    kwDIRECT ++ (sepI32 m.back_left ++ (sepI32 m.back_right ++
      (sepI32 m.front_left ++ (sepI32 m.front_right ++ [CODE_END]))))

/-- The frame bytes produced by `BotEvent::write`. -/
def evtBytes : BotEvent → List ℕ
  | .status s =>
    kwSTATUS ++ ([CODE_SEPARATOR] ++
      (match s with
       | .invalidMap => kwINVALID_MAP ++ [CODE_END]
       | .deviceError => kwDEVICE_ERROR ++ [CODE_END]
       | .stopped => kwSTOPPED ++ [CODE_END]
       | .waiting d => kwWAITING ++ (sepI32 d.target ++ (sepI32 d.elapsed ++ [CODE_END]))
       | .racing d =>
         kwRACING ++ (sepI32 (usizeAsI32 d.section_) ++ (sepI32 d.completion_low ++
           (sepI32 d.completion_high ++ (sepI32 d.positioning_left ++
             (sepI32 d.positioning_right ++ [CODE_END])))))))
  | .lasers vs => kwLASERS ++ (vs.flatMap sepI32 ++ [CODE_END])
  | .imu d =>
    kwIMU ++ (sepI32 d.rotation_x ++ (sepI32 d.rotation_y ++ (sepI32 d.rotation_z ++
      (sepI32 d.acceleration_x ++ (sepI32 d.acceleration_y ++ (sepI32 d.acceleration_z ++
        (sepI32 d.gravity_x ++ (sepI32 d.gravity_y ++ (sepI32 d.gravity_z ++
          [CODE_END])))))))))
  | .log msg => kwLOG ++ ([CODE_SEPARATOR] ++ (msg ++ [CODE_END]))

/-- The buffer holds exactly the bytes `l` at positions `i, i+1, …` (all
in bounds). -/
def Holds (buf : Buf) (i : ℕ) (l : List ℕ) : Prop :=
  ∀ k < l.length, bget buf (i + k) = some (l.getD k 0)

/-! ### Field-range predicates (claim C1) -/

/-- Values whose `write_i32` emission stays canonical: the `pow10` loop
never leaves `i32`.  At magnitude `10^9` and beyond the source panics
(debug) or garbles/hangs (release); every documented protocol field lies
far inside this bound. -/
def i32WriteRange (v : ℤ) : Prop := v.natAbs ≤ 999999999

/-- A `usize` written via `as i32` whose emission stays canonical. -/
def usizeWriteRange (n : ℕ) : Prop := n ≤ 999999999

def sectionDataInRange : ProtocolMapSectionData → Prop
  | .straight d => i32WriteRange d.width_start ∧ i32WriteRange d.width_end ∧
      i32WriteRange d.length
  | .turnLeft d => i32WriteRange d.width_start ∧ i32WriteRange d.radius_start ∧
      i32WriteRange d.width_end ∧ i32WriteRange d.radius_end ∧ i32WriteRange d.angle
  | .turnRight d => i32WriteRange d.width_start ∧ i32WriteRange d.radius_start ∧
      i32WriteRange d.width_end ∧ i32WriteRange d.radius_end ∧ i32WriteRange d.angle
  | .slopeUp d => i32WriteRange d.width_start ∧ i32WriteRange d.width_end ∧
      i32WriteRange d.length ∧ i32WriteRange d.height
  | .slopeDown d => i32WriteRange d.width_start ∧ i32WriteRange d.width_end ∧
      i32WriteRange d.length ∧ i32WriteRange d.height

/-- Documented field ranges of a command. -/
def cmdInRange : BotCommand → Prop
  | .mapStart n => usizeWriteRange n
  | .mapSection s => usizeWriteRange s.index ∧ sectionDataInRange s.data
  | .mapEnd => True
  | .reset => True
  | .start => True
  | .pause => True
  | .restart => True
  | .direct m => i32WriteRange m.back_left ∧ i32WriteRange m.back_right ∧
      i32WriteRange m.front_left ∧ i32WriteRange m.front_right

/-- The integer-field bounds an event needs for its write to emit canonical
digits (no constraint on the log payload or the laser count). -/
def evtIntsOk : BotEvent → Prop
  | .status .invalidMap => True
  | .status .deviceError => True
  | .status .stopped => True
  | .status (.waiting d) => i32WriteRange d.target ∧ i32WriteRange d.elapsed
  | .status (.racing d) => usizeWriteRange d.section_ ∧ i32WriteRange d.completion_low ∧
      i32WriteRange d.completion_high ∧ i32WriteRange d.positioning_left ∧
      i32WriteRange d.positioning_right
  | .lasers vs => ∀ v ∈ vs, i32WriteRange v
  | .imu d => i32WriteRange d.rotation_x ∧ i32WriteRange d.rotation_y ∧
      i32WriteRange d.rotation_z ∧ i32WriteRange d.acceleration_x ∧
      i32WriteRange d.acceleration_y ∧ i32WriteRange d.acceleration_z ∧
      i32WriteRange d.gravity_x ∧ i32WriteRange d.gravity_y ∧ i32WriteRange d.gravity_z
  | .log _ => True

/-- Documented field ranges of an event; a log message is raw non-`'\n'`
bytes, of length at most `maxLog`. -/
def evtInRange (maxLog : ℕ) : BotEvent → Prop
  | .status .invalidMap => True
  | .status .deviceError => True
  | .status .stopped => True
  | .status (.waiting d) => i32WriteRange d.target ∧ i32WriteRange d.elapsed
  | .status (.racing d) => usizeWriteRange d.section_ ∧ i32WriteRange d.completion_low ∧
      i32WriteRange d.completion_high ∧ i32WriteRange d.positioning_left ∧
      i32WriteRange d.positioning_right
  | .lasers vs => vs.length = LASER_COUNT ∧ ∀ v ∈ vs, i32WriteRange v
  | .imu d => i32WriteRange d.rotation_x ∧ i32WriteRange d.rotation_y ∧
      i32WriteRange d.rotation_z ∧ i32WriteRange d.acceleration_x ∧
      i32WriteRange d.acceleration_y ∧ i32WriteRange d.acceleration_z ∧
      i32WriteRange d.gravity_x ∧ i32WriteRange d.gravity_y ∧ i32WriteRange d.gravity_z
  | .log msg => msg.length ≤ maxLog ∧ ∀ c ∈ msg, c < 256 ∧ c ≠ CODE_END

/-- The command keyword table, in the parser's priority order. -/
def cmdKeywords : List (List ℕ) :=
  [kwMAP_START, kwMAP_SECTION, kwMAP_END, kwRESET, kwSTART, kwPAUSE, kwRESTART, kwDIRECT]

/-- The event keyword table, in the parser's priority order. -/
def evtKeywords : List (List ℕ) := [kwSTATUS, kwLASERS, kwIMU, kwLOG]

end FR

namespace FR

/-- A frame whose payload is an unterminated digit run: `"DIRECT:111…"`,
`'1'` repeated through the end of the buffer. -/
def crashBuf : Buf := fun i =>
  if i = 0 then 68 else if i = 1 then 73 else if i = 2 then 82 else
  if i = 3 then 69 else if i = 4 then 67 else if i = 5 then 84 else
  if i = 6 then 58 else 49

noncomputable section

open Real

open scoped Classical

/-- A valid one-metre straight section, one metre wide. -/
def secStraight1 : MapSection := MapSection.new (.straigth ⟨1⟩) 1 1

/-- Sections with a gap: slot 1 is valid, slot 0 (and all others) invalid. -/
def gapSections : ℕ → MapSection := fun i => if i = 1 then secStraight1 else EMPTY_SECTION

/-- A map holding `gapSections`. -/
def gapMap : Map := { length := 0, sections := gapSections }

/-- Two consecutive valid straight sections in slots 0 and 1. -/
def twoSections : ℕ → MapSection := fun i => if i < 2 then secStraight1 else EMPTY_SECTION

/-- A map holding `twoSections`. -/
def twoMap : Map := { length := 0, sections := twoSections }

/-- A single valid turn section of one full half revolution (`π`). -/
def secTurnPi : MapSection := MapSection.new (.turn ⟨1, 1, π⟩) 1 1

/-- Sections holding just `secTurnPi` in slot 0. -/
def turnPiSections : ℕ → MapSection := fun i => if i = 0 then secTurnPi else EMPTY_SECTION

/-- A map holding `turnPiSections`. -/
def turnPiMap : Map := { length := 0, sections := turnPiSections }

/-- The odd-rounding step of the turn subdivision:
`let steps = if steps % 2 == 0 { steps + 1 } else { steps }`. -/
def roundToOdd (t : ℤ) : ℤ := if t % 2 = 0 then t + 1 else t

/-- A 50° turn section (`5π/18` radians), radii and widths `1`. -/
def sec50 : MapSection := MapSection.new (.turn ⟨1, 1, 5 * π / 18⟩) 1 1

/-- A one-section map holding `sec50`. -/
def map50 : Map := { length := 1, sections := fun _ => sec50 }

end

end FR

namespace FR

@[simp] theorem PR.bind_crash {α β : Type} (f : α → PR β) : bind .crash f = .crash := rfl

@[simp] theorem PR.bind_err {α β : Type} (i : ℕ) (f : α → PR β) : bind (.err i) f = .err i := rfl

@[simp] theorem PR.bind_ok {α β : Type} (a : α) (f : α → PR β) : bind (.ok a) f = f a := rfl

@[simp] theorem PR.isOk_ok {α : Type} (a : α) : PR.isOk (.ok a) = true := rfl

@[simp] theorem bget_lt (buf : Buf) (i : ℕ) (h : i < 256) : bget buf i = some (buf i) := by
  simp [bget, PROTOCOL_BUFFER_SIZE, h]

@[simp] theorem bset_same (buf : Buf) (i c : ℕ) : bset buf i c i = c := by simp [bset]

theorem bset_other (buf : Buf) (i c j : ℕ) (h : j ≠ i) : bset buf i c j = buf j := by
  simp [bset, h]

@[simp] theorem usizeAsI32_small (n : ℕ) (h : n < 2147483648) : usizeAsI32 n = n := by
  simp [usizeAsI32, Nat.mod_eq_of_lt (by omega : n < 4294967296), h]

@[simp] theorem i32ToUsize_small (v : ℤ) (h0 : 0 ≤ v) (h : v < 2147483648) :
    i32ToUsize v = v.toNat := by
  rw [i32ToUsize, Int.emod_eq_of_lt h0 (by omega)]

theorem usizeAsI32_range (n : ℕ) (h : usizeWriteRange n) : i32WriteRange (usizeAsI32 n) := by
  have hn : n ≤ 999999999 := h
  rw [usizeAsI32_small n (by omega)]
  show (n : ℤ).natAbs ≤ 999999999
  simpa using hn

end FR


namespace FR

/-! ### Buffer write and `Holds` lemmas -/

theorem writeString_snd (l : List ℕ) : ∀ (buf : Buf) (i : ℕ),
    (writeString buf i l).2 = i + l.length := by
  induction l with
  | nil => intro buf i; simp [writeString]
  | cons c cs ih =>
    intro buf i
    simp only [writeString, ih, List.length_cons]
    omega

theorem writeString_append (l1 l2 : List ℕ) : ∀ (buf : Buf) (i : ℕ),
    writeString buf i (l1 ++ l2) = writeString (writeString buf i l1).1 (i + l1.length) l2 := by
  induction l1 with
  | nil => intro buf i; simp [writeString]
  | cons c cs ih =>
    intro buf i
    simp only [List.cons_append, writeString, List.length_cons]
    rw [show i + (cs.length + 1) = i + 1 + cs.length by omega]
    exact ih (bset buf i c) (i + 1)

theorem writeString_untouched (l : List ℕ) : ∀ (buf : Buf) (i j : ℕ),
    (j < i ∨ i + l.length ≤ j) → (writeString buf i l).1 j = buf j := by
  induction l with
  | nil => intro buf i j _; simp [writeString]
  | cons c cs ih =>
    intro buf i j hj
    simp only [List.length_cons] at hj
    simp only [writeString]
    rw [ih _ (i + 1) j (by omega), bset_other _ _ _ _ (by omega)]

theorem writeString_get (l : List ℕ) : ∀ (buf : Buf) (i k : ℕ), k < l.length →
    (writeString buf i l).1 (i + k) = l.getD k 0 := by
  induction l with
  | nil => intro buf i k hk; simp at hk
  | cons c cs ih =>
    intro buf i k hk
    match k with
    | 0 =>
      simp only [writeString, List.getD_cons_zero, Nat.add_zero]
      rw [writeString_untouched _ _ _ _ (by omega)]
      simp
    | k + 1 =>
      simp only [writeString, List.getD_cons_succ]
      rw [show i + (k + 1) = (i + 1) + k by omega]
      exact ih _ (i + 1) k (by simpa using hk)

theorem holds_writeString (l : List ℕ) (buf : Buf) (i : ℕ) (h : i + l.length ≤ 256) :
    Holds (writeString buf i l).1 i l := by
  intro k hk
  rw [bget_lt _ _ (by omega), writeString_get _ _ _ _ hk]

theorem Holds.split {buf : Buf} {i : ℕ} {l1 l2 : List ℕ} (h : Holds buf i (l1 ++ l2)) :
    Holds buf i l1 ∧ Holds buf (i + l1.length) l2 := by
  constructor
  · intro k hk
    have := h k (by simp; omega)
    rwa [List.getD_append _ _ _ _ hk] at this
  · intro k hk
    have := h (l1.length + k) (by simp; omega)
    rw [show i + (l1.length + k) = i + l1.length + k by omega] at this
    rwa [List.getD_append_right _ _ _ _ (by omega), Nat.add_sub_cancel_left] at this

theorem Holds.splitAt (l1 : List ℕ) {l2 : List ℕ} {buf : Buf} {i : ℕ}
    (h : Holds buf i (l1 ++ l2)) : Holds buf i l1 ∧ Holds buf (i + l1.length) l2 :=
  h.split

theorem Holds.head {buf : Buf} {i : ℕ} {c : ℕ} {l : List ℕ} (h : Holds buf i (c :: l)) :
    bget buf i = some c := by
  have := h 0 (by simp)
  simpa using this

theorem Holds.tail {buf : Buf} {i : ℕ} {c : ℕ} {l : List ℕ} (h : Holds buf i (c :: l)) :
    Holds buf (i + 1) l := by
  intro k hk
  have := h (k + 1) (by simp; omega)
  rw [show i + (k + 1) = i + 1 + k by omega] at this
  simpa using this

end FR

namespace FR

/-! ### The imperative writers produce their specification byte strings -/

theorem emitDigits_eq (p : ℕ) : ∀ (v : ℕ) (buf : Buf) (i : ℕ),
    emitDigits buf i p v = writeString buf i (digitsBytes p v) := by
  induction p using Nat.strong_induction_on with
  | _ p ih =>
    intro v buf i
    rw [emitDigits, digitsBytes]
    by_cases hp : p = 0
    · simp [hp, writeString]
    · rw [dif_neg hp, dif_neg hp, writeString]
      exact ih (p / 10) (Nat.div_lt_self (Nat.pos_of_ne_zero hp) (by omega)) _ _ _

theorem appendSeparator_eq (buf : Buf) (i : ℕ) :
    appendSeparator buf i = writeString buf i [CODE_SEPARATOR] := by
  simp [appendSeparator, appendCode, writeString]

theorem appendEnd_eq (buf : Buf) (i : ℕ) :
    appendEnd buf i = writeString buf i [CODE_END] := by
  simp [appendEnd, appendCode, writeString]

/-! ### Decimal digit emission: structure and value -/

theorem canonPow10_spec (n : ℕ) : ∀ (e : ℕ), 10 ^ e ≤ n →
    ∀ (m : ℕ), n + 1 - 10 ^ (e + 1) = m →
    ∃ f, e ≤ f ∧ canonPow10 (10 ^ (e + 1)) n = 10 ^ (f + 1) ∧ 10 ^ f ≤ n ∧ n < 10 ^ (f + 1) := by
  have main : ∀ (m : ℕ), ∀ (e : ℕ), 10 ^ e ≤ n → n + 1 - 10 ^ (e + 1) = m →
      ∃ f, e ≤ f ∧ canonPow10 (10 ^ (e + 1)) n = 10 ^ (f + 1) ∧ 10 ^ f ≤ n ∧ n < 10 ^ (f + 1) := by
    intro m
    induction m using Nat.strong_induction_on with
    | _ m ih =>
      intro e he hm
      rw [canonPow10]
      by_cases hc : 10 ^ (e + 1) ≤ n
      · have hpos : 0 < 10 ^ (e + 1) := pow_pos (by norm_num) _
        have hlt : 10 ^ (e + 1) < 10 ^ (e + 2) :=
          Nat.pow_lt_pow_right (by norm_num) (by omega)
        rw [dif_pos ⟨hpos, hc⟩, show (10:ℕ) ^ (e + 1) * 10 = 10 ^ (e + 2) by ring]
        obtain ⟨f, hef, heq, h1, h2⟩ :=
          ih (n + 1 - 10 ^ (e + 2)) (by omega) (e + 1) hc rfl
        exact ⟨f, by omega, heq, h1, h2⟩
      · rw [dif_neg (fun hh => hc hh.2)]
        exact ⟨e, le_refl _, rfl, he, by omega⟩
  intro e he m hm
  exact main m e he hm

/-- On canonical inputs (`value < 10^9`, `pow10` a power of ten at most
`10^9`) the source loop neither overflows nor wraps: `findPow10` succeeds
and agrees with the canonical `canonPow10`. -/
theorem findPow10_canon :
    ∀ (d e n : ℕ), 10 - e = d → e ≤ 9 → n ≤ 999999999 →
      findPow10 (10 ^ e) n = some (canonPow10 (10 ^ e) n) := by
  intro d
  induction d using Nat.strong_induction_on with
  | _ d ih =>
    intro e n hd he hn
    rw [findPow10, canonPow10]
    have hpos : 0 < (10:ℕ) ^ e := pow_pos (by norm_num) _
    by_cases hc : 10 ^ e ≤ n
    · have he8 : e ≤ 8 := by
        by_contra hq
        have h9 : e = 9 := by omega
        subst h9
        have : (10:ℕ) ^ 9 = 1000000000 := by norm_num
        omega
      have hfit : 10 ^ e * 10 ≤ 2147483647 := by
        have hb : (10:ℕ) ^ e ≤ 10 ^ 8 := Nat.pow_le_pow_right (by norm_num) he8
        have h8 : (10:ℕ) ^ 8 = 100000000 := by norm_num
        omega
      rw [dif_pos ⟨hpos, hc⟩, dif_pos ⟨hpos, hc⟩, if_pos hfit,
        show (10:ℕ) ^ e * 10 = 10 ^ (e + 1) by ring]
      exact ih (10 - (e + 1)) (by omega) (e + 1) n rfl (by omega) hn
    · rw [dif_neg (fun hh => hc hh.2), dif_neg (fun hh => hc hh.2)]

theorem writeI32_eq (buf : Buf) (i : ℕ) (v : ℤ) (h : i32WriteRange v) :
    writeI32 buf i v = some (writeString buf i (i32Bytes v)) := by
  have habs : v.natAbs ≤ 999999999 := h
  rw [writeI32, i32Bytes]
  by_cases h0 : v = 0
  · simp [h0, writeString]
  · have hmin : v ≠ -2147483648 := by
      intro hq
      rw [hq] at habs
      norm_num at habs
    rw [if_neg h0, if_neg h0, if_neg hmin]
    have hfind : findPow10 10 v.natAbs = some (canonPow10 10 v.natAbs) := by
      rw [show (10:ℕ) = 10 ^ 1 from by norm_num]
      exact findPow10_canon 9 1 v.natAbs rfl (by omega) habs
    simp only [hfind, Option.map_some']
    by_cases hneg : v < 0
    · simp only [if_pos hneg, List.cons_append, List.nil_append, writeString]
      rw [emitDigits_eq]
    · simp only [if_neg hneg, List.nil_append]
      rw [emitDigits_eq]

/-- The digit fold used by `match_i32` (over `ℤ`). -/
theorem digitsBytes_spec (e : ℕ) : ∀ v : ℕ, v < 10 ^ (e + 1) →
    (digitsBytes (10 ^ e) v).length = e + 1 ∧
    (∀ c ∈ digitsBytes (10 ^ e) v, 48 ≤ c ∧ c ≤ 57) ∧
    (∀ acc : ℤ, List.foldl (fun (a : ℤ) (c : ℕ) => a * 10 + ((c : ℤ) - 48)) acc
      (digitsBytes (10 ^ e) v) = acc * 10 ^ (e + 1) + v) := by
  induction e with
  | zero =>
    intro v hv
    have h1 : digitsBytes 1 v = [digitCode v] := by
      rw [digitsBytes, digitsBytes]
      norm_num
    rw [pow_zero, h1]
    have hv10 : v < 10 := by simpa using hv
    refine ⟨rfl, ?_, ?_⟩
    · intro c hc
      simp only [List.mem_singleton] at hc
      subst hc
      simp only [digitCode]
      omega
    · intro acc
      simp only [List.foldl_cons, List.foldl_nil, digitCode]
      push_cast
      ring
  | succ e ih =>
    intro v hv
    rw [digitsBytes]
    have hne : (10:ℕ) ^ (e + 1) ≠ 0 := by positivity
    rw [dif_neg hne]
    have hdiv : (10:ℕ) ^ (e + 1) / 10 = 10 ^ e := by
      rw [pow_succ]
      exact Nat.mul_div_cancel _ (by norm_num)
    have hmod : v % 10 ^ (e + 1) < 10 ^ (e + 1) := Nat.mod_lt _ (by positivity)
    obtain ⟨hlen, hdig, hfold⟩ := ih (v % 10 ^ (e + 1)) hmod
    have hd9 : v / 10 ^ (e + 1) < 10 := by
      apply (Nat.div_lt_iff_lt_mul (by positivity : 0 < (10:ℕ) ^ (e + 1))).mpr
      calc v < 10 ^ (e + 2) := hv
        _ = 10 * 10 ^ (e + 1) := by ring
    have hvm : (10:ℕ) ^ (e + 1) * (v / 10 ^ (e + 1)) + v % 10 ^ (e + 1) = v :=
      Nat.div_add_mod _ _
    have hvmz : ((10:ℤ)) ^ (e + 1) * ((v / 10 ^ (e + 1) : ℕ) : ℤ) +
        ((v % 10 ^ (e + 1) : ℕ) : ℤ) = (v : ℤ) := by exact_mod_cast hvm
    refine ⟨?_, ?_, ?_⟩
    · rw [hdiv]
      simp [hlen]
    · intro c hc
      rw [hdiv] at hc
      rcases List.mem_cons.mp hc with h | h
      · subst h
        revert hd9
        generalize v / 10 ^ (e + 1) = d
        intro hd9
        simp only [digitCode]
        omega
      · exact hdig c h
    · intro acc
      rw [hdiv]
      simp only [List.foldl_cons]
      rw [hfold]
      have hdc : ((digitCode (v / 10 ^ (e + 1)) : ℕ) : ℤ) - 48 =
          ((v / 10 ^ (e + 1) : ℕ) : ℤ) := by
        simp only [digitCode]
        push_cast
        ring
      rw [hdc]
      calc (acc * 10 + ((v / 10 ^ (e + 1) : ℕ) : ℤ)) * 10 ^ (e + 1) +
            ((v % 10 ^ (e + 1) : ℕ) : ℤ)
          = acc * (10 ^ (e + 1) * 10) +
            (10 ^ (e + 1) * ((v / 10 ^ (e + 1) : ℕ) : ℤ) +
              ((v % 10 ^ (e + 1) : ℕ) : ℤ)) := by ring
        _ = acc * 10 ^ (e + 1 + 1) + v := by rw [hvmz]; ring

end FR

namespace FR

/-! ### Parser completeness on well-formed buffers -/

theorem bget_some {buf : Buf} {i b : ℕ} (h : bget buf i = some b) : i < 256 ∧ buf i = b := by
  by_cases hi : i < 256
  · rw [bget_lt _ _ hi] at h
    exact ⟨hi, by simpa using h⟩
  · rw [bget, if_neg (by simpa [PROTOCOL_BUFFER_SIZE] using hi)] at h
    simp at h

theorem matchString_holds (l : List ℕ) : ∀ (buf : Buf) (i : ℕ), Holds buf i l →
    matchString buf i l = .ok (i + l.length) := by
  induction l with
  | nil => intro buf i _; simp [matchString]
  | cons c cs ih =>
    intro buf i h
    rw [matchString, h.head]
    simp only [if_pos rfl, List.length_cons]
    rw [show i + (cs.length + 1) = i + 1 + cs.length by omega]
    exact ih _ _ h.tail

theorem matchCode_at (buf : Buf) (i c : ℕ) (h : bget buf i = some c) :
    matchCode buf i c = .ok (i + 1) := by
  rw [matchCode, h]
  simp

theorem matchCode_ne (buf : Buf) (i c b : ℕ) (h : bget buf i = some b) (hne : b ≠ c) :
    matchCode buf i c = .err i := by
  rw [matchCode, h]
  simp [hne]

/-- `matchString` reports the first mismatching position. -/
theorem matchString_mismatch (K : List ℕ) : ∀ (l : List ℕ) (buf : Buf) (i j : ℕ),
    j < K.length → j < l.length → Holds buf i l →
    (∀ m < j, l.getD m 0 = K.getD m 0) → l.getD j 0 ≠ K.getD j 0 →
    matchString buf i K = .err (i + j) := by
  induction K with
  | nil => intro l buf i j hj; simp at hj
  | cons c cs ih =>
    intro l buf i j hj hl h hpre hne
    match l with
    | [] => simp at hl
    | b :: bs =>
      rw [matchString, h.head]
      match j with
      | 0 =>
        simp only [List.getD_cons_zero] at hne
        simp [if_neg hne]
      | j + 1 =>
        have hb : b = c := by
          have := hpre 0 (by omega)
          simpa using this
        subst hb
        simp only [if_pos rfl]
        have hr := ih bs buf (i + 1) j (by simpa using hj)
          (by simpa using hl) h.tail
          (fun m hm => by
            have := hpre (m + 1) (by omega)
            simpa using this)
          (by
            simp only [List.getD_cons_succ] at hne
            exact hne)
        rw [hr, show i + 1 + j = i + (j + 1) by omega]
        simp

theorem matchI32Loop_digits (ds : List ℕ) : ∀ (buf : Buf) (i : ℕ) (acc : ℤ) (b : ℕ),
    (∀ c ∈ ds, 48 ≤ c ∧ c ≤ 57) → Holds buf i ds →
    bget buf (i + ds.length) = some b → digitValue b = none →
    matchI32Loop buf acc i =
      .ok (List.foldl (fun (a : ℤ) (c : ℕ) => a * 10 + ((c : ℤ) - 48)) acc ds,
        i + ds.length) := by
  induction ds with
  | nil =>
    intro buf i acc b _ _ hb hnd
    simp only [List.length_nil, Nat.add_zero] at hb
    obtain ⟨hi, hbv⟩ := bget_some hb
    rw [matchI32Loop, dif_pos (show i < PROTOCOL_BUFFER_SIZE from hi), hbv, hnd]
    simp
  | cons c cs ih =>
    intro buf i acc b hdig h hb hnd
    obtain ⟨hi, hbv⟩ := bget_some h.head
    have hcd := hdig c (by simp)
    rw [matchI32Loop, dif_pos (show i < PROTOCOL_BUFFER_SIZE from hi), hbv,
      show digitValue c = some ((c : ℤ) - 48) from by simp [digitValue, hcd.1, hcd.2]]
    show matchI32Loop buf (acc * 10 + ((c : ℤ) - 48)) (i + 1) = _
    rw [List.length_cons] at hb
    rw [ih buf (i + 1) (acc * 10 + ((c : ℤ) - 48)) b
      (fun x hx => hdig x (by simp [hx])) h.tail
      (by rwa [show i + 1 + cs.length = i + (cs.length + 1) by omega]) hnd]
    simp only [List.foldl_cons, List.length_cons]
    rw [show i + 1 + cs.length = i + (cs.length + 1) by omega]

end FR

namespace FR

theorem i32Bytes_pos (v : ℤ) (hv : 0 < v) :
    ∃ f, i32Bytes v = digitsBytes (10 ^ f) v.natAbs ∧ v.natAbs < 10 ^ (f + 1) ∧
      10 ^ f ≤ v.natAbs := by
  have h1 : (10:ℕ) ^ 0 ≤ v.natAbs := by
    simp only [pow_zero]
    omega
  obtain ⟨f, _, heq, hge, hlt⟩ := canonPow10_spec v.natAbs 0 h1 _ rfl
  refine ⟨f, ?_, hlt, hge⟩
  rw [i32Bytes, if_neg (by omega), if_neg (by omega)]
  rw [show (10:ℕ) ^ (0 + 1) = 10 by norm_num] at heq
  rw [heq, List.nil_append]
  congr 1
  rw [pow_succ]
  exact Nat.mul_div_cancel _ (by norm_num)

theorem i32Bytes_neg (v : ℤ) (hv : v < 0) :
    ∃ f, i32Bytes v = CODE_MINUS :: digitsBytes (10 ^ f) v.natAbs ∧
      v.natAbs < 10 ^ (f + 1) ∧ 10 ^ f ≤ v.natAbs := by
  have h1 : (10:ℕ) ^ 0 ≤ v.natAbs := by
    simp only [pow_zero]
    omega
  obtain ⟨f, _, heq, hge, hlt⟩ := canonPow10_spec v.natAbs 0 h1 _ rfl
  refine ⟨f, ?_, hlt, hge⟩
  rw [i32Bytes, if_neg (by omega), if_pos hv]
  rw [show (10:ℕ) ^ (0 + 1) = 10 by norm_num] at heq
  rw [heq, List.singleton_append]
  congr 2
  rw [pow_succ]
  exact Nat.mul_div_cancel _ (by norm_num)

theorem matchI32_split (buf : Buf) (i : ℕ) (b0 : ℕ) (h0 : bget buf i = some b0)
    (hne : b0 ≠ CODE_MINUS) (d : ℤ) (hd : digitValue b0 = some d) (r : ℤ × ℕ)
    (hloop : matchI32Loop buf d (i + 1) = .ok r) :
    matchI32 buf i = .ok r := by
  rw [matchI32, h0]
  simp only [if_neg hne, h0, hd, hloop]
  simp

theorem matchI32_split_neg (buf : Buf) (i : ℕ) (h0 : bget buf i = some CODE_MINUS)
    (b1 : ℕ) (h1 : bget buf (i + 1) = some b1) (d : ℤ) (hd : digitValue b1 = some d)
    (value : ℤ) (j : ℕ) (hloop : matchI32Loop buf d (i + 2) = .ok (value, j)) :
    matchI32 buf i = .ok (-value, j) := by
  rw [matchI32, h0]
  simp only [eq_self_iff_true, if_true]
  rw [h1]
  simp only [hd]
  rw [show i + 1 + 1 = i + 2 by omega, hloop]
  simp

theorem matchI32_complete (buf : Buf) (i : ℕ) (v : ℤ) (b : ℕ)
    (H : Holds buf i (i32Bytes v))
    (hb : bget buf (i + (i32Bytes v).length) = some b)
    (hnd : digitValue b = none) :
    matchI32 buf i = .ok (v, i + (i32Bytes v).length) := by
  rcases lt_trichotomy v 0 with hv | hv | hv
  · obtain ⟨f, heq, hlt, hge⟩ := i32Bytes_neg v hv
    obtain ⟨hlen, hdig, hfold⟩ := digitsBytes_spec f v.natAbs hlt
    have hnn : digitsBytes (10 ^ f) v.natAbs ≠ [] := by
      intro hcontra
      rw [hcontra] at hlen
      simp at hlen
    obtain ⟨d0, rest, hcons⟩ := List.exists_cons_of_ne_nil hnn
    rw [heq, hcons] at H
    have hd0 := hdig d0 (by rw [hcons]; simp)
    have hloop : matchI32Loop buf ((d0 : ℤ) - 48) (i + 2) =
        .ok (List.foldl (fun (a : ℤ) (c : ℕ) => a * 10 + ((c : ℤ) - 48))
          ((d0 : ℤ) - 48) rest, i + 2 + rest.length) := by
      apply matchI32Loop_digits rest buf (i + 2) _ b
      · intro x hx
        exact hdig x (by rw [hcons]; simp [hx])
      · have := H.tail.tail
        rwa [show i + 1 + 1 = i + 2 by omega] at this
      · rw [heq, hcons] at hb
        rwa [show i + (CODE_MINUS :: d0 :: rest).length = i + 2 + rest.length
          by simp; omega] at hb
      · exact hnd
    have hfv : List.foldl (fun (a : ℤ) (c : ℕ) => a * 10 + ((c : ℤ) - 48))
        ((d0 : ℤ) - 48) rest = (v.natAbs : ℤ) := by
      have := hfold 0
      rw [hcons] at this
      simpa using this
    rw [hfv] at hloop
    have := matchI32_split_neg buf i H.head d0 (by
        have := H.tail.head
        exact this) ((d0 : ℤ) - 48)
      (by simp [digitValue, hd0.1, hd0.2]) (v.natAbs : ℤ) (i + 2 + rest.length) hloop
    rw [this]
    congr 2
    · omega
    · rw [heq, hcons]
      simp
      omega
  · subst hv
    have h48 : i32Bytes 0 = [48] := by
      rw [i32Bytes]
      simp [digitCode]
    rw [h48] at H hb
    rw [h48]
    have hd0 : bget buf i = some 48 := H.head
    have hloop := matchI32Loop_digits [] buf (i + 1) ((48 : ℤ) - 48) b
      (by simp) (by intro k hk; simp at hk) (by simpa using hb) hnd
    simp only [List.foldl_nil, List.length_nil, Nat.add_zero] at hloop
    have hsplit := matchI32_split buf i 48 hd0 (by simp [CODE_MINUS]) ((48 : ℤ) - 48)
      (by norm_num [digitValue]) ((48 : ℤ) - 48, i + 1) hloop
    rw [hsplit]
    norm_num
  · obtain ⟨f, heq, hlt, hge⟩ := i32Bytes_pos v hv
    obtain ⟨hlen, hdig, hfold⟩ := digitsBytes_spec f v.natAbs hlt
    have hnn : digitsBytes (10 ^ f) v.natAbs ≠ [] := by
      intro hcontra
      rw [hcontra] at hlen
      simp at hlen
    obtain ⟨d0, rest, hcons⟩ := List.exists_cons_of_ne_nil hnn
    rw [heq, hcons] at H
    have hd0 := hdig d0 (by rw [hcons]; simp)
    have hloop : matchI32Loop buf ((d0 : ℤ) - 48) (i + 1) =
        .ok (List.foldl (fun (a : ℤ) (c : ℕ) => a * 10 + ((c : ℤ) - 48))
          ((d0 : ℤ) - 48) rest, i + 1 + rest.length) := by
      apply matchI32Loop_digits rest buf (i + 1) _ b
      · intro x hx
        exact hdig x (by rw [hcons]; simp [hx])
      · exact H.tail
      · rw [heq, hcons] at hb
        rwa [show i + (d0 :: rest).length = i + 1 + rest.length by simp; omega] at hb
      · exact hnd
    have hfv : List.foldl (fun (a : ℤ) (c : ℕ) => a * 10 + ((c : ℤ) - 48))
        ((d0 : ℤ) - 48) rest = (v.natAbs : ℤ) := by
      have := hfold 0
      rw [hcons] at this
      simpa using this
    rw [hfv] at hloop
    have := matchI32_split buf i d0 H.head (by simp only [CODE_MINUS]; omega) ((d0 : ℤ) - 48)
      (by simp [digitValue, hd0.1, hd0.2]) ((v.natAbs : ℤ), i + 1 + rest.length) hloop
    rw [this]
    congr 2
    · omega
    · rw [heq, hcons]
      simp
      omega

end FR

namespace FR

theorem writeString_fuse (buf : Buf) (i : ℕ) (l1 l2 : List ℕ) :
    writeString (writeString buf i l1).1 (writeString buf i l1).2 l2 =
    writeString buf i (l1 ++ l2) := by
  rw [writeString_append, writeString_snd]

theorem foldl_lasersO (vs : List ℤ) (hall : ∀ v ∈ vs, i32WriteRange v) :
    ∀ (bi : Buf × ℕ),
    vs.foldl (fun obi laser =>
      obi.bind fun bi =>
        writeI32 (appendSeparator bi.1 bi.2).1 (appendSeparator bi.1 bi.2).2 laser)
      (some bi) =
    some (writeString bi.1 bi.2 (vs.flatMap sepI32)) := by
  induction vs with
  | nil =>
    intro bi
    simp [writeString]
  | cons v vs ih =>
    intro bi
    rw [List.foldl_cons, List.flatMap_cons]
    rw [show ((some bi).bind fun bi =>
        writeI32 (appendSeparator bi.1 bi.2).1 (appendSeparator bi.1 bi.2).2 v) =
      writeI32 (appendSeparator bi.1 bi.2).1 (appendSeparator bi.1 bi.2).2 v from rfl]
    rw [appendSeparator_eq, writeI32_eq _ _ _ (hall v (by simp)), writeString_fuse]
    rw [ih (fun x hx => hall x (by simp [hx]))]
    rw [writeString_fuse]
    rfl

theorem foldl_lasers2 (vs : List ℤ) : ∀ (bi : Buf × ℕ),
    vs.foldl (fun bi laser => writeString bi.1 bi.2 (CODE_SEPARATOR :: i32Bytes laser)) bi =
    writeString bi.1 bi.2 (vs.flatMap sepI32) := by
  induction vs with
  | nil =>
    intro bi
    simp [writeString]
  | cons v vs ih =>
    intro bi
    rw [List.foldl_cons, ih, List.flatMap_cons, writeString_fuse]
    rfl

theorem foldl_log (msg : List ℕ) : ∀ (bi : Buf × ℕ),
    msg.foldl (fun bi code => appendCode bi.1 bi.2 code) bi =
    writeString bi.1 bi.2 msg := by
  induction msg with
  | nil =>
    intro bi
    simp [writeString]
  | cons c cs ih =>
    intro bi
    rw [List.foldl_cons, ih]
    show writeString (bset bi.1 bi.2 c) (bi.2 + 1) cs = _
    rw [writeString]

theorem writeBotCommand_eq (c : BotCommand) (buf : Buf) (h : cmdInRange c) :
    writeBotCommand c buf = some ((writeString buf 0 (cmdBytes c)).1) := by
  cases c with
  | mapStart n =>
    simp only [writeBotCommand, cmdBytes, appendSeparator_eq, appendEnd_eq,
      writeI32_eq _ _ _ (usizeAsI32_range n h), writeString_fuse, sepI32,
      List.append_assoc, List.cons_append, List.singleton_append, List.nil_append,
      Option.map_some', Option.some_bind]
  | mapSection s =>
    rcases s with ⟨idx, data⟩
    obtain ⟨hidx, hdata⟩ := h
    cases data with
    | straight d =>
      obtain ⟨r1, r2, r3⟩ := hdata
      simp only [writeBotCommand, cmdBytes, appendSeparator_eq, appendEnd_eq,
        writeI32_eq _ _ _ (usizeAsI32_range idx hidx), writeI32_eq _ _ _ r1,
        writeI32_eq _ _ _ r2, writeI32_eq _ _ _ r3, writeString_fuse, sepI32,
        List.append_assoc, List.cons_append, List.singleton_append, List.nil_append,
        Option.map_some', Option.some_bind]
    | turnLeft d =>
      obtain ⟨r1, r2, r3, r4, r5⟩ := hdata
      simp only [writeBotCommand, cmdBytes, appendSeparator_eq, appendEnd_eq,
        writeI32_eq _ _ _ (usizeAsI32_range idx hidx), writeI32_eq _ _ _ r1,
        writeI32_eq _ _ _ r2, writeI32_eq _ _ _ r3, writeI32_eq _ _ _ r4,
        writeI32_eq _ _ _ r5, writeString_fuse, sepI32,
        List.append_assoc, List.cons_append, List.singleton_append, List.nil_append,
        Option.map_some', Option.some_bind]
    | turnRight d =>
      obtain ⟨r1, r2, r3, r4, r5⟩ := hdata
      simp only [writeBotCommand, cmdBytes, appendSeparator_eq, appendEnd_eq,
        writeI32_eq _ _ _ (usizeAsI32_range idx hidx), writeI32_eq _ _ _ r1,
        writeI32_eq _ _ _ r2, writeI32_eq _ _ _ r3, writeI32_eq _ _ _ r4,
        writeI32_eq _ _ _ r5, writeString_fuse, sepI32,
        List.append_assoc, List.cons_append, List.singleton_append, List.nil_append,
        Option.map_some', Option.some_bind]
    | slopeUp d =>
      obtain ⟨r1, r2, r3, r4⟩ := hdata
      simp only [writeBotCommand, cmdBytes, appendSeparator_eq, appendEnd_eq,
        writeI32_eq _ _ _ (usizeAsI32_range idx hidx), writeI32_eq _ _ _ r1,
        writeI32_eq _ _ _ r2, writeI32_eq _ _ _ r3, writeI32_eq _ _ _ r4,
        writeString_fuse, sepI32,
        List.append_assoc, List.cons_append, List.singleton_append, List.nil_append,
        Option.map_some', Option.some_bind]
    | slopeDown d =>
      obtain ⟨r1, r2, r3, r4⟩ := hdata
      simp only [writeBotCommand, cmdBytes, appendSeparator_eq, appendEnd_eq,
        writeI32_eq _ _ _ (usizeAsI32_range idx hidx), writeI32_eq _ _ _ r1,
        writeI32_eq _ _ _ r2, writeI32_eq _ _ _ r3, writeI32_eq _ _ _ r4,
        writeString_fuse, sepI32,
        List.append_assoc, List.cons_append, List.singleton_append, List.nil_append,
        Option.map_some', Option.some_bind]
  | direct m =>
    obtain ⟨r1, r2, r3, r4⟩ := h
    simp only [writeBotCommand, cmdBytes, appendSeparator_eq, appendEnd_eq,
      writeI32_eq _ _ _ r1, writeI32_eq _ _ _ r2, writeI32_eq _ _ _ r3,
      writeI32_eq _ _ _ r4, writeString_fuse, sepI32,
      List.append_assoc, List.cons_append, List.singleton_append, List.nil_append,
      Option.map_some', Option.some_bind]
  | _ =>
    simp only [writeBotCommand, cmdBytes, appendSeparator_eq, appendEnd_eq,
      writeString_fuse, sepI32, List.append_assoc, List.cons_append,
      List.singleton_append, List.nil_append, Option.map_some', Option.some_bind]

theorem writeBotEvent_eq (e : BotEvent) (buf : Buf) (h : evtIntsOk e) :
    writeBotEvent e buf = some ((writeString buf 0 (evtBytes e)).1) := by
  cases e with
  | status s =>
    cases s with
    | waiting d =>
      obtain ⟨r1, r2⟩ := h
      simp only [writeBotEvent, evtBytes, appendSeparator_eq, appendEnd_eq,
        writeI32_eq _ _ _ r1, writeI32_eq _ _ _ r2, writeString_fuse, sepI32,
        List.append_assoc, List.cons_append, List.singleton_append, List.nil_append,
        Option.map_some', Option.some_bind]
    | racing d =>
      obtain ⟨r1, r2, r3, r4, r5⟩ := h
      simp only [writeBotEvent, evtBytes, appendSeparator_eq, appendEnd_eq,
        writeI32_eq _ _ _ (usizeAsI32_range _ r1), writeI32_eq _ _ _ r2,
        writeI32_eq _ _ _ r3, writeI32_eq _ _ _ r4, writeI32_eq _ _ _ r5,
        writeString_fuse, sepI32,
        List.append_assoc, List.cons_append, List.singleton_append, List.nil_append,
        Option.map_some', Option.some_bind]
    | _ =>
      simp only [writeBotEvent, evtBytes, appendSeparator_eq, appendEnd_eq,
        writeString_fuse, sepI32, List.append_assoc, List.cons_append,
        List.singleton_append, List.nil_append, Option.map_some', Option.some_bind]
  | lasers vs =>
    have hfold := foldl_lasersO vs h (writeString buf 0 kwLASERS)
    simp only [writeBotEvent, hfold, appendEnd_eq, writeString_fuse, evtBytes,
      List.append_assoc, Option.map_some', Option.some_bind]
  | imu d =>
    obtain ⟨r1, r2, r3, r4, r5, r6, r7, r8, r9⟩ := h
    simp only [writeBotEvent, evtBytes, appendSeparator_eq, appendEnd_eq,
      writeI32_eq _ _ _ r1, writeI32_eq _ _ _ r2, writeI32_eq _ _ _ r3,
      writeI32_eq _ _ _ r4, writeI32_eq _ _ _ r5, writeI32_eq _ _ _ r6,
      writeI32_eq _ _ _ r7, writeI32_eq _ _ _ r8, writeI32_eq _ _ _ r9,
      writeString_fuse, sepI32,
      List.append_assoc, List.cons_append, List.singleton_append, List.nil_append,
      Option.map_some', Option.some_bind]
  | log msg =>
    simp only [writeBotEvent, evtBytes, appendSeparator_eq, appendEnd_eq,
      foldl_log, writeString_fuse, sepI32, List.append_assoc, List.cons_append,
      List.singleton_append, List.nil_append, Option.map_some', Option.some_bind]

/-! ### Per-branch parse steps -/

theorem dispatch_err (K myKW rest : List ℕ) (buf : Buf) (i : ℕ)
    (H : Holds buf i (myKW ++ rest)) (j : ℕ) (hjK : j < K.length) (hjm : j < myKW.length)
    (hpre : ∀ m < j, myKW.getD m 0 = K.getD m 0) (hne : myKW.getD j 0 ≠ K.getD j 0) :
    matchString buf i K = .err (i + j) :=
  matchString_mismatch K myKW buf i j hjK hjm H.split.1 hpre hne

theorem dv_sep : digitValue CODE_SEPARATOR = none := by decide

theorem dv_end : digitValue CODE_END = none := by decide

theorem step_sep (buf : Buf) (p : ℕ) (rest : List ℕ)
    (H : Holds buf p (CODE_SEPARATOR :: rest)) : matchSeparator buf p = .ok (p + 1) :=
  matchCode_at _ _ _ H.head

theorem step_end (buf : Buf) (p : ℕ) (rest : List ℕ)
    (H : Holds buf p (CODE_END :: rest)) : matchEnd buf p = .ok (p + 1) :=
  matchCode_at _ _ _ H.head

theorem step_i32 (buf : Buf) (p : ℕ) (v : ℤ) (r0 : ℕ) (rest : List ℕ)
    (H : Holds buf p (i32Bytes v ++ r0 :: rest)) (hnd : digitValue r0 = none) :
    matchI32 buf p = .ok (v, p + (i32Bytes v).length) :=
  matchI32_complete buf p v r0 H.split.1 H.split.2.head hnd

end FR

namespace FR

theorem parseCmd_restart (buf : Buf) (H : Holds buf 0 (cmdBytes .restart)) :
    parseBotCommand buf = .ok .restart := by
  simp only [cmdBytes] at H
  have e1 := dispatch_err kwMAP_START kwRESTART _ buf 0 H 0 (by decide) (by decide)
    (by decide) (by decide)
  have e2 := dispatch_err kwMAP_SECTION kwRESTART _ buf 0 H 0 (by decide) (by decide)
    (by decide) (by decide)
  have e3 := dispatch_err kwMAP_END kwRESTART _ buf 0 H 0 (by decide) (by decide)
    (by decide) (by decide)
  have e4 := dispatch_err kwRESET kwRESTART _ buf 0 H 3 (by decide) (by decide)
    (by decide) (by decide)
  have e5 := dispatch_err kwSTART kwRESTART _ buf 0 H 0 (by decide) (by decide)
    (by decide) (by decide)
  have e6 := dispatch_err kwPAUSE kwRESTART _ buf 0 H 0 (by decide) (by decide)
    (by decide) (by decide)
  have hk := matchString_holds kwRESTART buf 0 H.split.1
  have hend := step_end buf (0 + kwRESTART.length) [] H.split.2
  simp only [parseBotCommand, e1, e2, e3, e4, e5, e6, hk, hend, PR.bind_ok]

end FR

namespace FR

theorem parseCmd_direct (buf : Buf) (m : MotorsPowerData)
    (H : Holds buf 0 (cmdBytes (.direct m))) :
    parseBotCommand buf = .ok (.direct m) := by
  simp only [cmdBytes, sepI32, List.cons_append] at H
  have e1 := dispatch_err kwMAP_START kwDIRECT _ buf 0 H 0 (by decide) (by decide)
    (by decide) (by decide)
  have e2 := dispatch_err kwMAP_SECTION kwDIRECT _ buf 0 H 0 (by decide) (by decide)
    (by decide) (by decide)
  have e3 := dispatch_err kwMAP_END kwDIRECT _ buf 0 H 0 (by decide) (by decide)
    (by decide) (by decide)
  have e4 := dispatch_err kwRESET kwDIRECT _ buf 0 H 0 (by decide) (by decide)
    (by decide) (by decide)
  have e5 := dispatch_err kwSTART kwDIRECT _ buf 0 H 0 (by decide) (by decide)
    (by decide) (by decide)
  have e6 := dispatch_err kwPAUSE kwDIRECT _ buf 0 H 0 (by decide) (by decide)
    (by decide) (by decide)
  have e7 := dispatch_err kwRESTART kwDIRECT _ buf 0 H 0 (by decide) (by decide)
    (by decide) (by decide)
  have hk := matchString_holds kwDIRECT buf 0 H.split.1
  have H1 := H.split.2
  have s1 := step_sep _ _ _ H1
  have H2 := H1.tail
  have i1 := step_i32 _ _ _ _ _ H2 dv_sep
  have H3 := H2.split.2
  have s2 := step_sep _ _ _ H3
  have H4 := H3.tail
  have i2 := step_i32 _ _ _ _ _ H4 dv_sep
  have H5 := H4.split.2
  have s3 := step_sep _ _ _ H5
  have H6 := H5.tail
  have i3 := step_i32 _ _ _ _ _ H6 dv_sep
  have H7 := H6.split.2
  have s4 := step_sep _ _ _ H7
  have H8 := H7.tail
  have i4 := step_i32 _ _ _ _ _ H8 dv_end
  have H9 := H8.split.2
  have hend := step_end _ _ _ H9
  simp only [parseBotCommand, e1, e2, e3, e4, e5, e6, e7, hk, s1, s2, s3, s4,
    i1, i2, i3, i4, hend, PR.bind_ok]

end FR

namespace FR

theorem parseCmd_mapStart (buf : Buf) (n : ℕ) (H : Holds buf 0 (cmdBytes (.mapStart n))) :
    parseBotCommand buf = .ok (.mapStart (i32ToUsize (usizeAsI32 n))) := by
  simp only [cmdBytes, sepI32, List.cons_append] at H
  have hk := matchString_holds kwMAP_START buf 0 H.split.1
  have H1 := H.split.2
  have s1 := step_sep _ _ _ H1
  have H2 := H1.tail
  have i1 := step_i32 _ _ _ _ _ H2 dv_end
  have H3 := H2.split.2
  have hend := step_end _ _ _ H3
  simp only [parseBotCommand, hk, s1, i1, hend, PR.bind_ok]

theorem parseCmd_mapEnd (buf : Buf) (H : Holds buf 0 (cmdBytes .mapEnd)) :
    parseBotCommand buf = .ok .mapEnd := by
  simp only [cmdBytes] at H
  have e1 := dispatch_err kwMAP_START kwMAP_END _ buf 0 H 4 (by decide) (by decide)
    (by decide) (by decide)
  have e2 := dispatch_err kwMAP_SECTION kwMAP_END _ buf 0 H 4 (by decide) (by decide)
    (by decide) (by decide)
  have hk := matchString_holds kwMAP_END buf 0 H.split.1
  have hend := step_end buf (0 + kwMAP_END.length) [] H.split.2
  simp only [parseBotCommand, e1, e2, hk, hend, PR.bind_ok]

theorem parseCmd_reset (buf : Buf) (H : Holds buf 0 (cmdBytes .reset)) :
    parseBotCommand buf = .ok .reset := by
  simp only [cmdBytes] at H
  have e1 := dispatch_err kwMAP_START kwRESET _ buf 0 H 0 (by decide) (by decide)
    (by decide) (by decide)
  have e2 := dispatch_err kwMAP_SECTION kwRESET _ buf 0 H 0 (by decide) (by decide)
    (by decide) (by decide)
  have e3 := dispatch_err kwMAP_END kwRESET _ buf 0 H 0 (by decide) (by decide)
    (by decide) (by decide)
  have hk := matchString_holds kwRESET buf 0 H.split.1
  have hend := step_end buf (0 + kwRESET.length) [] H.split.2
  simp only [parseBotCommand, e1, e2, e3, hk, hend, PR.bind_ok]

theorem parseCmd_start (buf : Buf) (H : Holds buf 0 (cmdBytes .start)) :
    parseBotCommand buf = .ok .start := by
  simp only [cmdBytes] at H
  have e1 := dispatch_err kwMAP_START kwSTART _ buf 0 H 0 (by decide) (by decide)
    (by decide) (by decide)
  have e2 := dispatch_err kwMAP_SECTION kwSTART _ buf 0 H 0 (by decide) (by decide)
    (by decide) (by decide)
  have e3 := dispatch_err kwMAP_END kwSTART _ buf 0 H 0 (by decide) (by decide)
    (by decide) (by decide)
  have e4 := dispatch_err kwRESET kwSTART _ buf 0 H 0 (by decide) (by decide)
    (by decide) (by decide)
  have hk := matchString_holds kwSTART buf 0 H.split.1
  have hend := step_end buf (0 + kwSTART.length) [] H.split.2
  simp only [parseBotCommand, e1, e2, e3, e4, hk, hend, PR.bind_ok]

theorem parseCmd_pause (buf : Buf) (H : Holds buf 0 (cmdBytes .pause)) :
    parseBotCommand buf = .ok .pause := by
  simp only [cmdBytes] at H
  have e1 := dispatch_err kwMAP_START kwPAUSE _ buf 0 H 0 (by decide) (by decide)
    (by decide) (by decide)
  have e2 := dispatch_err kwMAP_SECTION kwPAUSE _ buf 0 H 0 (by decide) (by decide)
    (by decide) (by decide)
  have e3 := dispatch_err kwMAP_END kwPAUSE _ buf 0 H 0 (by decide) (by decide)
    (by decide) (by decide)
  have e4 := dispatch_err kwRESET kwPAUSE _ buf 0 H 0 (by decide) (by decide)
    (by decide) (by decide)
  have e5 := dispatch_err kwSTART kwPAUSE _ buf 0 H 0 (by decide) (by decide)
    (by decide) (by decide)
  have hk := matchString_holds kwPAUSE buf 0 H.split.1
  have hend := step_end buf (0 + kwPAUSE.length) [] H.split.2
  simp only [parseBotCommand, e1, e2, e3, e4, e5, hk, hend, PR.bind_ok]

end FR

namespace FR

theorem parseCmd_mapSection_straight (buf : Buf) (idx : ℕ) (d : ProtocolMapSectionDataStraight)
    (H : Holds buf 0 (cmdBytes (.mapSection ⟨idx, .straight d⟩))) :
    parseBotCommand buf = .ok (.mapSection ⟨i32ToUsize (usizeAsI32 idx), .straight d⟩) := by
  simp only [cmdBytes, sepI32, List.cons_append, List.singleton_append] at H
  have e1 := dispatch_err kwMAP_START kwMAP_SECTION _ buf 0 H 5 (by decide) (by decide)
    (by decide) (by decide)
  have hk := matchString_holds kwMAP_SECTION buf 0 H.split.1
  have H1 := H.split.2
  have s1 := step_sep _ _ _ H1
  have H2 := H1.tail
  have i1 := step_i32 _ _ _ _ _ H2 dv_sep
  have H3 := H2.split.2
  have s2 := step_sep _ _ _ H3
  have H4 := H3.tail
  have h45 := H4.splitAt kwSTRAIGHT
  have hk2 := matchString_holds kwSTRAIGHT buf _ h45.1
  have H5 := h45.2
  have s3 := step_sep _ _ _ H5
  have H6 := H5.tail
  have i2 := step_i32 _ _ _ _ _ H6 dv_sep
  have H7 := H6.split.2
  have s4 := step_sep _ _ _ H7
  have H8 := H7.tail
  have i3 := step_i32 _ _ _ _ _ H8 dv_sep
  have H9 := H8.split.2
  have s5 := step_sep _ _ _ H9
  have H10 := H9.tail
  have i4 := step_i32 _ _ _ _ _ H10 dv_end
  have H11 := H10.split.2
  have hend := step_end _ _ _ H11
  simp only [parseBotCommand, e1, hk, s1, i1, s2, hk2, s3, i2, s4, i3, s5, i4, hend,
    PR.bind_ok]

end FR

namespace FR

theorem parseCmd_mapSection_turnLeft (buf : Buf) (idx : ℕ) (d : ProtocolMapSectionDataTurn)
    (H : Holds buf 0 (cmdBytes (.mapSection ⟨idx, .turnLeft d⟩))) :
    parseBotCommand buf = .ok (.mapSection ⟨i32ToUsize (usizeAsI32 idx), .turnLeft d⟩) := by
  simp only [cmdBytes, sepI32, List.cons_append, List.singleton_append] at H
  have e1 := dispatch_err kwMAP_START kwMAP_SECTION _ buf 0 H 5 (by decide) (by decide)
    (by decide) (by decide)
  have hk := matchString_holds kwMAP_SECTION buf 0 H.split.1
  have H1 := H.split.2
  have s1 := step_sep _ _ _ H1
  have H2 := H1.tail
  have i1 := step_i32 _ _ _ _ _ H2 dv_sep
  have H3 := H2.split.2
  have s2 := step_sep _ _ _ H3
  have H4 := H3.tail
  have f1 := dispatch_err kwSTRAIGHT kwLEFT _ buf _ H4 0 (by decide) (by decide)
    (by decide) (by decide)
  have h45 := H4.splitAt kwLEFT
  have hk2 := matchString_holds kwLEFT buf _ h45.1
  have H5 := h45.2
  have s3 := step_sep _ _ _ H5
  have H6 := H5.tail
  have i2 := step_i32 _ _ _ _ _ H6 dv_sep
  have H7 := H6.split.2
  have s4 := step_sep _ _ _ H7
  have H8 := H7.tail
  have i3 := step_i32 _ _ _ _ _ H8 dv_sep
  have H9 := H8.split.2
  have s5 := step_sep _ _ _ H9
  have H10 := H9.tail
  have i4 := step_i32 _ _ _ _ _ H10 dv_sep
  have H11 := H10.split.2
  have s6 := step_sep _ _ _ H11
  have H12 := H11.tail
  have i5 := step_i32 _ _ _ _ _ H12 dv_sep
  have H13 := H12.split.2
  have s7 := step_sep _ _ _ H13
  have H14 := H13.tail
  have i6 := step_i32 _ _ _ _ _ H14 dv_end
  have H15 := H14.split.2
  have hend := step_end _ _ _ H15
  simp only [parseBotCommand, e1, hk, s1, i1, s2, f1, hk2, s3, i2, s4, i3, s5, i4, s6, i5, s7, i6, hend,
    PR.bind_ok]

theorem parseCmd_mapSection_turnRight (buf : Buf) (idx : ℕ) (d : ProtocolMapSectionDataTurn)
    (H : Holds buf 0 (cmdBytes (.mapSection ⟨idx, .turnRight d⟩))) :
    parseBotCommand buf = .ok (.mapSection ⟨i32ToUsize (usizeAsI32 idx), .turnRight d⟩) := by
  simp only [cmdBytes, sepI32, List.cons_append, List.singleton_append] at H
  have e1 := dispatch_err kwMAP_START kwMAP_SECTION _ buf 0 H 5 (by decide) (by decide)
    (by decide) (by decide)
  have hk := matchString_holds kwMAP_SECTION buf 0 H.split.1
  have H1 := H.split.2
  have s1 := step_sep _ _ _ H1
  have H2 := H1.tail
  have i1 := step_i32 _ _ _ _ _ H2 dv_sep
  have H3 := H2.split.2
  have s2 := step_sep _ _ _ H3
  have H4 := H3.tail
  have f1 := dispatch_err kwSTRAIGHT kwRIGHT _ buf _ H4 0 (by decide) (by decide)
    (by decide) (by decide)
  have f2 := dispatch_err kwLEFT kwRIGHT _ buf _ H4 0 (by decide) (by decide)
    (by decide) (by decide)
  have h45 := H4.splitAt kwRIGHT
  have hk2 := matchString_holds kwRIGHT buf _ h45.1
  have H5 := h45.2
  have s3 := step_sep _ _ _ H5
  have H6 := H5.tail
  have i2 := step_i32 _ _ _ _ _ H6 dv_sep
  have H7 := H6.split.2
  have s4 := step_sep _ _ _ H7
  have H8 := H7.tail
  have i3 := step_i32 _ _ _ _ _ H8 dv_sep
  have H9 := H8.split.2
  have s5 := step_sep _ _ _ H9
  have H10 := H9.tail
  have i4 := step_i32 _ _ _ _ _ H10 dv_sep
  have H11 := H10.split.2
  have s6 := step_sep _ _ _ H11
  have H12 := H11.tail
  have i5 := step_i32 _ _ _ _ _ H12 dv_sep
  have H13 := H12.split.2
  have s7 := step_sep _ _ _ H13
  have H14 := H13.tail
  have i6 := step_i32 _ _ _ _ _ H14 dv_end
  have H15 := H14.split.2
  have hend := step_end _ _ _ H15
  simp only [parseBotCommand, e1, hk, s1, i1, s2, f1, f2, hk2, s3, i2, s4, i3, s5, i4, s6, i5, s7, i6, hend,
    PR.bind_ok]

theorem parseCmd_mapSection_slopeUp (buf : Buf) (idx : ℕ) (d : ProtocolMapSectionDataSlope)
    (H : Holds buf 0 (cmdBytes (.mapSection ⟨idx, .slopeUp d⟩))) :
    parseBotCommand buf = .ok (.mapSection ⟨i32ToUsize (usizeAsI32 idx), .slopeUp d⟩) := by
  simp only [cmdBytes, sepI32, List.cons_append, List.singleton_append] at H
  have e1 := dispatch_err kwMAP_START kwMAP_SECTION _ buf 0 H 5 (by decide) (by decide)
    (by decide) (by decide)
  have hk := matchString_holds kwMAP_SECTION buf 0 H.split.1
  have H1 := H.split.2
  have s1 := step_sep _ _ _ H1
  have H2 := H1.tail
  have i1 := step_i32 _ _ _ _ _ H2 dv_sep
  have H3 := H2.split.2
  have s2 := step_sep _ _ _ H3
  have H4 := H3.tail
  have f1 := dispatch_err kwSTRAIGHT kwUP _ buf _ H4 0 (by decide) (by decide)
    (by decide) (by decide)
  have f2 := dispatch_err kwLEFT kwUP _ buf _ H4 0 (by decide) (by decide)
    (by decide) (by decide)
  have f3 := dispatch_err kwRIGHT kwUP _ buf _ H4 0 (by decide) (by decide)
    (by decide) (by decide)
  have h45 := H4.splitAt kwUP
  have hk2 := matchString_holds kwUP buf _ h45.1
  have H5 := h45.2
  have s3 := step_sep _ _ _ H5
  have H6 := H5.tail
  have i2 := step_i32 _ _ _ _ _ H6 dv_sep
  have H7 := H6.split.2
  have s4 := step_sep _ _ _ H7
  have H8 := H7.tail
  have i3 := step_i32 _ _ _ _ _ H8 dv_sep
  have H9 := H8.split.2
  have s5 := step_sep _ _ _ H9
  have H10 := H9.tail
  have i4 := step_i32 _ _ _ _ _ H10 dv_sep
  have H11 := H10.split.2
  have s6 := step_sep _ _ _ H11
  have H12 := H11.tail
  have i5 := step_i32 _ _ _ _ _ H12 dv_end
  have H13 := H12.split.2
  have hend := step_end _ _ _ H13
  simp only [parseBotCommand, e1, hk, s1, i1, s2, f1, f2, f3, hk2, s3, i2, s4, i3, s5, i4, s6, i5, hend,
    PR.bind_ok]

theorem parseCmd_mapSection_slopeDown (buf : Buf) (idx : ℕ) (d : ProtocolMapSectionDataSlope)
    (H : Holds buf 0 (cmdBytes (.mapSection ⟨idx, .slopeDown d⟩))) :
    parseBotCommand buf = .ok (.mapSection ⟨i32ToUsize (usizeAsI32 idx), .slopeDown d⟩) := by
  simp only [cmdBytes, sepI32, List.cons_append, List.singleton_append] at H
  have e1 := dispatch_err kwMAP_START kwMAP_SECTION _ buf 0 H 5 (by decide) (by decide)
    (by decide) (by decide)
  have hk := matchString_holds kwMAP_SECTION buf 0 H.split.1
  have H1 := H.split.2
  have s1 := step_sep _ _ _ H1
  have H2 := H1.tail
  have i1 := step_i32 _ _ _ _ _ H2 dv_sep
  have H3 := H2.split.2
  have s2 := step_sep _ _ _ H3
  have H4 := H3.tail
  have f1 := dispatch_err kwSTRAIGHT kwDOWN _ buf _ H4 0 (by decide) (by decide)
    (by decide) (by decide)
  have f2 := dispatch_err kwLEFT kwDOWN _ buf _ H4 0 (by decide) (by decide)
    (by decide) (by decide)
  have f3 := dispatch_err kwRIGHT kwDOWN _ buf _ H4 0 (by decide) (by decide)
    (by decide) (by decide)
  have f4 := dispatch_err kwUP kwDOWN _ buf _ H4 0 (by decide) (by decide)
    (by decide) (by decide)
  have h45 := H4.splitAt kwDOWN
  have hk2 := matchString_holds kwDOWN buf _ h45.1
  have H5 := h45.2
  have s3 := step_sep _ _ _ H5
  have H6 := H5.tail
  have i2 := step_i32 _ _ _ _ _ H6 dv_sep
  have H7 := H6.split.2
  have s4 := step_sep _ _ _ H7
  have H8 := H7.tail
  have i3 := step_i32 _ _ _ _ _ H8 dv_sep
  have H9 := H8.split.2
  have s5 := step_sep _ _ _ H9
  have H10 := H9.tail
  have i4 := step_i32 _ _ _ _ _ H10 dv_sep
  have H11 := H10.split.2
  have s6 := step_sep _ _ _ H11
  have H12 := H11.tail
  have i5 := step_i32 _ _ _ _ _ H12 dv_end
  have H13 := H12.split.2
  have hend := step_end _ _ _ H13
  simp only [parseBotCommand, e1, hk, s1, i1, s2, f1, f2, f3, f4, hk2, s3, i2, s4, i3, s5, i4, s6, i5, hend,
    PR.bind_ok]

end FR

namespace FR

theorem i32Bytes_length (v : ℤ) (h : i32WriteRange v) : (i32Bytes v).length ≤ 11 := by
  have habs : v.natAbs ≤ 2147483647 := by
    have hn : v.natAbs ≤ 999999999 := h
    omega
  have hlen10 : ∀ f, 10 ^ f ≤ v.natAbs → v.natAbs < 10 ^ (f + 1) →
      (digitsBytes (10 ^ f) v.natAbs).length ≤ 10 := by
    intro f hge hlt
    obtain ⟨hlen, _, _⟩ := digitsBytes_spec f v.natAbs hlt
    have hf : f ≤ 9 := by
      by_contra hf
      have h10 : (10:ℕ) ^ 10 ≤ 10 ^ f := Nat.pow_le_pow_right (by norm_num) (by omega)
      have he : (10:ℕ) ^ 10 = 10000000000 := by norm_num
      omega
    omega
  rcases lt_trichotomy v 0 with hv | hv | hv
  · obtain ⟨f, heq, hlt, hge⟩ := i32Bytes_neg v hv
    rw [heq, List.length_cons]
    have := hlen10 f hge hlt
    omega
  · subst hv
    rw [i32Bytes, if_pos rfl]
    simp
  · obtain ⟨f, heq, hlt, hge⟩ := i32Bytes_pos v hv
    rw [heq]
    have := hlen10 f hge hlt
    omega

theorem sepI32_length (v : ℤ) (h : i32WriteRange v) : (sepI32 v).length ≤ 12 := by
  have := i32Bytes_length v h
  simp only [sepI32, List.length_cons]
  omega

theorem flatMap_sepI32_length (vs : List ℤ) (h : ∀ v ∈ vs, i32WriteRange v) :
    (vs.flatMap sepI32).length ≤ 12 * vs.length := by
  induction vs with
  | nil => simp
  | cons v vs ih =>
    rw [List.flatMap_cons, List.length_append, List.length_cons]
    have h1 := sepI32_length v (h v (by simp))
    have h2 := ih (fun x hx => h x (by simp [hx]))
    omega

theorem cmdBytes_length (c : BotCommand) (h : cmdInRange c) : (cmdBytes c).length ≤ 256 := by
  have hMS : kwMAP_START.length = 9 := by decide
  have hMSec : kwMAP_SECTION.length = 11 := by decide
  have hME : kwMAP_END.length = 7 := by decide
  have hRES : kwRESET.length = 5 := by decide
  have hST : kwSTART.length = 5 := by decide
  have hPA : kwPAUSE.length = 5 := by decide
  have hRST : kwRESTART.length = 7 := by decide
  have hDIR : kwDIRECT.length = 6 := by decide
  have hST8 : kwSTRAIGHT.length = 8 := by decide
  have hLF : kwLEFT.length = 4 := by decide
  have hRG : kwRIGHT.length = 5 := by decide
  have hUP : kwUP.length = 2 := by decide
  have hDW : kwDOWN.length = 4 := by decide
  cases c with
  | mapStart n =>
    have h1 := sepI32_length _ (usizeAsI32_range n h)
    simp only [cmdBytes, List.length_append, List.length_cons, List.length_nil, hMS]
    omega
  | mapSection s =>
    rcases s with ⟨idx, data⟩
    obtain ⟨hidx, hdata⟩ := h
    have h1 := sepI32_length _ (usizeAsI32_range idx hidx)
    cases data with
    | straight d =>
      obtain ⟨r1, r2, r3⟩ := hdata
      have b1 := sepI32_length _ r1
      have b2 := sepI32_length _ r2
      have b3 := sepI32_length _ r3
      simp only [cmdBytes, List.length_append, List.length_cons, List.length_nil, hMSec, hST8]
      omega
    | turnLeft d =>
      obtain ⟨r1, r2, r3, r4, r5⟩ := hdata
      have b1 := sepI32_length _ r1
      have b2 := sepI32_length _ r2
      have b3 := sepI32_length _ r3
      have b4 := sepI32_length _ r4
      have b5 := sepI32_length _ r5
      simp only [cmdBytes, List.length_append, List.length_cons, List.length_nil, hMSec, hLF]
      omega
    | turnRight d =>
      obtain ⟨r1, r2, r3, r4, r5⟩ := hdata
      have b1 := sepI32_length _ r1
      have b2 := sepI32_length _ r2
      have b3 := sepI32_length _ r3
      have b4 := sepI32_length _ r4
      have b5 := sepI32_length _ r5
      simp only [cmdBytes, List.length_append, List.length_cons, List.length_nil, hMSec, hRG]
      omega
    | slopeUp d =>
      obtain ⟨r1, r2, r3, r4⟩ := hdata
      have b1 := sepI32_length _ r1
      have b2 := sepI32_length _ r2
      have b3 := sepI32_length _ r3
      have b4 := sepI32_length _ r4
      simp only [cmdBytes, List.length_append, List.length_cons, List.length_nil, hMSec, hUP]
      omega
    | slopeDown d =>
      obtain ⟨r1, r2, r3, r4⟩ := hdata
      have b1 := sepI32_length _ r1
      have b2 := sepI32_length _ r2
      have b3 := sepI32_length _ r3
      have b4 := sepI32_length _ r4
      simp only [cmdBytes, List.length_append, List.length_cons, List.length_nil, hMSec, hDW]
      omega
  | mapEnd =>
    simp only [cmdBytes, List.length_append, List.length_cons, List.length_nil, hME]
    omega
  | reset =>
    simp only [cmdBytes, List.length_append, List.length_cons, List.length_nil, hRES]
    omega
  | start =>
    simp only [cmdBytes, List.length_append, List.length_cons, List.length_nil, hST]
    omega
  | pause =>
    simp only [cmdBytes, List.length_append, List.length_cons, List.length_nil, hPA]
    omega
  | restart =>
    simp only [cmdBytes, List.length_append, List.length_cons, List.length_nil, hRST]
    omega
  | direct m =>
    obtain ⟨r1, r2, r3, r4⟩ := h
    have b1 := sepI32_length _ r1
    have b2 := sepI32_length _ r2
    have b3 := sepI32_length _ r3
    have b4 := sepI32_length _ r4
    simp only [cmdBytes, List.length_append, List.length_cons, List.length_nil, hDIR]
    omega

theorem parseCmd_roundtrip (c : BotCommand) (h : cmdInRange c) (buf : Buf) :
    parseBotCommand ((writeString buf 0 (cmdBytes c)).1) = .ok c := by
  have H : Holds (writeString buf 0 (cmdBytes c)).1 0 (cmdBytes c) :=
    holds_writeString _ _ _ (by simpa using cmdBytes_length c h)
  cases c with
  | mapStart n =>
    have hn : n < 2147483648 := by
      have hw : n ≤ 999999999 := h
      omega
    rw [parseCmd_mapStart _ _ H, usizeAsI32_small n hn,
      i32ToUsize_small _ (by omega) (by exact_mod_cast hn)]
    simp
  | mapSection s =>
    rcases s with ⟨idx, data⟩
    obtain ⟨hidx, _⟩ := h
    have hn : idx < 2147483648 := by
      have hw : idx ≤ 999999999 := hidx
      omega
    have hcast : i32ToUsize (usizeAsI32 idx) = idx := by
      rw [usizeAsI32_small idx hn, i32ToUsize_small _ (by omega) (by exact_mod_cast hn)]
      simp
    cases data with
    | straight d => rw [parseCmd_mapSection_straight _ _ _ H, hcast]
    | turnLeft d => rw [parseCmd_mapSection_turnLeft _ _ _ H, hcast]
    | turnRight d => rw [parseCmd_mapSection_turnRight _ _ _ H, hcast]
    | slopeUp d => rw [parseCmd_mapSection_slopeUp _ _ _ H, hcast]
    | slopeDown d => rw [parseCmd_mapSection_slopeDown _ _ _ H, hcast]
  | mapEnd => exact parseCmd_mapEnd _ H
  | reset => exact parseCmd_reset _ H
  | start => exact parseCmd_start _ H
  | pause => exact parseCmd_pause _ H
  | restart => exact parseCmd_restart _ H
  | direct m => exact parseCmd_direct _ _ H

end FR

namespace FR

theorem parseEvt_status_invalidMap (buf : Buf)
    (H : Holds buf 0 (evtBytes (.status .invalidMap))) :
    parseBotEvent buf = .ok (.status .invalidMap) := by
  simp only [evtBytes, sepI32, List.cons_append, List.singleton_append] at H
  have hk := matchString_holds kwSTATUS buf 0 H.split.1
  have H1 := H.split.2
  have s1 := step_sep _ _ _ H1
  have H2 := H1.tail
  have h2 := H2.splitAt kwINVALID_MAP
  have hk2 := matchString_holds kwINVALID_MAP buf _ h2.1
  have H3 := h2.2
  have hend := step_end _ _ _ H3
  simp only [parseBotEvent, hk, s1, hk2, hend,
    PR.bind_ok]

theorem parseEvt_status_deviceError (buf : Buf)
    (H : Holds buf 0 (evtBytes (.status .deviceError))) :
    parseBotEvent buf = .ok (.status .deviceError) := by
  simp only [evtBytes, sepI32, List.cons_append, List.singleton_append] at H
  have hk := matchString_holds kwSTATUS buf 0 H.split.1
  have H1 := H.split.2
  have s1 := step_sep _ _ _ H1
  have H2 := H1.tail
  have f1 := dispatch_err kwINVALID_MAP kwDEVICE_ERROR _ buf _ H2 0 (by decide) (by decide)
    (by decide) (by decide)
  have h2 := H2.splitAt kwDEVICE_ERROR
  have hk2 := matchString_holds kwDEVICE_ERROR buf _ h2.1
  have H3 := h2.2
  have hend := step_end _ _ _ H3
  simp only [parseBotEvent, hk, s1, f1, hk2, hend,
    PR.bind_ok]

theorem parseEvt_status_stopped (buf : Buf)
    (H : Holds buf 0 (evtBytes (.status .stopped))) :
    parseBotEvent buf = .ok (.status .stopped) := by
  simp only [evtBytes, sepI32, List.cons_append, List.singleton_append] at H
  have hk := matchString_holds kwSTATUS buf 0 H.split.1
  have H1 := H.split.2
  have s1 := step_sep _ _ _ H1
  have H2 := H1.tail
  have f1 := dispatch_err kwINVALID_MAP kwSTOPPED _ buf _ H2 0 (by decide) (by decide)
    (by decide) (by decide)
  have f2 := dispatch_err kwDEVICE_ERROR kwSTOPPED _ buf _ H2 0 (by decide) (by decide)
    (by decide) (by decide)
  have h2 := H2.splitAt kwSTOPPED
  have hk2 := matchString_holds kwSTOPPED buf _ h2.1
  have H3 := h2.2
  have hend := step_end _ _ _ H3
  simp only [parseBotEvent, hk, s1, f1, f2, hk2, hend,
    PR.bind_ok]

theorem parseEvt_status_waiting (buf : Buf) (d : ProtocolWaitingData)
    (H : Holds buf 0 (evtBytes (.status (.waiting d)))) :
    parseBotEvent buf = .ok (.status (.waiting d)) := by
  simp only [evtBytes, sepI32, List.cons_append, List.singleton_append] at H
  have hk := matchString_holds kwSTATUS buf 0 H.split.1
  have H1 := H.split.2
  have s1 := step_sep _ _ _ H1
  have H2 := H1.tail
  have f1 := dispatch_err kwINVALID_MAP kwWAITING _ buf _ H2 0 (by decide) (by decide)
    (by decide) (by decide)
  have f2 := dispatch_err kwDEVICE_ERROR kwWAITING _ buf _ H2 0 (by decide) (by decide)
    (by decide) (by decide)
  have f3 := dispatch_err kwSTOPPED kwWAITING _ buf _ H2 0 (by decide) (by decide)
    (by decide) (by decide)
  have h2 := H2.splitAt kwWAITING
  have hk2 := matchString_holds kwWAITING buf _ h2.1
  have H3 := h2.2
  have s2 := step_sep _ _ _ H3
  have H4 := H3.tail
  have i1 := step_i32 _ _ _ _ _ H4 dv_sep
  have H5 := H4.split.2
  have s3 := step_sep _ _ _ H5
  have H6 := H5.tail
  have i2 := step_i32 _ _ _ _ _ H6 dv_end
  have H7 := H6.split.2
  have hend := step_end _ _ _ H7
  simp only [parseBotEvent, hk, s1, f1, f2, f3, hk2, s2, i1, s3, i2, hend,
    PR.bind_ok]

theorem parseEvt_status_racing (buf : Buf) (d : ProtocolRacingData)
    (H : Holds buf 0 (evtBytes (.status (.racing d)))) :
    parseBotEvent buf = .ok (.status (.racing ⟨i32ToUsize (usizeAsI32 d.section_), d.completion_low, d.completion_high, d.positioning_left, d.positioning_right⟩)) := by
  simp only [evtBytes, sepI32, List.cons_append, List.singleton_append] at H
  have hk := matchString_holds kwSTATUS buf 0 H.split.1
  have H1 := H.split.2
  have s1 := step_sep _ _ _ H1
  have H2 := H1.tail
  have f1 := dispatch_err kwINVALID_MAP kwRACING _ buf _ H2 0 (by decide) (by decide)
    (by decide) (by decide)
  have f2 := dispatch_err kwDEVICE_ERROR kwRACING _ buf _ H2 0 (by decide) (by decide)
    (by decide) (by decide)
  have f3 := dispatch_err kwSTOPPED kwRACING _ buf _ H2 0 (by decide) (by decide)
    (by decide) (by decide)
  have f4 := dispatch_err kwWAITING kwRACING _ buf _ H2 0 (by decide) (by decide)
    (by decide) (by decide)
  have h2 := H2.splitAt kwRACING
  have hk2 := matchString_holds kwRACING buf _ h2.1
  have H3 := h2.2
  have s2 := step_sep _ _ _ H3
  have H4 := H3.tail
  have i1 := step_i32 _ _ _ _ _ H4 dv_sep
  have H5 := H4.split.2
  have s3 := step_sep _ _ _ H5
  have H6 := H5.tail
  have i2 := step_i32 _ _ _ _ _ H6 dv_sep
  have H7 := H6.split.2
  have s4 := step_sep _ _ _ H7
  have H8 := H7.tail
  have i3 := step_i32 _ _ _ _ _ H8 dv_sep
  have H9 := H8.split.2
  have s5 := step_sep _ _ _ H9
  have H10 := H9.tail
  have i4 := step_i32 _ _ _ _ _ H10 dv_sep
  have H11 := H10.split.2
  have s6 := step_sep _ _ _ H11
  have H12 := H11.tail
  have i5 := step_i32 _ _ _ _ _ H12 dv_end
  have H13 := H12.split.2
  have hend := step_end _ _ _ H13
  simp only [parseBotEvent, hk, s1, f1, f2, f3, f4, hk2, s2, i1, s3, i2, s4, i3, s5, i4, s6, i5, hend,
    PR.bind_ok]

theorem parseEvt_imu (buf : Buf) (d : ProtocolImuData)
    (H : Holds buf 0 (evtBytes (.imu d))) :
    parseBotEvent buf = .ok (.imu d) := by
  simp only [evtBytes, sepI32, List.cons_append, List.singleton_append] at H
  have f1 := dispatch_err kwSTATUS kwIMU _ buf 0 H 0 (by decide) (by decide)
    (by decide) (by decide)
  have f2 := dispatch_err kwLASERS kwIMU _ buf 0 H 0 (by decide) (by decide)
    (by decide) (by decide)
  have hk := matchString_holds kwIMU buf 0 H.split.1
  have H1 := H.split.2
  have s1 := step_sep _ _ _ H1
  have H2 := H1.tail
  have i1 := step_i32 _ _ _ _ _ H2 dv_sep
  have H3 := H2.split.2
  have s2 := step_sep _ _ _ H3
  have H4 := H3.tail
  have i2 := step_i32 _ _ _ _ _ H4 dv_sep
  have H5 := H4.split.2
  have s3 := step_sep _ _ _ H5
  have H6 := H5.tail
  have i3 := step_i32 _ _ _ _ _ H6 dv_sep
  have H7 := H6.split.2
  have s4 := step_sep _ _ _ H7
  have H8 := H7.tail
  have i4 := step_i32 _ _ _ _ _ H8 dv_sep
  have H9 := H8.split.2
  have s5 := step_sep _ _ _ H9
  have H10 := H9.tail
  have i5 := step_i32 _ _ _ _ _ H10 dv_sep
  have H11 := H10.split.2
  have s6 := step_sep _ _ _ H11
  have H12 := H11.tail
  have i6 := step_i32 _ _ _ _ _ H12 dv_sep
  have H13 := H12.split.2
  have s7 := step_sep _ _ _ H13
  have H14 := H13.tail
  have i7 := step_i32 _ _ _ _ _ H14 dv_sep
  have H15 := H14.split.2
  have s8 := step_sep _ _ _ H15
  have H16 := H15.tail
  have i8 := step_i32 _ _ _ _ _ H16 dv_sep
  have H17 := H16.split.2
  have s9 := step_sep _ _ _ H17
  have H18 := H17.tail
  have i9 := step_i32 _ _ _ _ _ H18 dv_end
  have H19 := H18.split.2
  have hend := step_end _ _ _ H19
  simp only [parseBotEvent, f1, f2, hk, s1, i1, s2, i2, s3, i3, s4, i4, s5, i5, s6, i6, s7, i7, s8, i8, s9, i9, hend,
    PR.bind_ok]

end FR

namespace FR

theorem Holds.prefix_snoc {buf : Buf} {i : ℕ} {l1 : List ℕ} {c : ℕ} {l2 : List ℕ}
    (h : Holds buf i (l1 ++ c :: l2)) : Holds buf i (l1 ++ [c]) := by
  intro k hk
  simp only [List.length_append, List.length_singleton] at hk
  by_cases hkl : k < l1.length
  · have := h.split.1 k hkl
    rw [List.getD_append _ _ _ _ hkl]
    exact this
  · have hke : k = l1.length := by omega
    subst hke
    have := h.split.2.head
    rw [List.getD_append_right _ _ _ _ (le_refl _)]
    simpa using this

theorem lasersLoop_snoc (vs : List ℤ) : ∀ (buf : Buf) (p : ℕ) (w : ℤ) (j : ℕ),
    Holds buf p (vs.flatMap sepI32 ++ [CODE_SEPARATOR]) →
    matchI32 buf (p + (vs.flatMap sepI32).length + 1) = .ok (w, j) →
    lasersLoop buf p (vs.length + 1) = .ok (vs ++ [w], j) := by
  induction vs with
  | nil =>
    intro buf p w j H hI
    simp only [List.flatMap_nil, List.nil_append, List.length_nil, Nat.add_zero] at H hI
    have s1 := step_sep _ _ _ H
    show lasersLoop buf p (0 + 1) = _
    simp only [lasersLoop, s1, hI, PR.bind_ok]
    simp
  | cons v vs ih =>
    intro buf p w j H hI
    simp only [List.flatMap_cons, sepI32, List.cons_append, List.append_assoc] at H
    have s1 := step_sep _ _ _ H
    have H1 := H.tail
    obtain ⟨rest1, hrest⟩ : ∃ r, vs.flatMap sepI32 ++ [CODE_SEPARATOR] = CODE_SEPARATOR :: r := by
      cases vs with
      | nil => exact ⟨[], rfl⟩
      | cons a as =>
        exact ⟨i32Bytes a ++ (as.flatMap sepI32 ++ [CODE_SEPARATOR]), by simp [sepI32]⟩
    rw [hrest] at H1
    have i1 := step_i32 _ _ _ _ _ H1 dv_sep
    rw [← hrest] at H1
    have H2 := H1.split.2
    have hI2 : matchI32 buf (p + 1 + (i32Bytes v).length + (vs.flatMap sepI32).length + 1) =
        .ok (w, j) := by
      rw [show p + 1 + (i32Bytes v).length + (vs.flatMap sepI32).length + 1 =
        p + ((v :: vs).flatMap sepI32).length + 1 by simp [sepI32]; omega]
      exact hI
    have hr := ih buf _ w j H2 hI2
    simp only [lasersLoop] at hr
    show lasersLoop buf p (vs.length + 1 + 1) = _
    simp only [lasersLoop, s1, i1, PR.bind_ok, hr]
    simp

theorem logLoop_run (msg : List ℕ) : ∀ (buf : Buf) (p i : ℕ) (acc : List ℕ) (rest : List ℕ),
    Holds buf p (msg ++ CODE_END :: rest) → (∀ c ∈ msg, c ≠ CODE_END) →
    i + msg.length ≤ MAX_LOG_LINE_SIZE →
    logLoop buf i p acc =
      if i + msg.length < MAX_LOG_LINE_SIZE then .ok (acc ++ msg, p + msg.length)
      else .ok ([], p + msg.length) := by
  have hM : MAX_LOG_LINE_SIZE = 200 := rfl
  induction msg with
  | nil =>
    intro buf p i acc rest H hns hle
    simp only [List.nil_append] at H
    by_cases hi : i < MAX_LOG_LINE_SIZE
    · rw [logLoop, dif_pos hi, H.head]
      simp [hi]
    · rw [logLoop, dif_neg hi]
      rw [if_neg (by simpa using hi : ¬ (i + List.length ([] : List ℕ) < MAX_LOG_LINE_SIZE))]
      simp
  | cons c cs ih =>
    intro buf p i acc rest H hns hle
    simp only [List.length_cons] at hle
    have hi : i < MAX_LOG_LINE_SIZE := by omega
    have hc : c ≠ CODE_END := hns c (by simp)
    rw [logLoop, dif_pos hi, H.head]
    show (if c ≠ CODE_END then logLoop buf (i + 1) (p + 1) (acc ++ [c]) else .ok (acc, p)) = _
    rw [if_pos hc]
    have hr := ih buf (p + 1) (i + 1) (acc ++ [c]) rest H.tail
      (fun x hx => hns x (by simp [hx])) (by omega)
    rw [hr]
    by_cases hlt : i + (c :: cs).length < MAX_LOG_LINE_SIZE
    · rw [if_pos hlt, if_pos (by simp only [List.length_cons] at hlt; omega)]
      simp only [List.length_cons, List.append_assoc, List.singleton_append]
      rw [show p + 1 + cs.length = p + (cs.length + 1) by omega]
    · rw [if_neg hlt, if_neg (by simp only [List.length_cons] at hlt; omega)]
      simp only [List.length_cons]
      rw [show p + 1 + cs.length = p + (cs.length + 1) by omega]

theorem parseEvt_lasers_gen (buf : Buf) (ws : List ℤ) (w : ℤ) (j : ℕ)
    (hlen : ws.length + 1 = LASER_COUNT)
    (HK : Holds buf 0 (kwLASERS ++ (ws.flatMap sepI32 ++ [CODE_SEPARATOR])))
    (hI : matchI32 buf (0 + kwLASERS.length + (ws.flatMap sepI32).length + 1) = .ok (w, j)) :
    parseBotEvent buf = .ok (.lasers (ws ++ [w])) := by
  have e1 := dispatch_err kwSTATUS kwLASERS _ buf 0 HK 0 (by decide) (by decide)
    (by decide) (by decide)
  have hk := matchString_holds kwLASERS buf 0 HK.split.1
  have hloop := lasersLoop_snoc ws buf (0 + kwLASERS.length) w j HK.split.2 hI
  rw [hlen] at hloop
  simp only [parseBotEvent, e1, hk, hloop, PR.bind_ok]

theorem parseEvt_lasers_fromHolds (buf : Buf) (ws : List ℤ) (w : ℤ)
    (hlen : ws.length + 1 = LASER_COUNT)
    (H : Holds buf 0 (evtBytes (.lasers (ws ++ [w])))) :
    parseBotEvent buf = .ok (.lasers (ws ++ [w])) := by
  have hfm : (ws ++ [w]).flatMap sepI32 ++ [CODE_END] =
      ws.flatMap sepI32 ++ (CODE_SEPARATOR :: (i32Bytes w ++ [CODE_END])) := by
    rw [List.flatMap_append]
    simp [sepI32]
  have H' : Holds buf 0 ((kwLASERS ++ ws.flatMap sepI32) ++
      (CODE_SEPARATOR :: (i32Bytes w ++ [CODE_END]))) := by
    have h2 : evtBytes (.lasers (ws ++ [w])) = (kwLASERS ++ ws.flatMap sepI32) ++
        (CODE_SEPARATOR :: (i32Bytes w ++ [CODE_END])) := by
      show kwLASERS ++ ((ws ++ [w]).flatMap sepI32 ++ [CODE_END]) = _
      rw [hfm, List.append_assoc]
    rwa [h2] at H
  have HK : Holds buf 0 (kwLASERS ++ (ws.flatMap sepI32 ++ [CODE_SEPARATOR])) := by
    have := H'.prefix_snoc
    rwa [List.append_assoc] at this
  have H3 := H'.split.2.tail
  have hstep := step_i32 _ _ _ _ _ H3 dv_end
  refine parseEvt_lasers_gen buf ws w
    (0 + (kwLASERS ++ ws.flatMap sepI32).length + 1 + (i32Bytes w).length) hlen HK ?_
  rw [show (0:ℕ) + kwLASERS.length + (ws.flatMap sepI32).length + 1 =
      0 + (kwLASERS ++ ws.flatMap sepI32).length + 1 by simp]
  exact hstep

end FR


namespace FR

theorem parseEvt_log (buf : Buf) (msg : List ℕ) (hns : ∀ c ∈ msg, c ≠ CODE_END)
    (hm : msg.length ≤ MAX_LOG_LINE_SIZE)
    (H : Holds buf 0 (evtBytes (.log msg))) :
    parseBotEvent buf = .ok (.log (if msg.length < MAX_LOG_LINE_SIZE then msg else [])) := by
  simp only [evtBytes, List.cons_append, List.singleton_append, List.nil_append] at H
  have e1 := dispatch_err kwSTATUS kwLOG _ buf 0 H 0 (by decide) (by decide)
    (by decide) (by decide)
  have e2 := dispatch_err kwLASERS kwLOG _ buf 0 H 1 (by decide) (by decide)
    (by decide) (by decide)
  have e3 := dispatch_err kwIMU kwLOG _ buf 0 H 0 (by decide) (by decide)
    (by decide) (by decide)
  have hk := matchString_holds kwLOG buf 0 H.split.1
  have H1 := H.split.2
  have s1 := step_sep _ _ _ H1
  have H2 := H1.tail
  have hloop := logLoop_run msg buf _ 0 [] [] H2 hns (by simpa using hm)
  have H3 := H2.split.2
  have hend := step_end _ _ _ H3
  by_cases hc : msg.length < MAX_LOG_LINE_SIZE
  · rw [if_pos hc]
    rw [if_pos (by simpa using hc)] at hloop
    simp only [List.nil_append] at hloop
    simp only [parseBotEvent, e1, e2, e3, hk, s1, hloop, hend, PR.bind_ok]
  · rw [if_neg hc]
    rw [if_neg (by simpa using hc)] at hloop
    simp only [parseBotEvent, e1, e2, e3, hk, s1, hloop, hend, PR.bind_ok]

theorem evtBytes_length (e : BotEvent) (h : evtInRange 200 e) : (evtBytes e).length ≤ 256 := by
  have hS : kwSTATUS.length = 6 := by decide
  have hL : kwLASERS.length = 6 := by decide
  have hI : kwIMU.length = 3 := by decide
  have hLG : kwLOG.length = 3 := by decide
  have hIM : kwINVALID_MAP.length = 11 := by decide
  have hDE : kwDEVICE_ERROR.length = 12 := by decide
  have hSP : kwSTOPPED.length = 7 := by decide
  have hWA : kwWAITING.length = 7 := by decide
  have hRA : kwRACING.length = 6 := by decide
  cases e with
  | status s =>
    cases s with
    | invalidMap =>
      simp only [evtBytes, List.length_append, List.length_cons, List.length_nil, hS, hIM]
      omega
    | deviceError =>
      simp only [evtBytes, List.length_append, List.length_cons, List.length_nil, hS, hDE]
      omega
    | stopped =>
      simp only [evtBytes, List.length_append, List.length_cons, List.length_nil, hS, hSP]
      omega
    | waiting d =>
      obtain ⟨r1, r2⟩ := h
      have b1 := sepI32_length _ r1
      have b2 := sepI32_length _ r2
      simp only [evtBytes, List.length_append, List.length_cons, List.length_nil, hS, hWA]
      omega
    | racing d =>
      obtain ⟨r1, r2, r3, r4, r5⟩ := h
      have b1 := sepI32_length _ (usizeAsI32_range _ r1)
      have b2 := sepI32_length _ r2
      have b3 := sepI32_length _ r3
      have b4 := sepI32_length _ r4
      have b5 := sepI32_length _ r5
      simp only [evtBytes, List.length_append, List.length_cons, List.length_nil, hS, hRA]
      omega
  | lasers vs =>
    obtain ⟨hlen, hall⟩ := h
    have hfm := flatMap_sepI32_length vs hall
    have hlen20 : vs.length = 20 := hlen
    simp only [evtBytes, List.length_append, List.length_cons, List.length_nil, hL]
    omega
  | imu d =>
    obtain ⟨r1, r2, r3, r4, r5, r6, r7, r8, r9⟩ := h
    have b1 := sepI32_length _ r1
    have b2 := sepI32_length _ r2
    have b3 := sepI32_length _ r3
    have b4 := sepI32_length _ r4
    have b5 := sepI32_length _ r5
    have b6 := sepI32_length _ r6
    have b7 := sepI32_length _ r7
    have b8 := sepI32_length _ r8
    have b9 := sepI32_length _ r9
    simp only [evtBytes, List.length_append, List.length_cons, List.length_nil, hI]
    omega
  | log msg =>
    obtain ⟨hlen, _⟩ := h
    simp only [evtBytes, List.length_append, List.length_cons, List.length_nil, hLG]
    omega

theorem evtInRange_mono (e : BotEvent) (h : evtInRange 199 e) : evtInRange 200 e := by
  cases e with
  | log msg =>
    obtain ⟨h1, h2⟩ := h
    exact ⟨by omega, h2⟩
  | status s => cases s <;> exact h
  | lasers vs => exact h
  | imu d => exact h

theorem parseEvt_roundtrip (e : BotEvent) (h : evtInRange 199 e) (buf : Buf) :
    parseBotEvent ((writeString buf 0 (evtBytes e)).1) = .ok e := by
  have H : Holds (writeString buf 0 (evtBytes e)).1 0 (evtBytes e) :=
    holds_writeString _ _ _ (by simpa using evtBytes_length e (evtInRange_mono e h))
  cases e with
  | status s =>
    cases s with
    | invalidMap => exact parseEvt_status_invalidMap _ H
    | deviceError => exact parseEvt_status_deviceError _ H
    | stopped => exact parseEvt_status_stopped _ H
    | waiting d => exact parseEvt_status_waiting _ _ H
    | racing d =>
      obtain ⟨r1, _⟩ := h
      have hn : d.section_ < 2147483648 := by
        have hw : d.section_ ≤ 999999999 := r1
        omega
      rw [parseEvt_status_racing _ _ H, usizeAsI32_small _ hn,
        i32ToUsize_small _ (by omega) (by exact_mod_cast hn)]
      simp
  | lasers vs =>
    obtain ⟨hlen, _⟩ := h
    have hne : vs ≠ [] := by
      intro hq
      rw [hq] at hlen
      simp [LASER_COUNT] at hlen
    have hdecomp := (List.dropLast_append_getLast hne).symm
    rw [hdecomp] at H ⊢
    refine parseEvt_lasers_fromHolds _ _ _ ?_ H
    have h1 : vs.length = 20 := hlen
    have h2 := List.length_dropLast vs
    have h3 : vs.length ≠ 0 := by
      intro hq
      exact hne (List.eq_nil_of_length_eq_zero hq)
    omega
  | imu d => exact parseEvt_imu _ _ H
  | log msg =>
    obtain ⟨hlen, hbytes⟩ := h
    have hrun := parseEvt_log _ msg (fun c hc => (hbytes c hc).2)
      (by rw [MAX_LOG_LINE_SIZE]; omega) H
    rwa [if_pos (by rw [MAX_LOG_LINE_SIZE]; omega)] at hrun

end FR

namespace FR

theorem Holds.append {buf : Buf} {i : ℕ} {l1 l2 : List ℕ}
    (h1 : Holds buf i l1) (h2 : Holds buf (i + l1.length) l2) : Holds buf i (l1 ++ l2) := by
  intro k hk
  simp only [List.length_append] at hk
  by_cases hkl : k < l1.length
  · rw [List.getD_append _ _ _ _ hkl]
    exact h1 k hkl
  · rw [List.getD_append_right _ _ _ _ (by omega)]
    have := h2 (k - l1.length) (by omega)
    rwa [show i + l1.length + (k - l1.length) = i + k by omega] at this

theorem Holds.single {buf : Buf} {i : ℕ} {c : ℕ} (h : bget buf i = some c) :
    Holds buf i [c] := by
  intro k hk
  simp only [List.length_singleton] at hk
  have hk0 : k = 0 := by omega
  subst hk0
  simpa using h

/-- `match_i32` still succeeds when a canonical digit string is extended
by one more digit (the run simply absorbs it). -/
theorem matchI32_ext (buf : Buf) (p : ℕ) (v : ℤ) (c : ℕ) (hc : 48 ≤ c ∧ c ≤ 57) (b : ℕ)
    (H : Holds buf p ((i32Bytes v ++ [c]) ++ [b])) (hnd : digitValue b = none) :
    ∃ r, matchI32 buf p = .ok r := by
  rcases lt_trichotomy v 0 with hv | hv | hv
  · obtain ⟨f, heq, hlt, hge⟩ := i32Bytes_neg v hv
    obtain ⟨hlen, hdig, _⟩ := digitsBytes_spec f v.natAbs hlt
    obtain ⟨d0, rest, hcons⟩ := List.exists_cons_of_ne_nil
      (show digitsBytes (10 ^ f) v.natAbs ≠ [] by
        intro hq; rw [hq] at hlen; simp at hlen)
    rw [heq, hcons, show ((CODE_MINUS :: d0 :: rest) ++ [c]) ++ [b] =
      CODE_MINUS :: d0 :: ((rest ++ [c]) ++ [b]) by simp] at H
    have hd0 := hdig d0 (by rw [hcons]; simp)
    have H2 : Holds buf (p + 2) ((rest ++ [c]) ++ [b]) := by
      have := H.tail.tail
      rwa [show p + 1 + 1 = p + 2 by omega] at this
    have hloop := matchI32Loop_digits (rest ++ [c]) buf (p + 2) ((d0 : ℤ) - 48) b
      (by
        intro x hx
        rcases List.mem_append.mp hx with h | h
        · exact hdig x (by rw [hcons]; simp [h])
        · simp only [List.mem_singleton] at h
          subst h
          exact hc)
      H2.split.1 H2.split.2.head hnd
    exact ⟨_, matchI32_split_neg buf p H.head d0 H.tail.head ((d0 : ℤ) - 48)
      (by simp [digitValue, hd0.1, hd0.2]) _ _ hloop⟩
  · subst hv
    rw [show i32Bytes 0 = [48] from by rw [i32Bytes]; simp [digitCode],
      show (([48] ++ [c]) ++ [b] : List ℕ) = 48 :: ([c] ++ [b]) by simp] at H
    have H2 : Holds buf (p + 1) ([c] ++ [b]) := H.tail
    have hloop := matchI32Loop_digits [c] buf (p + 1) ((48 : ℤ) - 48) b
      (by intro x hx; simp only [List.mem_singleton] at hx; subst hx; exact hc)
      H2.split.1 H2.split.2.head hnd
    exact ⟨_, matchI32_split buf p 48 H.head (by simp [CODE_MINUS]) ((48 : ℤ) - 48)
      (by norm_num [digitValue]) _ hloop⟩
  · obtain ⟨f, heq, hlt, hge⟩ := i32Bytes_pos v hv
    obtain ⟨hlen, hdig, _⟩ := digitsBytes_spec f v.natAbs hlt
    obtain ⟨d0, rest, hcons⟩ := List.exists_cons_of_ne_nil
      (show digitsBytes (10 ^ f) v.natAbs ≠ [] by
        intro hq; rw [hq] at hlen; simp at hlen)
    rw [heq, hcons, show ((d0 :: rest) ++ [c]) ++ [b] =
      d0 :: ((rest ++ [c]) ++ [b]) by simp] at H
    have hd0 := hdig d0 (by rw [hcons]; simp)
    have H2 : Holds buf (p + 1) ((rest ++ [c]) ++ [b]) := H.tail
    have hloop := matchI32Loop_digits (rest ++ [c]) buf (p + 1) ((d0 : ℤ) - 48) b
      (by
        intro x hx
        rcases List.mem_append.mp hx with h | h
        · exact hdig x (by rw [hcons]; simp [h])
        · simp only [List.mem_singleton] at h
          subst h
          exact hc)
      H2.split.1 H2.split.2.head hnd
    exact ⟨_, matchI32_split buf p d0 H.head (by simp only [CODE_MINUS]; omega)
      ((d0 : ℤ) - 48) (by simp [digitValue, hd0.1, hd0.2]) _ hloop⟩

end FR

namespace FR

theorem Holds.bset_outside {buf : Buf} {i : ℕ} {l : List ℕ} (h : Holds buf i l)
    (q c : ℕ) (hq : q < i ∨ i + l.length ≤ q) : Holds (bset buf q c) i l := by
  intro k hk
  obtain ⟨hlt, hbv⟩ := bget_some (h k hk)
  rw [bget_lt _ _ hlt, bset_other _ _ _ _ (by omega), hbv]

theorem digitValue_some_bounds {c : ℕ} {d : ℤ} (h : digitValue c = some d) :
    48 ≤ c ∧ c ≤ 57 := by
  rw [digitValue] at h
  by_cases hb : 48 ≤ c ∧ c ≤ 57
  · exact hb
  · rw [if_neg hb] at h
    cases h

/-- Setup facts shared by both cases of the C10 analysis. -/
theorem lasers_corrupt_setup (ws : List ℤ) (w : ℤ) (c : ℕ)
    (hlen : (ws ++ [w]).length = LASER_COUNT) (hall : ∀ v ∈ ws ++ [w], i32WriteRange v) :
    (evtBytes (.lasers (ws ++ [w]))).length =
      (kwLASERS ++ ws.flatMap sepI32).length + 1 + (i32Bytes w).length + 1 ∧
    (evtBytes (.lasers (ws ++ [w]))).length ≤ 247 ∧
    evtBytes (.lasers (ws ++ [w])) = (kwLASERS ++ ws.flatMap sepI32) ++
      (CODE_SEPARATOR :: (i32Bytes w ++ [CODE_END])) := by
  have hbytes : evtBytes (.lasers (ws ++ [w])) = (kwLASERS ++ ws.flatMap sepI32) ++
      (CODE_SEPARATOR :: (i32Bytes w ++ [CODE_END])) := by
    show kwLASERS ++ ((ws ++ [w]).flatMap sepI32 ++ [CODE_END]) = _
    rw [List.flatMap_append]
    simp [sepI32]
  have hkw : kwLASERS.length = 6 := by decide
  have hws : ws.length = 19 := by
    simp only [List.length_append, List.length_singleton] at hlen
    have : LASER_COUNT = 20 := rfl
    omega
  have hfm := flatMap_sepI32_length ws (fun v hv => hall v (by simp [hv]))
  have hw := i32Bytes_length w (hall w (by simp))
  refine ⟨?_, ?_, hbytes⟩
  · rw [hbytes]
    simp only [List.length_append, List.length_cons, List.length_singleton, List.length_nil]
    omega
  · rw [hbytes]
    simp only [List.length_append, List.length_cons, List.length_singleton, List.length_nil]
    omega

theorem lasers_corrupt_parses (ws : List ℤ) (w : ℤ) (c : ℕ)
    (hlen : (ws ++ [w]).length = LASER_COUNT) (hall : ∀ v ∈ ws ++ [w], i32WriteRange v)
    (hc : c ≠ CODE_END) :
    ∃ r, parseBotEvent (bset ((writeString bufZero 0 (evtBytes (.lasers (ws ++ [w])))).1)
      ((evtBytes (.lasers (ws ++ [w]))).length - 1) c) = .ok (.lasers (ws ++ [r])) ∧
      (digitValue c = none → r = w) := by
  obtain ⟨hLval, hL247, hbytes⟩ := lasers_corrupt_setup ws w c hlen hall
  have hlen' : ws.length + 1 = LASER_COUNT := by
    simp only [List.length_append, List.length_singleton] at hlen
    omega
  set bytes := evtBytes (.lasers (ws ++ [w])) with hbdef
  set W := (writeString bufZero 0 bytes).1 with hWdef
  set L := bytes.length with hLdef
  set pre := kwLASERS ++ ws.flatMap sepI32 with hpredef
  have HW : Holds W 0 bytes := holds_writeString _ _ _ (by omega)
  rw [hbytes] at HW
  have HKpre : Holds (bset W (L - 1) c) 0 (pre ++ [CODE_SEPARATOR]) := by
    apply Holds.bset_outside HW.prefix_snoc
    right
    simp only [List.length_append, List.length_singleton]
    omega
  have HK : Holds (bset W (L - 1) c) 0 (kwLASERS ++ (ws.flatMap sepI32 ++ [CODE_SEPARATOR])) := by
    rw [← List.append_assoc]
    exact HKpre
  have HInt : Holds (bset W (L - 1) c) (0 + pre.length + 1) (i32Bytes w) := by
    apply Holds.bset_outside HW.split.2.tail.split.1
    right
    omega
  have hbc : bget (bset W (L - 1) c) (0 + pre.length + 1 + (i32Bytes w).length) = some c := by
    rw [show 0 + pre.length + 1 + (i32Bytes w).length = L - 1 by omega]
    rw [bget_lt _ _ (by omega), bset_same]
  have hb0 : bget (bset W (L - 1) c) (0 + pre.length + 1 + ((i32Bytes w).length + 1)) =
      some 0 := by
    rw [show 0 + pre.length + 1 + ((i32Bytes w).length + 1) = L by omega]
    rw [bget_lt _ _ (by omega), bset_other _ _ _ _ (by omega)]
    rw [hWdef, writeString_untouched _ _ _ _ (by omega)]
    rfl
  rcases hdv : digitValue c with _ | d
  · have hI := matchI32_complete (bset W (L - 1) c) (0 + pre.length + 1) w c HInt hbc hdv
    refine ⟨w, ?_, fun _ => rfl⟩
    refine parseEvt_lasers_gen _ ws w (0 + pre.length + 1 + (i32Bytes w).length) hlen' HK ?_
    rw [show (0:ℕ) + kwLASERS.length + (ws.flatMap sepI32).length + 1 =
      0 + pre.length + 1 by simp [hpredef]]
    exact hI
  · have hc48 := digitValue_some_bounds hdv
    have HExt : Holds (bset W (L - 1) c) (0 + pre.length + 1) ((i32Bytes w ++ [c]) ++ [0]) := by
      refine Holds.append (Holds.append HInt (Holds.single hbc)) ?_
      rw [show 0 + pre.length + 1 + (i32Bytes w ++ [c]).length =
        0 + pre.length + 1 + ((i32Bytes w).length + 1) by simp]
      exact Holds.single hb0
    obtain ⟨r, hr⟩ := matchI32_ext (bset W (L - 1) c) (0 + pre.length + 1) w c hc48 0
      HExt (by decide)
    refine ⟨r.1, ?_, fun hnone => absurd hnone (by simp)⟩
    refine parseEvt_lasers_gen _ ws r.1 r.2 hlen' HK ?_
    rw [show (0:ℕ) + kwLASERS.length + (ws.flatMap sepI32).length + 1 =
      0 + pre.length + 1 by simp [hpredef]]
    rw [hr]

end FR

namespace FR

/-- **C1** is false as stated: a 200-byte log message is within the
documented ranges, yet the exhausted read loop leaves the recorded length
at zero, so the written frame parses back to `Ok` of an *empty* log
message, not the original. -/
theorem C1_log200_counterexample :
    ∃ W, writeBotEvent (.log (List.replicate 200 97)) bufZero = some W ∧
      parseBotEvent W ≠ .ok (.log (List.replicate 200 97)) ∧
      parseBotEvent W = .ok (.log []) := by
  have hrange : evtInRange 200 (.log (List.replicate 200 97)) := by
    constructor
    · rw [List.length_replicate]
    · intro x hx
      rw [List.eq_of_mem_replicate hx]
      exact ⟨by norm_num, by decide⟩
  refine ⟨(writeString bufZero 0 (evtBytes (.log (List.replicate 200 97)))).1,
    writeBotEvent_eq _ _ trivial, ?_⟩
  have H := holds_writeString (evtBytes (.log (List.replicate 200 97))) bufZero 0
    (by rw [Nat.zero_add]; exact evtBytes_length _ hrange)
  have hrun := parseEvt_log _ (List.replicate 200 97)
    (fun x hx => by rw [List.eq_of_mem_replicate hx]; decide)
    (by rw [List.length_replicate, MAX_LOG_LINE_SIZE]) H
  rw [if_neg (by rw [List.length_replicate, MAX_LOG_LINE_SIZE]; omega)] at hrun
  refine ⟨?_, hrun⟩
  rw [hrun]
  intro hq
  simp only [PR.ok.injEq, BotEvent.log.injEq] at hq
  have hlq := congrArg List.length hq
  rw [List.length_nil, List.length_replicate] at hlq
  exact absurd hlq (by omega)

/-- **C1** (amended): for every command and event whose integer fields have
magnitude at most `999999999` (beyond which the source `write_i32`
overflows `i32`) and whose log payload is at most 199 bytes, the write
succeeds and parsing the written frame returns `Ok` of the original
value. -/
theorem C1_roundtrip_amended :
    (∀ (buf : Buf) (c : BotCommand), cmdInRange c →
      ∃ W, writeBotCommand c buf = some W ∧ parseBotCommand W = .ok c) ∧
    (∀ (buf : Buf) (e : BotEvent), evtInRange 199 e →
      ∃ W, writeBotEvent e buf = some W ∧ parseBotEvent W = .ok e) := by
  constructor
  · intro buf c h
    exact ⟨(writeString buf 0 (cmdBytes c)).1, writeBotCommand_eq c buf h,
      parseCmd_roundtrip c h buf⟩
  · intro buf e h
    refine ⟨(writeString buf 0 (evtBytes e)).1, writeBotEvent_eq e buf ?_,
      parseEvt_roundtrip e h buf⟩
    cases e with
    | status st =>
      cases st with
      | waiting d => exact h
      | racing d => exact h
      | _ => exact trivial
    | lasers vs => exact h.2
    | imu d => exact h
    | log msg => exact trivial

/-- **C1** amended theorem, applied to a concrete motor command and a
concrete status event. -/
theorem C1_roundtrip_witness :
    (∃ W, writeBotCommand (.direct ⟨100, -100, 0, 50⟩) bufZero = some W ∧
      parseBotCommand W = .ok (.direct ⟨100, -100, 0, 50⟩)) ∧
    (∃ W, writeBotEvent (.status .stopped) bufZero = some W ∧
      parseBotEvent W = .ok (.status .stopped)) :=
  ⟨C1_roundtrip_amended.1 bufZero (.direct ⟨100, -100, 0, 50⟩)
      ⟨show ((100 : ℤ).natAbs ≤ 999999999) by decide,
        show (((-100) : ℤ).natAbs ≤ 999999999) by decide,
        show ((0 : ℤ).natAbs ≤ 999999999) by decide,
        show ((50 : ℤ).natAbs ≤ 999999999) by decide⟩,
    C1_roundtrip_amended.2 bufZero (.status .stopped) trivial⟩

/-- **C10**: `BotEvent::parse` of a LASERS frame returns `Ok` right after
the twentieth integer without checking the terminator, so replacing the
final `'\n'` of a written frame with any other byte still decodes
successfully (and, when the byte is not a digit, to exactly the original
value). -/
theorem C10_lasers_no_terminator (vs : List ℤ) (c : ℕ) (hlen : vs.length = LASER_COUNT)
    (hall : ∀ v ∈ vs, i32WriteRange v) (hc : c ≠ CODE_END) :
    ∃ W, writeBotEvent (.lasers vs) bufZero = some W ∧
      (parseBotEvent (bset W ((evtBytes (.lasers vs)).length - 1) c)).isOk = true ∧
      (digitValue c = none →
        parseBotEvent (bset W ((evtBytes (.lasers vs)).length - 1) c) = .ok (.lasers vs)) := by
  have hne : vs ≠ [] := by
    intro hq
    rw [hq] at hlen
    simp [LASER_COUNT] at hlen
  obtain ⟨ws, w, rfl⟩ : ∃ ws w, vs = ws ++ [w] :=
    ⟨vs.dropLast, vs.getLast hne, (List.dropLast_append_getLast hne).symm⟩
  refine ⟨(writeString bufZero 0 (evtBytes (.lasers (ws ++ [w])))).1,
    writeBotEvent_eq _ _ hall, ?_⟩
  obtain ⟨r, hr, hrw⟩ := lasers_corrupt_parses ws w c hlen hall hc
  constructor
  · rw [hr]
    rfl
  · intro hdv
    rw [hr, hrw hdv]

/-- **C10** applied to a written frame of twenty zero distances whose final
`'\n'` is replaced by `'X'` (88). -/
theorem C10_lasers_witness :
    ∃ W, writeBotEvent (.lasers (List.replicate 20 0)) bufZero = some W ∧
      (parseBotEvent (bset W ((evtBytes (.lasers (List.replicate 20 0))).length - 1) 88)).isOk
        = true ∧
      (digitValue 88 = none →
        parseBotEvent (bset W ((evtBytes (.lasers (List.replicate 20 0))).length - 1) 88) =
          .ok (.lasers (List.replicate 20 0))) :=
  C10_lasers_no_terminator (List.replicate 20 0) 88 (by decide)
    (by
      intro v hv
      rw [List.eq_of_mem_replicate hv]
      show ((0 : ℤ).natAbs ≤ 999999999)
      decide)
    (by decide)

end FR

namespace FR

theorem matchI32Loop_no_err (buf : Buf) : ∀ (i : ℕ) (value : ℤ) (j : ℕ),
    matchI32Loop buf value i ≠ .err j := by
  have main : ∀ (n i : ℕ) (value : ℤ) (j : ℕ), PROTOCOL_BUFFER_SIZE - i = n →
      matchI32Loop buf value i ≠ .err j := by
    intro n
    induction n using Nat.strong_induction_on with
    | _ n ih =>
      intro i value j hn
      rw [matchI32Loop]
      by_cases hi : i < PROTOCOL_BUFFER_SIZE
      · rw [dif_pos hi]
        rcases hd : digitValue (buf i) with _ | v
        · intro hq
          cases hq
        · exact ih (PROTOCOL_BUFFER_SIZE - (i + 1)) (by omega) (i + 1) _ j rfl
      · rw [dif_neg hi]
        intro hq
        cases hq
  intro i value j
  exact main _ i value j rfl

theorem matchCode_err_spec (buf : Buf) (i code j : ℕ) (h : matchCode buf i code = .err j) :
    j = i ∧ ∃ b, bget buf i = some b ∧ b ≠ code := by
  rw [matchCode] at h
  rcases hb : bget buf i with _ | b
  · rw [hb] at h
    cases h
  · rw [hb] at h
    dsimp only at h
    by_cases he : b = code
    · rw [if_pos he] at h
      cases h
    · rw [if_neg he] at h
      injection h with hij
      exact ⟨hij.symm, b, rfl, he⟩

theorem matchString_err_spec (K : List ℕ) : ∀ (buf : Buf) (i j : ℕ),
    matchString buf i K = .err j →
    ∃ k, k < K.length ∧ j = i + k ∧
      (∀ m < k, bget buf (i + m) = some (K.getD m 0)) ∧
      ∃ b, bget buf (i + k) = some b ∧ b ≠ K.getD k 0 := by
  induction K with
  | nil =>
    intro buf i j h
    rw [matchString] at h
    cases h
  | cons c cs ih =>
    intro buf i j h
    rw [matchString] at h
    rcases hb : bget buf i with _ | b
    · rw [hb] at h
      cases h
    · rw [hb] at h
      dsimp only at h
      by_cases he : b = c
      · rw [if_pos he] at h
        obtain ⟨k, hk, hj, hpre, b2, hb2, hne2⟩ := ih buf (i + 1) j h
        subst he
        refine ⟨k + 1, by simpa using hk, by omega, ?_, b2, ?_, ?_⟩
        · intro m hm
          match m with
          | 0 => simpa using hb
          | m + 1 =>
            have := hpre m (by omega)
            rw [show i + (m + 1) = i + 1 + m by omega]
            simpa using this
        · rw [show i + (k + 1) = i + 1 + k by omega]
          exact hb2
        · simpa using hne2
      · rw [if_neg he] at h
        injection h with hij
        exact ⟨0, by simp, by omega, by omega, b, by simpa using hb, by simpa using he⟩

theorem matchI32_err_spec (buf : Buf) (i j : ℕ) (h : matchI32 buf i = .err j) :
    ∃ b0, bget buf i = some b0 ∧
      ((b0 ≠ CODE_MINUS ∧ j = i) ∨ (b0 = CODE_MINUS ∧ j = i + 1)) ∧
      ∃ c, bget buf j = some c ∧ digitValue c = none := by
  rw [matchI32] at h
  rcases hb : bget buf i with _ | b0
  · rw [hb] at h
    cases h
  · rw [hb] at h
    dsimp only at h
    by_cases hm : b0 = CODE_MINUS
    · simp only [hm, eq_self_iff_true, if_true] at h
      rcases hb1 : bget buf (i + 1) with _ | c
      · rw [hb1] at h
        cases h
      · rw [hb1] at h
        dsimp only at h
        rcases hd : digitValue c with _ | v
        · rw [hd] at h
          injection h with hij
          subst hij
          exact ⟨b0, rfl, Or.inr ⟨hm, rfl⟩, c, hb1, hd⟩
        · rw [hd] at h
          dsimp only at h
          rcases hl : matchI32Loop buf v (i + 1 + 1) with _ | j2 | r
          · rw [hl] at h
            cases h
          · exact absurd hl (matchI32Loop_no_err buf _ _ _)
          · rw [hl] at h
            cases h
    · simp only [if_neg hm] at h
      rcases hb1 : bget buf i with _ | c
      · rw [hb1] at h
        cases h
      · rw [hb1] at h
        dsimp only at h
        rcases hd : digitValue c with _ | v
        · rw [hd] at h
          injection h with hij
          subst hij
          exact ⟨b0, rfl, Or.inl ⟨hm, rfl⟩, c, hb1, hd⟩
        · rw [hd] at h
          dsimp only at h
          rcases hl : matchI32Loop buf v (i + 1) with _ | j2 | r
          · rw [hl] at h
            cases h
          · exact absurd hl (matchI32Loop_no_err buf _ _ _)
          · rw [hl] at h
            cases h

theorem parseCmd_dispatch_err0 (buf : Buf)
    (h : ∀ K ∈ cmdKeywords, ∃ j, matchString buf 0 K = .err j) :
    parseBotCommand buf = .err 0 := by
  obtain ⟨j1, h1⟩ := h kwMAP_START (by simp [cmdKeywords])
  obtain ⟨j2, h2⟩ := h kwMAP_SECTION (by simp [cmdKeywords])
  obtain ⟨j3, h3⟩ := h kwMAP_END (by simp [cmdKeywords])
  obtain ⟨j4, h4⟩ := h kwRESET (by simp [cmdKeywords])
  obtain ⟨j5, h5⟩ := h kwSTART (by simp [cmdKeywords])
  obtain ⟨j6, h6⟩ := h kwPAUSE (by simp [cmdKeywords])
  obtain ⟨j7, h7⟩ := h kwRESTART (by simp [cmdKeywords])
  obtain ⟨j8, h8⟩ := h kwDIRECT (by simp [cmdKeywords])
  simp only [parseBotCommand, h1, h2, h3, h4, h5, h6, h7, h8]

theorem parseEvt_dispatch_err0 (buf : Buf)
    (h : ∀ K ∈ evtKeywords, ∃ j, matchString buf 0 K = .err j) :
    parseBotEvent buf = .err 0 := by
  obtain ⟨j1, h1⟩ := h kwSTATUS (by simp [evtKeywords])
  obtain ⟨j2, h2⟩ := h kwLASERS (by simp [evtKeywords])
  obtain ⟨j3, h3⟩ := h kwIMU (by simp [evtKeywords])
  obtain ⟨j4, h4⟩ := h kwLOG (by simp [evtKeywords])
  simp only [parseBotEvent, h1, h2, h3, h4]

end FR

namespace FR

/-- C9 (counterexample): on the buffer starting `"MX"`, no keyword matches;
the first keyword tried (`MAP-START`) mismatches at offset 1, yet both
parsers report `Err(0)` — the offset where dispatch began, not the first
mismatching byte. -/
theorem C9_err_offset_counterexample :
    parseBotCommand (bset (bset bufZero 0 77) 1 88) = .err 0 ∧
    matchString (bset (bset bufZero 0 77) 1 88) 0 kwMAP_START = .err 1 ∧ (0 : ℕ) ≠ 1 := by
  refine ⟨by decide, by decide, by decide⟩

/-- C9 (amended): the primitive matchers report the exact offset of the
first mismatching byte (after a matched prefix); a failed keyword dispatch,
however, reports the offset at which dispatch began (`0` at top level), not
the offset inside the mismatching keyword. -/
theorem C9_err_offset_amended :
    (∀ (buf : Buf) (i code j : ℕ), matchCode buf i code = .err j →
      j = i ∧ ∃ b, bget buf i = some b ∧ b ≠ code) ∧
    (∀ (K : List ℕ) (buf : Buf) (i j : ℕ), matchString buf i K = .err j →
      ∃ k, k < K.length ∧ j = i + k ∧
        (∀ m < k, bget buf (i + m) = some (K.getD m 0)) ∧
        ∃ b, bget buf (i + k) = some b ∧ b ≠ K.getD k 0) ∧
    (∀ (buf : Buf) (i j : ℕ), matchI32 buf i = .err j →
      ∃ b0, bget buf i = some b0 ∧
        ((b0 ≠ CODE_MINUS ∧ j = i) ∨ (b0 = CODE_MINUS ∧ j = i + 1)) ∧
        ∃ c, bget buf j = some c ∧ digitValue c = none) ∧
    (∀ buf : Buf, (∀ K ∈ cmdKeywords, ∃ j, matchString buf 0 K = .err j) →
      parseBotCommand buf = .err 0) ∧
    (∀ buf : Buf, (∀ K ∈ evtKeywords, ∃ j, matchString buf 0 K = .err j) →
      parseBotEvent buf = .err 0) :=
  ⟨matchCode_err_spec, fun K => matchString_err_spec K, matchI32_err_spec,
    parseCmd_dispatch_err0, parseEvt_dispatch_err0⟩

theorem C9_err_offset_witness :
    (0 = 0 ∧ ∃ b, bget bufZero 0 = some b ∧ b ≠ CODE_SEPARATOR) ∧
    parseBotCommand (bset bufZero 0 88) = .err 0 := by
  constructor
  · exact C9_err_offset_amended.1 bufZero 0 CODE_SEPARATOR 0 (by decide)
  · exact C9_err_offset_amended.2.2.2.1 (bset bufZero 0 88)
      (by
        intro K hK
        fin_cases hK <;> exact ⟨0, by decide⟩)

end FR

namespace FR

theorem bind_ne_crash {α β : Type} {r : PR α} {k : α → PR β}
    (h1 : r ≠ .crash) (h2 : ∀ a, r = .ok a → k a ≠ .crash) : r.bind k ≠ .crash := by
  cases r with
  | crash => exact absurd rfl h1
  | err i => simp [PR.bind]
  | ok a => simpa using h2 a rfl

theorem dv_end_byte {c : ℕ} (h : digitValue c ≠ none) : c ≠ CODE_END := by
  intro hq
  subst hq
  exact h (by decide)

theorem matchCode_safe (buf : Buf) (p : ℕ) (hp : p < 256) (hbp : buf p = CODE_END)
    (c : ℕ) (hc : c ≠ CODE_END) (i : ℕ) (hi : i ≤ p) :
    matchCode buf i c ≠ .crash ∧ (∀ j, matchCode buf i c = .ok j → j ≤ p) := by
  rw [matchCode, bget_lt _ _ (by omega)]
  dsimp only
  by_cases he : buf i = c
  · rw [if_pos he]
    refine ⟨by simp, ?_⟩
    intro j hj
    injection hj with hj
    have hip : i ≠ p := by
      intro hq
      subst hq
      exact hc (he.symm.trans hbp)
    omega
  · rw [if_neg he]
    exact ⟨by simp, fun j hj => by cases hj⟩

theorem matchEnd_safe (buf : Buf) (p : ℕ) (hp : p < 256) (i : ℕ) (hi : i ≤ p) :
    matchEnd buf i ≠ .crash := by
  rw [matchEnd, matchCode, bget_lt _ _ (by omega)]
  by_cases he : buf i = CODE_END
  · simp [he]
  · simp [he]

theorem matchString_safe (buf : Buf) (p : ℕ) (hp : p < 256) (hbp : buf p = CODE_END)
    (K : List ℕ) (hK : CODE_END ∉ K) : ∀ (i : ℕ), i ≤ p →
    matchString buf i K ≠ .crash ∧ (∀ j, matchString buf i K = .ok j → j ≤ p) := by
  induction K with
  | nil =>
    intro i hi
    constructor
    · simp [matchString]
    · intro j hj
      rw [matchString] at hj
      injection hj with hj
      omega
  | cons c cs ih =>
    intro i hi
    have hc : c ≠ CODE_END := by
      intro hq
      exact hK (by simp [hq])
    rw [matchString, bget_lt _ _ (by omega)]
    dsimp only
    by_cases he : buf i = c
    · have hilt : i < p := by
        have hip : i ≠ p := by
          intro hq
          subst hq
          exact hc (he.symm.trans hbp)
        omega
      have hr := ih (fun hq => hK (by simp [hq])) (i + 1) (by omega)
      rw [if_pos he]
      exact hr
    · rw [if_neg he]
      exact ⟨by simp, fun j hj => by cases hj⟩

theorem matchI32Loop_safe (buf : Buf) (p : ℕ) (hp : p < 256) (hbp : buf p = CODE_END) :
    ∀ (n i : ℕ), p - i = n → i ≤ p → ∀ (acc : ℤ),
      matchI32Loop buf acc i ≠ .crash ∧
      (∀ a, matchI32Loop buf acc i = .ok a → a.2 ≤ p) := by
  intro n
  induction n using Nat.strong_induction_on with
  | _ n ih =>
    intro i hn hi acc
    rw [matchI32Loop, dif_pos (show i < PROTOCOL_BUFFER_SIZE by
      simp only [PROTOCOL_BUFFER_SIZE]; omega)]
    rcases hd : digitValue (buf i) with _ | v
    · constructor
      · simp
      · intro a ha
        injection ha with ha
        subst ha
        omega
    · have hne : buf i ≠ CODE_END := dv_end_byte (by rw [hd]; simp)
      have hilt : i < p := by
        have : i ≠ p := fun hq => hne (by rw [hq, hbp])
        omega
      exact ih (p - (i + 1)) (by omega) (i + 1) rfl (by omega) _

theorem matchI32_safe (buf : Buf) (p : ℕ) (hp : p < 256) (hbp : buf p = CODE_END)
    (i : ℕ) (hi : i ≤ p) :
    matchI32 buf i ≠ .crash ∧ (∀ a, matchI32 buf i = .ok a → a.2 ≤ p) := by
  rw [matchI32, bget_lt _ _ (by omega)]
  dsimp only
  by_cases hm : buf i = CODE_MINUS
  · have hilt : i < p := by
      have : i ≠ p := fun hq => by
        rw [hq, hbp] at hm
        exact absurd hm (by decide)
      omega
    rw [if_pos hm, bget_lt _ _ (by omega)]
    dsimp only
    rcases hd : digitValue (buf (i + 1)) with _ | v
    · exact ⟨by simp, fun a ha => by cases ha⟩
    · dsimp only
      have hne1 : buf (i + 1) ≠ CODE_END := dv_end_byte (by rw [hd]; simp)
      have hilt1 : i + 1 < p := by
        have : i + 1 ≠ p := fun hq => hne1 (by rw [hq, hbp])
        omega
      have hloop := matchI32Loop_safe buf p hp hbp (p - (i + 1 + 1)) (i + 1 + 1) rfl
        (by omega) v
      constructor
      · apply bind_ne_crash hloop.1
        intro a _
        simp
      · intro a ha
        rcases hl : matchI32Loop buf v (i + 1 + 1) with _ | j2 | r
        · rw [hl] at ha
          cases ha
        · rw [hl] at ha
          cases ha
        · rw [hl] at ha
          simp only [PR.bind_ok] at ha
          injection ha with ha
          have := hloop.2 r hl
          rw [← ha]
          simpa using this
  · rw [if_neg hm, bget_lt _ _ (by omega)]
    dsimp only
    rcases hd : digitValue (buf i) with _ | v
    · exact ⟨by simp, fun a ha => by cases ha⟩
    · dsimp only
      have hne1 : buf i ≠ CODE_END := dv_end_byte (by rw [hd]; simp)
      have hilt1 : i < p := by
        have : i ≠ p := fun hq => hne1 (by rw [hq, hbp])
        omega
      have hloop := matchI32Loop_safe buf p hp hbp (p - (i + 1)) (i + 1) rfl (by omega) v
      constructor
      · apply bind_ne_crash hloop.1
        intro a _
        simp
      · intro a ha
        rcases hl : matchI32Loop buf v (i + 1) with _ | j2 | r
        · rw [hl] at ha
          cases ha
        · rw [hl] at ha
          cases ha
        · rw [hl] at ha
          simp only [PR.bind_ok] at ha
          injection ha with ha
          have := hloop.2 r hl
          rw [← ha]
          simpa using this

theorem lasersLoop_safe (buf : Buf) (p : ℕ) (hp : p < 256) (hbp : buf p = CODE_END) :
    ∀ (k i : ℕ), i ≤ p →
      lasersLoop buf i k ≠ .crash ∧ (∀ a, lasersLoop buf i k = .ok a → a.2 ≤ p) := by
  intro k
  induction k with
  | zero =>
    intro i hi
    constructor
    · simp [lasersLoop]
    · intro a ha
      rw [lasersLoop] at ha
      injection ha with ha
      subst ha
      exact hi
  | succ k ih =>
    intro i hi
    have hsep := matchCode_safe buf p hp hbp CODE_SEPARATOR (by decide) i hi
    rw [lasersLoop]
    constructor
    · apply bind_ne_crash hsep.1
      intro j hj
      have hj2 := hsep.2 j hj
      have hint := matchI32_safe buf p hp hbp j hj2
      apply bind_ne_crash hint.1
      intro vi hvi
      have hvi2 := hint.2 vi hvi
      have hrec := ih vi.2 hvi2
      apply bind_ne_crash hrec.1
      intro rest _
      simp
    · intro a ha
      rcases hs : matchSeparator buf i with _ | j2 | j
      · rw [hs] at ha
        cases ha
      · rw [hs] at ha
        cases ha
      · rw [hs] at ha
        simp only [PR.bind_ok] at ha
        have hj2 := hsep.2 j hs
        rcases hv : matchI32 buf j with _ | j3 | vi
        · rw [hv] at ha
          cases ha
        · rw [hv] at ha
          cases ha
        · rw [hv] at ha
          simp only [PR.bind_ok] at ha
          have hvi2 := (matchI32_safe buf p hp hbp j hj2).2 vi hv
          rcases hl : lasersLoop buf vi.2 k with _ | j4 | rest
          · rw [hl] at ha
            cases ha
          · rw [hl] at ha
            cases ha
          · rw [hl] at ha
            simp only [PR.bind_ok] at ha
            injection ha with ha
            have := (ih vi.2 hvi2).2 rest hl
            rw [← ha]
            simpa using this

theorem logLoop_safe (buf : Buf) (p : ℕ) (hp : p < 256) (hbp : buf p = CODE_END) :
    ∀ (n cnt i : ℕ), MAX_LOG_LINE_SIZE - cnt = n → i ≤ p → ∀ (acc : List ℕ),
      logLoop buf cnt i acc ≠ .crash ∧
      (∀ a, logLoop buf cnt i acc = .ok a → a.2 ≤ p) := by
  intro n
  induction n using Nat.strong_induction_on with
  | _ n ih =>
    intro cnt i hn hi acc
    rw [logLoop]
    by_cases hcnt : cnt < MAX_LOG_LINE_SIZE
    · rw [dif_pos hcnt, bget_lt _ _ (by omega)]
      dsimp only
      by_cases hce : buf i ≠ CODE_END
      · rw [if_pos hce]
        have hilt : i < p := by
          have : i ≠ p := fun hq => hce (by rw [hq, hbp])
          omega
        exact ih (MAX_LOG_LINE_SIZE - (cnt + 1)) (by omega) (cnt + 1) (i + 1) rfl
          (by omega) _
      · rw [if_neg hce]
        constructor
        · simp
        · intro a ha
          injection ha with ha
          subst ha
          exact hi
    · rw [dif_neg hcnt]
      constructor
      · simp
      · intro a ha
        injection ha with ha
        subst ha
        exact hi

theorem matchSeparator_safe (buf : Buf) (p : ℕ) (hp : p < 256) (hbp : buf p = CODE_END)
    (i : ℕ) (hi : i ≤ p) :
    matchSeparator buf i ≠ .crash ∧ (∀ j, matchSeparator buf i = .ok j → j ≤ p) :=
  matchCode_safe buf p hp hbp CODE_SEPARATOR (by decide) i hi

theorem parseBotCommand_safe (buf : Buf) (p : ℕ) (hp : p < 256)
    (hbp : buf p = CODE_END) : parseBotCommand buf ≠ .crash := by
  have hsep := matchSeparator_safe buf p hp hbp
  have hint := matchI32_safe buf p hp hbp
  have hend := matchEnd_safe buf p hp
  have hstr := matchString_safe buf p hp hbp
  have h0 : (0 : ℕ) ≤ p := Nat.zero_le p
  rw [parseBotCommand]
  rcases h1 : matchString buf 0 kwMAP_START with _ | e2 | n3
  · exact absurd h1 (hstr kwMAP_START (by decide) 0 h0).1
  · dsimp only
    rcases h5 : matchString buf 0 kwMAP_SECTION with _ | e6 | n7
    · exact absurd h5 (hstr kwMAP_SECTION (by decide) 0 h0).1
    · dsimp only
      rcases h9 : matchString buf 0 kwMAP_END with _ | e10 | n11
      · exact absurd h9 (hstr kwMAP_END (by decide) 0 h0).1
      · dsimp only
        rcases h13 : matchString buf 0 kwRESET with _ | e14 | n15
        · exact absurd h13 (hstr kwRESET (by decide) 0 h0).1
        · dsimp only
          rcases h17 : matchString buf 0 kwSTART with _ | e18 | n19
          · exact absurd h17 (hstr kwSTART (by decide) 0 h0).1
          · dsimp only
            rcases h21 : matchString buf 0 kwPAUSE with _ | e22 | n23
            · exact absurd h21 (hstr kwPAUSE (by decide) 0 h0).1
            · dsimp only
              rcases h25 : matchString buf 0 kwRESTART with _ | e26 | n27
              · exact absurd h25 (hstr kwRESTART (by decide) 0 h0).1
              · dsimp only
                rcases h29 : matchString buf 0 kwDIRECT with _ | e30 | n31
                · exact absurd h29 (hstr kwDIRECT (by decide) 0 h0).1
                · dsimp only
                  simp
                · dsimp only
                  have hn32 := (hstr kwDIRECT (by decide) 0 h0).2 n31 h29
                  apply bind_ne_crash (hsep n31 hn32).1
                  intro i33 hk34
                  have hb35 := (hsep n31 hn32).2 i33 hk34
                  apply bind_ne_crash (hint i33 hb35).1
                  intro v36 hk37
                  have hb38 := (hint i33 hb35).2 v36 hk37
                  apply bind_ne_crash (hsep v36.2 hb38).1
                  intro i39 hk40
                  have hb41 := (hsep v36.2 hb38).2 i39 hk40
                  apply bind_ne_crash (hint i39 hb41).1
                  intro v42 hk43
                  have hb44 := (hint i39 hb41).2 v42 hk43
                  apply bind_ne_crash (hsep v42.2 hb44).1
                  intro i45 hk46
                  have hb47 := (hsep v42.2 hb44).2 i45 hk46
                  apply bind_ne_crash (hint i45 hb47).1
                  intro v48 hk49
                  have hb50 := (hint i45 hb47).2 v48 hk49
                  apply bind_ne_crash (hsep v48.2 hb50).1
                  intro i51 hk52
                  have hb53 := (hsep v48.2 hb50).2 i51 hk52
                  apply bind_ne_crash (hint i51 hb53).1
                  intro v54 hk55
                  have hb56 := (hint i51 hb53).2 v54 hk55
                  apply bind_ne_crash (hend v54.2 hb56)
                  intro r hr
                  simp
              · dsimp only
                have hn28 := (hstr kwRESTART (by decide) 0 h0).2 n27 h25
                apply bind_ne_crash (hend n27 hn28)
                intro r hr
                simp
            · dsimp only
              have hn24 := (hstr kwPAUSE (by decide) 0 h0).2 n23 h21
              apply bind_ne_crash (hend n23 hn24)
              intro r hr
              simp
          · dsimp only
            have hn20 := (hstr kwSTART (by decide) 0 h0).2 n19 h17
            apply bind_ne_crash (hend n19 hn20)
            intro r hr
            simp
        · dsimp only
          have hn16 := (hstr kwRESET (by decide) 0 h0).2 n15 h13
          apply bind_ne_crash (hend n15 hn16)
          intro r hr
          simp
      · dsimp only
        have hn12 := (hstr kwMAP_END (by decide) 0 h0).2 n11 h9
        apply bind_ne_crash (hend n11 hn12)
        intro r hr
        simp
    · dsimp only
      have hn8 := (hstr kwMAP_SECTION (by decide) 0 h0).2 n7 h5
      apply bind_ne_crash (hsep n7 hn8).1
      intro i57 hk58
      have hb59 := (hsep n7 hn8).2 i57 hk58
      apply bind_ne_crash (hint i57 hb59).1
      intro v60 hk61
      have hb62 := (hint i57 hb59).2 v60 hk61
      apply bind_ne_crash (hsep v60.2 hb62).1
      intro i63 hk64
      have hb65 := (hsep v60.2 hb62).2 i63 hk64
      rcases h66 : matchString buf i63 kwSTRAIGHT with _ | e67 | n68
      · exact absurd h66 (hstr kwSTRAIGHT (by decide) i63 hb65).1
      · dsimp only
        rcases h70 : matchString buf i63 kwLEFT with _ | e71 | n72
        · exact absurd h70 (hstr kwLEFT (by decide) i63 hb65).1
        · dsimp only
          rcases h74 : matchString buf i63 kwRIGHT with _ | e75 | n76
          · exact absurd h74 (hstr kwRIGHT (by decide) i63 hb65).1
          · dsimp only
            rcases h78 : matchString buf i63 kwUP with _ | e79 | n80
            · exact absurd h78 (hstr kwUP (by decide) i63 hb65).1
            · dsimp only
              rcases h82 : matchString buf i63 kwDOWN with _ | e83 | n84
              · exact absurd h82 (hstr kwDOWN (by decide) i63 hb65).1
              · dsimp only
                simp
              · dsimp only
                have hn85 := (hstr kwDOWN (by decide) i63 hb65).2 n84 h82
                apply bind_ne_crash (hsep n84 hn85).1
                intro i86 hk87
                have hb88 := (hsep n84 hn85).2 i86 hk87
                apply bind_ne_crash (hint i86 hb88).1
                intro v89 hk90
                have hb91 := (hint i86 hb88).2 v89 hk90
                apply bind_ne_crash (hsep v89.2 hb91).1
                intro i92 hk93
                have hb94 := (hsep v89.2 hb91).2 i92 hk93
                apply bind_ne_crash (hint i92 hb94).1
                intro v95 hk96
                have hb97 := (hint i92 hb94).2 v95 hk96
                apply bind_ne_crash (hsep v95.2 hb97).1
                intro i98 hk99
                have hb100 := (hsep v95.2 hb97).2 i98 hk99
                apply bind_ne_crash (hint i98 hb100).1
                intro v101 hk102
                have hb103 := (hint i98 hb100).2 v101 hk102
                apply bind_ne_crash (hsep v101.2 hb103).1
                intro i104 hk105
                have hb106 := (hsep v101.2 hb103).2 i104 hk105
                apply bind_ne_crash (hint i104 hb106).1
                intro v107 hk108
                have hb109 := (hint i104 hb106).2 v107 hk108
                apply bind_ne_crash (hend v107.2 hb109)
                intro r hr
                simp
            · dsimp only
              have hn81 := (hstr kwUP (by decide) i63 hb65).2 n80 h78
              apply bind_ne_crash (hsep n80 hn81).1
              intro i110 hk111
              have hb112 := (hsep n80 hn81).2 i110 hk111
              apply bind_ne_crash (hint i110 hb112).1
              intro v113 hk114
              have hb115 := (hint i110 hb112).2 v113 hk114
              apply bind_ne_crash (hsep v113.2 hb115).1
              intro i116 hk117
              have hb118 := (hsep v113.2 hb115).2 i116 hk117
              apply bind_ne_crash (hint i116 hb118).1
              intro v119 hk120
              have hb121 := (hint i116 hb118).2 v119 hk120
              apply bind_ne_crash (hsep v119.2 hb121).1
              intro i122 hk123
              have hb124 := (hsep v119.2 hb121).2 i122 hk123
              apply bind_ne_crash (hint i122 hb124).1
              intro v125 hk126
              have hb127 := (hint i122 hb124).2 v125 hk126
              apply bind_ne_crash (hsep v125.2 hb127).1
              intro i128 hk129
              have hb130 := (hsep v125.2 hb127).2 i128 hk129
              apply bind_ne_crash (hint i128 hb130).1
              intro v131 hk132
              have hb133 := (hint i128 hb130).2 v131 hk132
              apply bind_ne_crash (hend v131.2 hb133)
              intro r hr
              simp
          · dsimp only
            have hn77 := (hstr kwRIGHT (by decide) i63 hb65).2 n76 h74
            apply bind_ne_crash (hsep n76 hn77).1
            intro i134 hk135
            have hb136 := (hsep n76 hn77).2 i134 hk135
            apply bind_ne_crash (hint i134 hb136).1
            intro v137 hk138
            have hb139 := (hint i134 hb136).2 v137 hk138
            apply bind_ne_crash (hsep v137.2 hb139).1
            intro i140 hk141
            have hb142 := (hsep v137.2 hb139).2 i140 hk141
            apply bind_ne_crash (hint i140 hb142).1
            intro v143 hk144
            have hb145 := (hint i140 hb142).2 v143 hk144
            apply bind_ne_crash (hsep v143.2 hb145).1
            intro i146 hk147
            have hb148 := (hsep v143.2 hb145).2 i146 hk147
            apply bind_ne_crash (hint i146 hb148).1
            intro v149 hk150
            have hb151 := (hint i146 hb148).2 v149 hk150
            apply bind_ne_crash (hsep v149.2 hb151).1
            intro i152 hk153
            have hb154 := (hsep v149.2 hb151).2 i152 hk153
            apply bind_ne_crash (hint i152 hb154).1
            intro v155 hk156
            have hb157 := (hint i152 hb154).2 v155 hk156
            apply bind_ne_crash (hsep v155.2 hb157).1
            intro i158 hk159
            have hb160 := (hsep v155.2 hb157).2 i158 hk159
            apply bind_ne_crash (hint i158 hb160).1
            intro v161 hk162
            have hb163 := (hint i158 hb160).2 v161 hk162
            apply bind_ne_crash (hend v161.2 hb163)
            intro r hr
            simp
        · dsimp only
          have hn73 := (hstr kwLEFT (by decide) i63 hb65).2 n72 h70
          apply bind_ne_crash (hsep n72 hn73).1
          intro i164 hk165
          have hb166 := (hsep n72 hn73).2 i164 hk165
          apply bind_ne_crash (hint i164 hb166).1
          intro v167 hk168
          have hb169 := (hint i164 hb166).2 v167 hk168
          apply bind_ne_crash (hsep v167.2 hb169).1
          intro i170 hk171
          have hb172 := (hsep v167.2 hb169).2 i170 hk171
          apply bind_ne_crash (hint i170 hb172).1
          intro v173 hk174
          have hb175 := (hint i170 hb172).2 v173 hk174
          apply bind_ne_crash (hsep v173.2 hb175).1
          intro i176 hk177
          have hb178 := (hsep v173.2 hb175).2 i176 hk177
          apply bind_ne_crash (hint i176 hb178).1
          intro v179 hk180
          have hb181 := (hint i176 hb178).2 v179 hk180
          apply bind_ne_crash (hsep v179.2 hb181).1
          intro i182 hk183
          have hb184 := (hsep v179.2 hb181).2 i182 hk183
          apply bind_ne_crash (hint i182 hb184).1
          intro v185 hk186
          have hb187 := (hint i182 hb184).2 v185 hk186
          apply bind_ne_crash (hsep v185.2 hb187).1
          intro i188 hk189
          have hb190 := (hsep v185.2 hb187).2 i188 hk189
          apply bind_ne_crash (hint i188 hb190).1
          intro v191 hk192
          have hb193 := (hint i188 hb190).2 v191 hk192
          apply bind_ne_crash (hend v191.2 hb193)
          intro r hr
          simp
      · dsimp only
        have hn69 := (hstr kwSTRAIGHT (by decide) i63 hb65).2 n68 h66
        apply bind_ne_crash (hsep n68 hn69).1
        intro i194 hk195
        have hb196 := (hsep n68 hn69).2 i194 hk195
        apply bind_ne_crash (hint i194 hb196).1
        intro v197 hk198
        have hb199 := (hint i194 hb196).2 v197 hk198
        apply bind_ne_crash (hsep v197.2 hb199).1
        intro i200 hk201
        have hb202 := (hsep v197.2 hb199).2 i200 hk201
        apply bind_ne_crash (hint i200 hb202).1
        intro v203 hk204
        have hb205 := (hint i200 hb202).2 v203 hk204
        apply bind_ne_crash (hsep v203.2 hb205).1
        intro i206 hk207
        have hb208 := (hsep v203.2 hb205).2 i206 hk207
        apply bind_ne_crash (hint i206 hb208).1
        intro v209 hk210
        have hb211 := (hint i206 hb208).2 v209 hk210
        apply bind_ne_crash (hend v209.2 hb211)
        intro r hr
        simp
  · dsimp only
    have hn4 := (hstr kwMAP_START (by decide) 0 h0).2 n3 h1
    apply bind_ne_crash (hsep n3 hn4).1
    intro i212 hk213
    have hb214 := (hsep n3 hn4).2 i212 hk213
    apply bind_ne_crash (hint i212 hb214).1
    intro v215 hk216
    have hb217 := (hint i212 hb214).2 v215 hk216
    apply bind_ne_crash (hend v215.2 hb217)
    intro r hr
    simp

theorem parseBotEvent_safe (buf : Buf) (p : ℕ) (hp : p < 256)
    (hbp : buf p = CODE_END) : parseBotEvent buf ≠ .crash := by
  have hsep := matchSeparator_safe buf p hp hbp
  have hint := matchI32_safe buf p hp hbp
  have hend := matchEnd_safe buf p hp
  have hstr := matchString_safe buf p hp hbp
  have hlas := lasersLoop_safe buf p hp hbp
  have hlog := logLoop_safe buf p hp hbp
  have h0 : (0 : ℕ) ≤ p := Nat.zero_le p
  rw [parseBotEvent]
  rcases h218 : matchString buf 0 kwSTATUS with _ | e219 | n220
  · exact absurd h218 (hstr kwSTATUS (by decide) 0 h0).1
  · dsimp only
    rcases h222 : matchString buf 0 kwLASERS with _ | e223 | n224
    · exact absurd h222 (hstr kwLASERS (by decide) 0 h0).1
    · dsimp only
      rcases h226 : matchString buf 0 kwIMU with _ | e227 | n228
      · exact absurd h226 (hstr kwIMU (by decide) 0 h0).1
      · dsimp only
        rcases h230 : matchString buf 0 kwLOG with _ | e231 | n232
        · exact absurd h230 (hstr kwLOG (by decide) 0 h0).1
        · dsimp only
          simp
        · dsimp only
          have hn233 := (hstr kwLOG (by decide) 0 h0).2 n232 h230
          apply bind_ne_crash (hsep n232 hn233).1
          intro i234 hk235
          have hb236 := (hsep n232 hn233).2 i234 hk235
          apply bind_ne_crash (hlog (MAX_LOG_LINE_SIZE - 0) 0 i234 rfl hb236 ([] : List ℕ)).1
          intro d237 hk238
          have hb239 := (hlog (MAX_LOG_LINE_SIZE - 0) 0 i234 rfl hb236 ([] : List ℕ)).2 d237 hk238
          apply bind_ne_crash (hend d237.2 hb239)
          intro r hr
          simp
      · dsimp only
        have hn229 := (hstr kwIMU (by decide) 0 h0).2 n228 h226
        apply bind_ne_crash (hsep n228 hn229).1
        intro i240 hk241
        have hb242 := (hsep n228 hn229).2 i240 hk241
        apply bind_ne_crash (hint i240 hb242).1
        intro v243 hk244
        have hb245 := (hint i240 hb242).2 v243 hk244
        apply bind_ne_crash (hsep v243.2 hb245).1
        intro i246 hk247
        have hb248 := (hsep v243.2 hb245).2 i246 hk247
        apply bind_ne_crash (hint i246 hb248).1
        intro v249 hk250
        have hb251 := (hint i246 hb248).2 v249 hk250
        apply bind_ne_crash (hsep v249.2 hb251).1
        intro i252 hk253
        have hb254 := (hsep v249.2 hb251).2 i252 hk253
        apply bind_ne_crash (hint i252 hb254).1
        intro v255 hk256
        have hb257 := (hint i252 hb254).2 v255 hk256
        apply bind_ne_crash (hsep v255.2 hb257).1
        intro i258 hk259
        have hb260 := (hsep v255.2 hb257).2 i258 hk259
        apply bind_ne_crash (hint i258 hb260).1
        intro v261 hk262
        have hb263 := (hint i258 hb260).2 v261 hk262
        apply bind_ne_crash (hsep v261.2 hb263).1
        intro i264 hk265
        have hb266 := (hsep v261.2 hb263).2 i264 hk265
        apply bind_ne_crash (hint i264 hb266).1
        intro v267 hk268
        have hb269 := (hint i264 hb266).2 v267 hk268
        apply bind_ne_crash (hsep v267.2 hb269).1
        intro i270 hk271
        have hb272 := (hsep v267.2 hb269).2 i270 hk271
        apply bind_ne_crash (hint i270 hb272).1
        intro v273 hk274
        have hb275 := (hint i270 hb272).2 v273 hk274
        apply bind_ne_crash (hsep v273.2 hb275).1
        intro i276 hk277
        have hb278 := (hsep v273.2 hb275).2 i276 hk277
        apply bind_ne_crash (hint i276 hb278).1
        intro v279 hk280
        have hb281 := (hint i276 hb278).2 v279 hk280
        apply bind_ne_crash (hsep v279.2 hb281).1
        intro i282 hk283
        have hb284 := (hsep v279.2 hb281).2 i282 hk283
        apply bind_ne_crash (hint i282 hb284).1
        intro v285 hk286
        have hb287 := (hint i282 hb284).2 v285 hk286
        apply bind_ne_crash (hsep v285.2 hb287).1
        intro i288 hk289
        have hb290 := (hsep v285.2 hb287).2 i288 hk289
        apply bind_ne_crash (hint i288 hb290).1
        intro v291 hk292
        have hb293 := (hint i288 hb290).2 v291 hk292
        apply bind_ne_crash (hend v291.2 hb293)
        intro r hr
        simp
    · dsimp only
      have hn225 := (hstr kwLASERS (by decide) 0 h0).2 n224 h222
      apply bind_ne_crash (hlas LASER_COUNT n224 hn225).1
      intro r hr
      simp
  · dsimp only
    have hn221 := (hstr kwSTATUS (by decide) 0 h0).2 n220 h218
    apply bind_ne_crash (hsep n220 hn221).1
    intro i294 hk295
    have hb296 := (hsep n220 hn221).2 i294 hk295
    rcases h297 : matchString buf i294 kwINVALID_MAP with _ | e298 | n299
    · exact absurd h297 (hstr kwINVALID_MAP (by decide) i294 hb296).1
    · dsimp only
      rcases h301 : matchString buf i294 kwDEVICE_ERROR with _ | e302 | n303
      · exact absurd h301 (hstr kwDEVICE_ERROR (by decide) i294 hb296).1
      · dsimp only
        rcases h305 : matchString buf i294 kwSTOPPED with _ | e306 | n307
        · exact absurd h305 (hstr kwSTOPPED (by decide) i294 hb296).1
        · dsimp only
          rcases h309 : matchString buf i294 kwWAITING with _ | e310 | n311
          · exact absurd h309 (hstr kwWAITING (by decide) i294 hb296).1
          · dsimp only
            rcases h313 : matchString buf i294 kwRACING with _ | e314 | n315
            · exact absurd h313 (hstr kwRACING (by decide) i294 hb296).1
            · dsimp only
              simp
            · dsimp only
              have hn316 := (hstr kwRACING (by decide) i294 hb296).2 n315 h313
              apply bind_ne_crash (hsep n315 hn316).1
              intro i317 hk318
              have hb319 := (hsep n315 hn316).2 i317 hk318
              apply bind_ne_crash (hint i317 hb319).1
              intro v320 hk321
              have hb322 := (hint i317 hb319).2 v320 hk321
              apply bind_ne_crash (hsep v320.2 hb322).1
              intro i323 hk324
              have hb325 := (hsep v320.2 hb322).2 i323 hk324
              apply bind_ne_crash (hint i323 hb325).1
              intro v326 hk327
              have hb328 := (hint i323 hb325).2 v326 hk327
              apply bind_ne_crash (hsep v326.2 hb328).1
              intro i329 hk330
              have hb331 := (hsep v326.2 hb328).2 i329 hk330
              apply bind_ne_crash (hint i329 hb331).1
              intro v332 hk333
              have hb334 := (hint i329 hb331).2 v332 hk333
              apply bind_ne_crash (hsep v332.2 hb334).1
              intro i335 hk336
              have hb337 := (hsep v332.2 hb334).2 i335 hk336
              apply bind_ne_crash (hint i335 hb337).1
              intro v338 hk339
              have hb340 := (hint i335 hb337).2 v338 hk339
              apply bind_ne_crash (hsep v338.2 hb340).1
              intro i341 hk342
              have hb343 := (hsep v338.2 hb340).2 i341 hk342
              apply bind_ne_crash (hint i341 hb343).1
              intro v344 hk345
              have hb346 := (hint i341 hb343).2 v344 hk345
              apply bind_ne_crash (hend v344.2 hb346)
              intro r hr
              simp
          · dsimp only
            have hn312 := (hstr kwWAITING (by decide) i294 hb296).2 n311 h309
            apply bind_ne_crash (hsep n311 hn312).1
            intro i347 hk348
            have hb349 := (hsep n311 hn312).2 i347 hk348
            apply bind_ne_crash (hint i347 hb349).1
            intro v350 hk351
            have hb352 := (hint i347 hb349).2 v350 hk351
            apply bind_ne_crash (hsep v350.2 hb352).1
            intro i353 hk354
            have hb355 := (hsep v350.2 hb352).2 i353 hk354
            apply bind_ne_crash (hint i353 hb355).1
            intro v356 hk357
            have hb358 := (hint i353 hb355).2 v356 hk357
            apply bind_ne_crash (hend v356.2 hb358)
            intro r hr
            simp
        · dsimp only
          have hn308 := (hstr kwSTOPPED (by decide) i294 hb296).2 n307 h305
          apply bind_ne_crash (hend n307 hn308)
          intro r hr
          simp
      · dsimp only
        have hn304 := (hstr kwDEVICE_ERROR (by decide) i294 hb296).2 n303 h301
        apply bind_ne_crash (hend n303 hn304)
        intro r hr
        simp
    · dsimp only
      have hn300 := (hstr kwINVALID_MAP (by decide) i294 hb296).2 n299 h297
      apply bind_ne_crash (hend n299 hn300)
      intro r hr
      simp

end FR

namespace FR


theorem matchI32Loop_digits_crash (buf : Buf) :
    ∀ (n i : ℕ), PROTOCOL_BUFFER_SIZE - i = n →
      (∀ j, j < PROTOCOL_BUFFER_SIZE → i ≤ j → digitValue (buf j) ≠ none) →
      ∀ (acc : ℤ), matchI32Loop buf acc i = .crash := by
  intro n
  induction n using Nat.strong_induction_on with
  | _ n ih =>
    intro i hn hdig acc
    rw [matchI32Loop]
    by_cases hi : i < PROTOCOL_BUFFER_SIZE
    · rw [dif_pos hi]
      rcases hd : digitValue (buf i) with _ | v
      · exact absurd hd (hdig i hi le_rfl)
      · exact ih (PROTOCOL_BUFFER_SIZE - (i + 1)) (by omega) (i + 1) rfl
          (fun j hj hij => hdig j hj (by omega)) _
    · rw [dif_neg hi]

theorem crashBuf_digits :
    ∀ j, j < PROTOCOL_BUFFER_SIZE → 7 ≤ j → digitValue (crashBuf j) ≠ none := by
  set_option maxRecDepth 4000 in decide

theorem matchI32_crashBuf : matchI32 crashBuf 7 = .crash := by
  have hloop : matchI32Loop crashBuf 1 8 = .crash :=
    matchI32Loop_digits_crash crashBuf (PROTOCOL_BUFFER_SIZE - 8) 8 rfl
      (fun j hj hij => crashBuf_digits j hj (by omega)) 1
  have hb : bget crashBuf 7 = some 49 := by decide
  simp only [matchI32, hb,
    show (if (49 : ℕ) = CODE_MINUS then 8 else 7) = 7 from by norm_num [CODE_MINUS],
    show digitValue 49 = some 1 from by decide,
    show (7 : ℕ) + 1 = 8 from rfl, hloop, PR.bind_crash]

theorem parseBotCommand_crashBuf : parseBotCommand crashBuf = .crash := by
  have h1 : matchString crashBuf 0 kwMAP_START = .err 0 := by decide
  have h2 : matchString crashBuf 0 kwMAP_SECTION = .err 0 := by decide
  have h3 : matchString crashBuf 0 kwMAP_END = .err 0 := by decide
  have h4 : matchString crashBuf 0 kwRESET = .err 0 := by decide
  have h5 : matchString crashBuf 0 kwSTART = .err 0 := by decide
  have h6 : matchString crashBuf 0 kwPAUSE = .err 0 := by decide
  have h7 : matchString crashBuf 0 kwRESTART = .err 0 := by decide
  have hD : matchString crashBuf 0 kwDIRECT = .ok 6 := by decide
  have hS : matchSeparator crashBuf 6 = .ok 7 := by decide
  simp only [parseBotCommand, h1, h2, h3, h4, h5, h6, h7, hD, hS,
    PR.bind_ok, matchI32_crashBuf, PR.bind_crash]

/-- **C7** is false as stated: `Map::previous_index` panics (underflowing
`self.length - 1`) on a fresh map at index `0`, and `BotCommand::parse`
reads past the end of the 256-byte buffer (an out-of-range panic) on a
frame holding `"DIRECT:"` followed by `'1'` through the end of the buffer. -/
theorem C7_no_panic_counterexample :
    Map.previous_index Map.new 0 = none ∧ parseBotCommand crashBuf = .crash :=
  ⟨rfl, parseBotCommand_crashBuf⟩

/-- **C7** amended: `previous_index` returns a value whenever the index is
positive or the map is non-empty, and both parsers return `Ok` or `Err`
(never panic) on every buffer that contains a `'\n'` byte within its 256
cells. -/
theorem C7_no_panic_amended :
    (∀ (m : Map) (i : ℕ), 0 < i ∨ 0 < m.length →
      (Map.previous_index m i).isSome) ∧
    (∀ (buf : Buf) (p : ℕ), p < 256 → buf p = CODE_END →
      parseBotCommand buf ≠ .crash ∧ parseBotEvent buf ≠ .crash) := by
  constructor
  · rintro m i (hi | hl)
    · rw [Map.previous_index, if_pos hi, Map.usizeSub, if_pos (by omega)]
      rfl
    · by_cases hi : i > 0
      · rw [Map.previous_index, if_pos hi, Map.usizeSub, if_pos (by omega)]
        rfl
      · rw [Map.previous_index, if_neg hi, Map.usizeSub, if_pos (by omega)]
        rfl
  · intro buf p hp hbp
    exact ⟨parseBotCommand_safe buf p hp hbp, parseBotEvent_safe buf p hp hbp⟩

/-- **C7** amended theorem, applied on a three-section map at index `0` and
on a frame whose first byte is already the `'\n'` terminator. -/
theorem C7_no_panic_witness :
    (Map.previous_index { length := 3, sections := fun _ => EMPTY_SECTION } 0).isSome ∧
    parseBotCommand (bset bufZero 0 CODE_END) ≠ .crash ∧
    parseBotEvent (bset bufZero 0 CODE_END) ≠ .crash :=
  ⟨C7_no_panic_amended.1 _ 0 (Or.inr (by decide)),
   (C7_no_panic_amended.2 (bset bufZero 0 CODE_END) 0 (by decide) rfl).1,
   (C7_no_panic_amended.2 (bset bufZero 0 CODE_END) 0 (by decide) rfl).2⟩

end FR

namespace FR

noncomputable section

open scoped Classical


theorem secStraight1_valid : secStraight1.isValid := by
  refine ⟨by norm_num [secStraight1, MapSection.new], by norm_num [secStraight1, MapSection.new], ?_⟩
  simp only [secStraight1, MapSection.new]
  norm_num

theorem EMPTY_SECTION_invalid : ¬ EMPTY_SECTION.isValid := by
  rintro ⟨h, -⟩
  simp [EMPTY_SECTION] at h

theorem ite_empty_section {α : Sort _} (a b : α) :
    (if EMPTY_SECTION.isValid then a else b) = b := if_neg EMPTY_SECTION_invalid

theorem ite_sec1 {α : Sort _} (a b : α) :
    (if secStraight1.isValid then a else b) = a := if_pos secStraight1_valid

theorem completeLength_gap : Map.completeLength gapSections = 2 := by
  rw [Map.completeLength, show (MAP_SECTIONS_MAX_COUNT : ℕ) = 20 from rfl,
    show List.range 20 = [0, 1, 2, 3, 4, 5, 6, 7, 8, 9, 10, 11, 12, 13, 14, 15, 16, 17, 18, 19]
      from by decide]
  simp only [List.foldl_cons, List.foldl_nil, gapSections]
  norm_num [ite_empty_section, ite_sec1]

theorem gap_invalid :
    ¬ Map.isValid { length := Map.completeLength gapSections, sections := gapSections } := by
  rw [completeLength_gap]
  rintro ⟨-, hall⟩
  have h0 : (gapSections 0).isValid := hall 0 (by norm_num)
  rw [show gapSections 0 = EMPTY_SECTION from by norm_num [gapSections]] at h0
  exact EMPTY_SECTION_invalid h0

/-- **C4** (invalid-map guard, atomicity): when the aggregate validity check
on the freshly computed `length` fails, `complete_configuration` performs no
chaining: the resulting map is exactly the input sections with the new
length, every geometry field untouched. -/
theorem C4_invalid_guard (m : Map)
    (h : ¬ Map.isValid { length := Map.completeLength m.sections, sections := m.sections }) :
    Map.complete_configuration m =
      { length := Map.completeLength m.sections, sections := m.sections } := by
  simp only [Map.complete_configuration]
  rw [if_neg h]

/-- **C4** applied to a concrete map with an invalid gap: slot 0 invalid,
slot 1 valid (so the computed length is 2 but validity fails): every
section keeps exactly its prior field values. -/
theorem C4_invalid_guard_witness :
    Map.complete_configuration gapMap =
      { length := Map.completeLength gapMap.sections, sections := gapMap.sections } :=
  C4_invalid_guard gapMap gap_invalid

end

end FR

namespace FR

noncomputable section

open scoped Classical

theorem chainFrom_succ (s : ℕ → MapSection) (i n : ℕ) (start : V3) (h : ℝ) :
    Map.chainFrom s i (n + 1) start h =
      Map.chainFrom
        (fun j => if j = i then
          { ({ s i with start := start, heading_start := h } : MapSection) with
            endPos := ({ s i with start := start, heading_start := h } :
              MapSection).compute_end_geometry.1
            heading_end := ({ s i with start := start, heading_start := h } :
              MapSection).compute_end_geometry.2.1
            center := ({ s i with start := start, heading_start := h } :
              MapSection).compute_end_geometry.2.2 }
          else s j)
        (i + 1) n
        ({ s i with start := start, heading_start := h } : MapSection).compute_end_geometry.1
        ({ s i with start := start, heading_start := h } :
          MapSection).compute_end_geometry.2.1 := rfl

theorem chainFrom_spec :
    ∀ (n : ℕ) (s : ℕ → MapSection) (i : ℕ) (start : V3) (h : ℝ),
      (∀ j, j < i ∨ i + n ≤ j → Map.chainFrom s i n start h j = s j) ∧
      (0 < n → (Map.chainFrom s i n start h i).start = start ∧
        (Map.chainFrom s i n start h i).heading_start = h) ∧
      (∀ j, i ≤ j → j + 1 < i + n →
        (Map.chainFrom s i n start h j).endPos =
          (Map.chainFrom s i n start h (j + 1)).start ∧
        (Map.chainFrom s i n start h j).heading_end =
          (Map.chainFrom s i n start h (j + 1)).heading_start) := by
  intro n
  induction n with
  | zero =>
    intro s i start h
    refine ⟨fun j _ => rfl, fun hn => absurd hn (by omega), fun j hij hlt => ?_⟩
    omega
  | succ n ih =>
    intro s i start h
    rw [chainFrom_succ]
    set sec1 : MapSection := { s i with start := start, heading_start := h } with hsec1
    set sec2 : MapSection :=
      { sec1 with
        endPos := sec1.compute_end_geometry.1
        heading_end := sec1.compute_end_geometry.2.1
        center := sec1.compute_end_geometry.2.2 } with hsec2
    set s2 : ℕ → MapSection := fun j => if j = i then sec2 else s j with hs2
    obtain ⟨ihu, ihs, ihadj⟩ :=
      ih s2 (i + 1) sec1.compute_end_geometry.1 sec1.compute_end_geometry.2.1
    have hri : Map.chainFrom s2 (i + 1) n sec1.compute_end_geometry.1
        sec1.compute_end_geometry.2.1 i = sec2 := by
      rw [ihu i (Or.inl (by omega))]
      simp [hs2]
    refine ⟨?_, ?_, ?_⟩
    · intro j hj
      rcases hj with hj | hj
      · rw [ihu j (Or.inl (by omega))]
        simp only [hs2]
        rw [if_neg (by omega)]
      · rw [ihu j (Or.inr (by omega))]
        simp only [hs2]
        rw [if_neg (by omega)]
    · intro _
      rw [hri]
      constructor
      · rfl
      · rfl
    · intro j hij hlt
      rcases Nat.eq_or_lt_of_le hij with hji | hji
      · subst hji
        have hn : 0 < n := by omega
        rw [hri]
        constructor
        · rw [(ihs hn).1]
        · rw [(ihs hn).2]
      · exact ihadj j (by omega) (by omega)

/-- **C3** (chaining continuity): when `complete_configuration` finds the
map valid, the chained sections are continuous: section `0` starts at the
origin with heading `0`, and each section's `end`/`heading_end` equal the
next section's `start`/`heading_start` for all adjacent pairs below the
computed length. -/
theorem C3_chaining (m : Map)
    (hv : Map.isValid { length := Map.completeLength m.sections, sections := m.sections }) :
    ((Map.complete_configuration m).sections 0).start = V3.zero ∧
    ((Map.complete_configuration m).sections 0).heading_start = 0 ∧
    ∀ i, i + 1 < (Map.complete_configuration m).length →
      ((Map.complete_configuration m).sections i).endPos =
        ((Map.complete_configuration m).sections (i + 1)).start ∧
      ((Map.complete_configuration m).sections i).heading_end =
        ((Map.complete_configuration m).sections (i + 1)).heading_start := by
  have hlen0 : 0 < Map.completeLength m.sections := hv.1
  simp only [Map.complete_configuration]
  rw [if_pos hv]
  obtain ⟨hu, hs, hadj⟩ :=
    chainFrom_spec (Map.completeLength m.sections) m.sections 0 V3.zero 0
  exact ⟨(hs hlen0).1, (hs hlen0).2,
    fun i hi => hadj i (Nat.zero_le i) (by simpa using hi)⟩

theorem completeLength_two : Map.completeLength twoSections = 2 := by
  rw [Map.completeLength, show (MAP_SECTIONS_MAX_COUNT : ℕ) = 20 from rfl,
    show List.range 20 = [0, 1, 2, 3, 4, 5, 6, 7, 8, 9, 10, 11, 12, 13, 14, 15, 16, 17, 18, 19]
      from by decide]
  simp only [List.foldl_cons, List.foldl_nil, twoSections]
  norm_num [ite_empty_section, ite_sec1]

theorem two_valid :
    Map.isValid { length := Map.completeLength twoSections, sections := twoSections } := by
  rw [completeLength_two]
  refine ⟨by norm_num, fun i hi => ?_⟩
  have hi2 : i < 2 := hi
  show (twoSections i).isValid
  rw [show twoSections i = secStraight1 from by simp [twoSections, hi2]]
  exact secStraight1_valid

/-- **C3** applied to a concrete two-section map (two valid straights in
slots 0 and 1): the chained geometry starts at the origin with heading 0
and is continuous at the single adjacent pair. -/
theorem C3_chaining_witness :
    ((Map.complete_configuration twoMap).sections 0).start = V3.zero ∧
    ((Map.complete_configuration twoMap).sections 0).heading_start = 0 ∧
    ∀ i, i + 1 < (Map.complete_configuration twoMap).length →
      ((Map.complete_configuration twoMap).sections i).endPos =
        ((Map.complete_configuration twoMap).sections (i + 1)).start ∧
      ((Map.complete_configuration twoMap).sections i).heading_end =
        ((Map.complete_configuration twoMap).sections (i + 1)).heading_start :=
  C3_chaining twoMap two_valid

end

end FR

namespace FR

noncomputable section

open Real

/-- **C2** is false as stated: converting a `TurnLeft` with wire angle `90`
(and radii `1000` mm) yields `turning_angle = 6283/4000` (from the literal
constant `3.1415`, not `π`), which is positive, not negative as claimed for
a left turn, and differs from `±90·(π/180)`. -/
theorem C2_conversion_counterexample :
    (MapSection.from_protocol_data
      (.turnLeft ⟨1000, 1000, 1000, 1000, 90⟩)).shape =
        .turn ⟨1, 1, (6283 : ℝ) / 4000⟩ ∧
    (0 : ℝ) < 6283 / 4000 ∧
    ((6283 : ℝ) / 4000) ≠ 90 * (π / 180) ∧
    ((6283 : ℝ) / 4000) ≠ -(90 * (π / 180)) := by
  have hπ : (3.141592 : ℝ) < π := Real.pi_gt_d6
  refine ⟨?_, by norm_num, ?_, ?_⟩
  · simp only [MapSection.from_protocol_data, MapSection.new,
      MapSectionShape.turn.injEq, MapSectionTurn.mk.injEq,
      dim_from_proto, ang_from_proto]
    norm_num
  · intro h
    rw [show (90 : ℝ) * (π / 180) = π / 2 from by ring] at h
    norm_num at h hπ
    linarith
  · intro h
    rw [show -((90 : ℝ) * (π / 180)) = -(π / 2) from by ring] at h
    norm_num at h hπ
    linarith [Real.pi_pos]

/-- **C2** amended: lengths/widths/radii/heights divide by 1000 (mm→m);
the angle is multiplied by `3.1415/180` (the literal `3.1415`, an
approximation of `π`) and negated; `TurnLeft` negates once more, so the
internal `turning_angle` is **positive** for a left turn and **negative**
for a right turn (for a positive wire angle). -/
theorem C2_conversion_amended :
    (∀ d : ℤ, dim_from_proto d = (d : ℝ) / 1000) ∧
    (∀ a : ℤ, ang_from_proto a = -((a : ℝ) * (3.1415 / 180))) ∧
    (∀ t : ProtocolMapSectionDataTurn,
      (MapSection.from_protocol_data (.turnRight t)).shape =
        .turn ⟨(t.radius_start : ℝ) / 1000, (t.radius_end : ℝ) / 1000,
          -((t.angle : ℝ) * (3.1415 / 180))⟩ ∧
      (MapSection.from_protocol_data (.turnLeft t)).shape =
        .turn ⟨(t.radius_start : ℝ) / 1000, (t.radius_end : ℝ) / 1000,
          (t.angle : ℝ) * (3.1415 / 180)⟩) ∧
    (∀ sd : ProtocolMapSectionDataStraight,
      (MapSection.from_protocol_data (.straight sd)).shape =
        .straigth ⟨(sd.length : ℝ) / 1000⟩ ∧
      (MapSection.from_protocol_data (.straight sd)).width_start =
        (sd.width_start : ℝ) / 1000 ∧
      (MapSection.from_protocol_data (.straight sd)).width_end =
        (sd.width_end : ℝ) / 1000) ∧
    (∀ sl : ProtocolMapSectionDataSlope,
      (MapSection.from_protocol_data (.slopeUp sl)).shape =
        .slope ⟨(sl.length : ℝ) / 1000, (sl.height : ℝ) / 1000⟩ ∧
      (MapSection.from_protocol_data (.slopeDown sl)).shape =
        .slope ⟨(sl.length : ℝ) / 1000, -((sl.height : ℝ) / 1000)⟩) ∧
    (∀ a : ℤ, 0 < a →
      -((a : ℝ) * (3.1415 / 180)) < 0 ∧ 0 < (a : ℝ) * (3.1415 / 180)) := by
  refine ⟨fun d => rfl, fun a => by rw [ang_from_proto]; ring, ?_, ?_, ?_, ?_⟩
  · intro t
    simp only [MapSection.from_protocol_data, MapSection.new,
      MapSectionShape.turn.injEq, MapSectionTurn.mk.injEq,
      dim_from_proto, ang_from_proto]
    refine ⟨⟨trivial, trivial, by ring⟩, trivial, trivial, by ring⟩
  · intro sd
    exact ⟨rfl, rfl, rfl⟩
  · intro sl
    simp only [MapSection.from_protocol_data, MapSection.new,
      MapSectionShape.slope.injEq, MapSectionSlope.mk.injEq,
      dim_from_proto]
    exact ⟨trivial, trivial⟩
  · intro a ha
    have ha' : (0 : ℝ) < (a : ℝ) := by exact_mod_cast ha
    have hc : (0 : ℝ) < 3.1415 / 180 := by norm_num
    constructor
    · linarith [mul_pos ha' hc]
    · exact mul_pos ha' hc

/-- **C2** amended theorem, applied at wire dimension `1000` mm and wire
angle `90` with a concrete turn record. -/
theorem C2_conversion_witness :
    dim_from_proto 1000 = ((1000 : ℤ) : ℝ) / 1000 ∧
    ang_from_proto 90 = -(((90 : ℤ) : ℝ) * (3.1415 / 180)) ∧
    (MapSection.from_protocol_data
      (.turnLeft ⟨1000, 1000, 1000, 1000, 90⟩)).shape =
        .turn ⟨((1000 : ℤ) : ℝ) / 1000, ((1000 : ℤ) : ℝ) / 1000,
          ((90 : ℤ) : ℝ) * (3.1415 / 180)⟩ ∧
    -(((90 : ℤ) : ℝ) * (3.1415 / 180)) < 0 ∧
    0 < ((90 : ℤ) : ℝ) * (3.1415 / 180) :=
  ⟨C2_conversion_amended.1 1000,
   C2_conversion_amended.2.1 90,
   (C2_conversion_amended.2.2.1 ⟨1000, 1000, 1000, 1000, 90⟩).2,
   (C2_conversion_amended.2.2.2.2.2 90 (by decide)).1,
   (C2_conversion_amended.2.2.2.2.2 90 (by decide)).2⟩

end

end FR

namespace FR

noncomputable section

open Real

open scoped Classical

theorem normLoop1_spec :
    ∀ a : ℝ, (∃ k : ℤ, normLoop1 a = a - k * (2 * π)) ∧ normLoop1 a ≤ π ^ 2 / 180 := by
  intro a
  induction a using normLoop1.induct with
  | case1 a h ih =>
    rw [normLoop1, dif_pos h]
    obtain ⟨⟨k, hk⟩, hb⟩ := ih
    refine ⟨⟨k + 1, ?_⟩, hb⟩
    rw [hk]
    push_cast
    ring
  | case2 a h =>
    rw [normLoop1, dif_neg h]
    refine ⟨⟨0, by push_cast; ring⟩, ?_⟩
    have hle : a * (180 / π) ≤ π := not_lt.mp h
    have hπ : (0 : ℝ) < π := Real.pi_pos
    have hstep := mul_le_mul_of_nonneg_right hle
      (le_of_lt (show (0 : ℝ) < π / 180 by positivity))
    calc a = a * (180 / π) * (π / 180) := by field_simp
    _ ≤ π * (π / 180) := hstep
    _ = π ^ 2 / 180 := by ring

theorem normLoop2_spec :
    ∀ a : ℝ, (∃ k : ℤ, normLoop2 a = a + k * (2 * π)) ∧ -π ≤ normLoop2 a ∧
      (a < π → normLoop2 a < π) := by
  intro a
  induction a using normLoop2.induct with
  | case1 a h ih =>
    rw [normLoop2, dif_pos h]
    obtain ⟨⟨k, hk⟩, hlb, hub⟩ := ih
    have hπ : (0 : ℝ) < π := Real.pi_pos
    refine ⟨⟨k + 1, ?_⟩, hlb, fun _ => hub (by linarith)⟩
    rw [hk]
    push_cast
    ring
  | case2 a h =>
    rw [normLoop2, dif_neg h]
    exact ⟨⟨0, by push_cast; ring⟩, not_lt.mp h, fun hlt => hlt⟩

theorem normalize_angle_spec (a : ℝ) :
    (∃ k : ℤ, normalize_angle a = a + k * (2 * π)) ∧
    -π ≤ normalize_angle a ∧ normalize_angle a < π := by
  have hπ : (0 : ℝ) < π := Real.pi_pos
  have hπ315 : π < 3.15 := by linarith [Real.pi_lt_d2]
  obtain ⟨⟨k1, h1⟩, hb1⟩ := normLoop1_spec a
  obtain ⟨⟨k2, h2⟩, hlb, hub⟩ := normLoop2_spec (normLoop1 a)
  have hlt : normLoop1 a < π := by nlinarith
  refine ⟨⟨k2 - k1, ?_⟩, ?_, ?_⟩
  · rw [normalize_angle, h2, h1]
    push_cast
    ring
  · rw [normalize_angle]
    exact hlb
  · rw [normalize_angle]
    exact hub hlt

theorem normalize_pi : normalize_angle π = -π := by
  have hπ : (0 : ℝ) < π := Real.pi_pos
  have hπ315 : π < 3.15 := by linarith [Real.pi_lt_d2]
  have h180 : π * (180 / π) = 180 := by field_simp
  rw [normalize_angle, normLoop1, dif_pos (by rw [h180]; linarith)]
  rw [show π - π * 2 = -π from by ring]
  rw [normLoop1, dif_neg (by
    rw [show -π * (180 / π) = -180 from by field_simp; ring]
    intro hc
    linarith)]
  rw [normLoop2, dif_neg (lt_irrefl (-π))]

/-- Updating only the computed fields (`end`, `heading_end`, `center`) does
not change `compute_end_geometry`, which reads only `shape`, `start` and
`heading_start`. -/
theorem compute_end_geometry_update (s : MapSection) (e c : V3) (he : ℝ) :
    ({ s with endPos := e, heading_end := he, center := c } :
      MapSection).compute_end_geometry = s.compute_end_geometry := rfl

theorem chainFrom_geom :
    ∀ (n : ℕ) (s : ℕ → MapSection) (i : ℕ) (start : V3) (h : ℝ),
      ∀ j, i ≤ j → j < i + n →
        (Map.chainFrom s i n start h j).endPos =
          (Map.chainFrom s i n start h j).compute_end_geometry.1 ∧
        (Map.chainFrom s i n start h j).heading_end =
          (Map.chainFrom s i n start h j).compute_end_geometry.2.1 ∧
        (Map.chainFrom s i n start h j).center =
          (Map.chainFrom s i n start h j).compute_end_geometry.2.2 := by
  intro n
  induction n with
  | zero =>
    intro s i start h j h1 h2
    omega
  | succ n ih =>
    intro s i start h j h1 h2
    rw [chainFrom_succ]
    set sec1 : MapSection := { s i with start := start, heading_start := h } with hsec1
    set sec2 : MapSection :=
      { sec1 with
        endPos := sec1.compute_end_geometry.1
        heading_end := sec1.compute_end_geometry.2.1
        center := sec1.compute_end_geometry.2.2 } with hsec2
    set s2 : ℕ → MapSection := fun j => if j = i then sec2 else s j with hs2
    rcases Nat.eq_or_lt_of_le h1 with hji | hji
    · subst hji
      rw [(chainFrom_spec n s2 (i + 1) sec1.compute_end_geometry.1
        sec1.compute_end_geometry.2.1).1 i (Or.inl (by omega))]
      have hs2i : s2 i = sec2 := by simp [hs2]
      rw [hs2i]
      exact ⟨rfl, rfl, rfl⟩
    · exact ih s2 (i + 1) sec1.compute_end_geometry.1 sec1.compute_end_geometry.2.1 j
        (by omega) (by omega)

theorem compute_end_geometry_turn (sec : MapSection) (d : MapSectionTurn)
    (h : sec.shape = .turn d) :
    sec.compute_end_geometry.2.1 =
      normalize_angle (sec.heading_start + d.turning_angle) := by
  simp only [MapSection.compute_end_geometry, h]


theorem secTurnPi_valid : secTurnPi.isValid := by
  refine ⟨by norm_num [secTurnPi, MapSection.new],
    by norm_num [secTurnPi, MapSection.new], ?_⟩
  simp only [secTurnPi, MapSection.new]
  norm_num

theorem ite_turnpi {α : Sort _} (a b : α) :
    (if secTurnPi.isValid then a else b) = a := if_pos secTurnPi_valid

theorem completeLength_turnPi : Map.completeLength turnPiSections = 1 := by
  rw [Map.completeLength, show (MAP_SECTIONS_MAX_COUNT : ℕ) = 20 from rfl,
    show List.range 20 = [0, 1, 2, 3, 4, 5, 6, 7, 8, 9, 10, 11, 12, 13, 14, 15, 16, 17, 18, 19]
      from by decide]
  simp only [List.foldl_cons, List.foldl_nil, turnPiSections]
  norm_num [ite_empty_section, ite_turnpi]

theorem turnPi_valid1 : Map.isValid { length := 1, sections := turnPiSections } := by
  refine ⟨by norm_num, fun i hi => ?_⟩
  have hi1 : i < 1 := hi
  show (turnPiSections i).isValid
  rw [show turnPiSections i = secTurnPi from by simp [turnPiSections, show i = 0 by omega]]
  exact secTurnPi_valid

theorem cc_turnPi : Map.complete_configuration turnPiMap =
    { length := 1, sections := Map.chainFrom turnPiSections 0 1 V3.zero 0 } := by
  simp only [Map.complete_configuration, turnPiMap, completeLength_turnPi]
  rw [if_pos turnPi_valid1]

theorem turnPi_heading_end :
    ((Map.complete_configuration turnPiMap).sections 0).heading_end = -π := by
  rw [cc_turnPi]
  show (Map.chainFrom turnPiSections 0 1 V3.zero 0 0).heading_end = -π
  rw [show (Map.chainFrom turnPiSections 0 1 V3.zero 0 0).heading_end =
    normalize_angle (0 + π) from rfl]
  rw [zero_add, normalize_pi]

/-- **C8** is false as stated: on a valid one-section map whose turn spans
exactly `π`, the chained `heading_end` is `-π`, which is congruent to
`heading_start + turning_angle = π` but lies outside the claimed half-open
interval `(-π, π]`. -/
theorem C8_normalization_counterexample :
    Map.isValid { length := Map.completeLength turnPiSections, sections := turnPiSections } ∧
    ((Map.complete_configuration turnPiMap).sections 0).shape = .turn ⟨1, 1, π⟩ ∧
    ((Map.complete_configuration turnPiMap).sections 0).heading_start = 0 ∧
    ((Map.complete_configuration turnPiMap).sections 0).heading_end = -π ∧
    ¬ (-π ∈ Set.Ioc (-π) π) := by
  refine ⟨by rw [completeLength_turnPi]; exact turnPi_valid1, ?_, ?_,
    turnPi_heading_end, by simp⟩
  · rw [cc_turnPi]
    rfl
  · rw [cc_turnPi]
    show (Map.chainFrom turnPiSections 0 1 V3.zero 0 0).heading_start = 0
    rfl

/-- **C8** amended: for every valid map, the chained `heading_end` of each
turn section equals `heading_start + turning_angle` normalized into the
half-open interval `[-π, π)` (congruent modulo `2π` and lying within that
interval) — closed at `-π` and open at `π`, not the other way around. -/
theorem C8_normalization_amended (m : Map)
    (hv : Map.isValid { length := Map.completeLength m.sections, sections := m.sections })
    (i : ℕ) (hi : i < (Map.complete_configuration m).length)
    (d : MapSectionTurn)
    (hshape : ((Map.complete_configuration m).sections i).shape = .turn d) :
    ((Map.complete_configuration m).sections i).heading_end =
      normalize_angle
        (((Map.complete_configuration m).sections i).heading_start + d.turning_angle) ∧
    (∃ k : ℤ, ((Map.complete_configuration m).sections i).heading_end =
      ((Map.complete_configuration m).sections i).heading_start + d.turning_angle
        + k * (2 * π)) ∧
    -π ≤ ((Map.complete_configuration m).sections i).heading_end ∧
    ((Map.complete_configuration m).sections i).heading_end < π := by
  have hlen : (Map.complete_configuration m).length = Map.completeLength m.sections := by
    simp only [Map.complete_configuration]
    rw [if_pos hv]
  rw [hlen] at hi
  have hcc : (Map.complete_configuration m).sections =
      Map.chainFrom m.sections 0 (Map.completeLength m.sections) V3.zero 0 := by
    simp only [Map.complete_configuration]
    rw [if_pos hv]
  rw [hcc] at hshape ⊢
  have hgeom := (chainFrom_geom (Map.completeLength m.sections) m.sections 0 V3.zero 0 i
    (Nat.zero_le i) (by omega)).2.1
  have hturn := compute_end_geometry_turn _ d hshape
  obtain ⟨⟨k, hk⟩, hlb, hub⟩ := normalize_angle_spec
    ((Map.chainFrom m.sections 0 (Map.completeLength m.sections) V3.zero 0 i).heading_start
      + d.turning_angle)
  rw [hgeom, hturn]
  exact ⟨rfl, ⟨k, hk⟩, hlb, hub⟩

theorem turnPi_valid_cc :
    Map.isValid
      { length := Map.completeLength turnPiMap.sections, sections := turnPiMap.sections } := by
  show Map.isValid { length := Map.completeLength turnPiSections, sections := turnPiSections }
  rw [completeLength_turnPi]
  exact turnPi_valid1

theorem turnPi_len : (Map.complete_configuration turnPiMap).length = 1 := by
  rw [cc_turnPi]

theorem turnPi_shape :
    ((Map.complete_configuration turnPiMap).sections 0).shape =
      MapSectionShape.turn ⟨1, 1, π⟩ := by
  rw [cc_turnPi]
  rfl

/-- **C8** amended theorem, applied to the concrete one-turn map spanning
`π`. -/
theorem C8_normalization_witness :
    ((Map.complete_configuration turnPiMap).sections 0).heading_end =
      normalize_angle
        (((Map.complete_configuration turnPiMap).sections 0).heading_start +
          (⟨1, 1, π⟩ : MapSectionTurn).turning_angle) ∧
    (∃ k : ℤ, ((Map.complete_configuration turnPiMap).sections 0).heading_end =
      ((Map.complete_configuration turnPiMap).sections 0).heading_start +
        (⟨1, 1, π⟩ : MapSectionTurn).turning_angle + k * (2 * π)) ∧
    -π ≤ ((Map.complete_configuration turnPiMap).sections 0).heading_end ∧
    ((Map.complete_configuration turnPiMap).sections 0).heading_end < π :=
  C8_normalization_amended turnPiMap turnPi_valid_cc
    0 (by rw [turnPi_len]; norm_num) ⟨1, 1, π⟩ turnPi_shape

end

end FR

namespace FR

noncomputable section

open Real

open scoped Classical


theorem turnSegs_length (sec : MapSection) (d : MapSectionTurn) (steps : ℤ)
    (a b c e : ℝ) (ctr : V3) :
    ∀ (k i : ℕ) (lighter : Bool),
      (turnSegs sec d steps a b c e ctr k i lighter).length = k := by
  intro k
  induction k with
  | zero =>
    intro i lighter
    rfl
  | succ k ih =>
    intro i lighter
    simp only [turnSegs, List.length_cons, ih]

theorem turnSegs_lighter (sec : MapSection) (d : MapSectionTurn) (steps : ℤ)
    (a b c e : ℝ) (ctr : V3) :
    ∀ (k i : ℕ) (lighter : Bool) (j : ℕ), j < k →
      ((turnSegs sec d steps a b c e ctr k i lighter)[j]?).map
          MapSectionSegment.is_lighter =
        some (if j % 2 = 0 then lighter else !lighter) := by
  intro k
  induction k with
  | zero =>
    intro i lighter j hj
    omega
  | succ k ih =>
    intro i lighter j hj
    cases j with
    | zero =>
      simp [turnSegs]
    | succ j =>
      simp only [turnSegs, List.getElem?_cons_succ]
      rw [ih (i + 1) (!lighter) j (by omega)]
      by_cases h2 : j % 2 = 0
      · rw [if_pos h2, if_neg (by omega)]
      · rw [if_neg h2, if_pos (by omega), Bool.not_not]

theorem rustCastI32_nonneg {x : ℝ} (hx : 0 ≤ x) : 0 ≤ rustCastI32 x := by
  rw [rustCastI32, truncToInt, if_pos hx]
  have h0 : (0 : ℤ) ≤ ⌊x⌋ := Int.floor_nonneg.mpr hx
  rcases le_total (⌊x⌋ : ℤ) 2147483647 with h | h
  · rw [min_eq_right h]
    exact le_max_of_le_right h0
  · rw [min_eq_left h]
    exact le_max_of_le_right (by norm_num)

/-- **C5** is false as stated: a valid 50° turn (`5π/18` rad) is split into
`round_to_odd(trunc(50/15)) = 3` sub-arcs, while the claimed formula
`round_to_odd(ceil(50/15))` gives `5`. -/
theorem C5_turn_count_counterexample :
    (sectionSegments sec50).length = 3 ∧
    |(5 * π / 18 : ℝ)| * (180 / π) = 50 ∧
    (if ⌈(50 : ℝ) / 15⌉ % 2 = 0 then ⌈(50 : ℝ) / 15⌉ + 1 else ⌈(50 : ℝ) / 15⌉) = 5 ∧
    (3 : ℕ) ≠ 5 := by
  have hπ : (0 : ℝ) < π := Real.pi_pos
  have habs : |(5 * π / 18 : ℝ)| = 5 * π / 18 := abs_of_pos (by positivity)
  have hdeg : |(5 * π / 18 : ℝ)| * (180 / π) = 50 := by
    rw [habs]
    field_simp
    ring
  have hval : |(5 * π / 18 : ℝ)| * (180 / π) / 15 = 10 / 3 := by
    rw [hdeg]
    norm_num
  have hfloor : ⌊(10 / 3 : ℝ)⌋ = 3 := by
    rw [Int.floor_eq_iff]
    constructor <;> norm_num
  have hcast : rustCastI32 (|(5 * π / 18 : ℝ)| * (180 / π) / 15) = 3 := by
    rw [hval, rustCastI32, truncToInt, if_pos (by norm_num), hfloor]
    norm_num
  have hceil : ⌈(50 : ℝ) / 15⌉ = 4 := by
    rw [Int.ceil_eq_iff]
    constructor <;> norm_num
  refine ⟨?_, hdeg, by rw [hceil]; norm_num, by norm_num⟩
  simp only [sectionSegments, sec50, MapSection.new]
  rw [hcast, turnSegs_length]
  decide

/-- **C5** amended: `map_segmentation` splits every turn section into
`round_to_odd(trunc(|turning_angle| in degrees / 15))` equal angular
sub-arcs — the Rust `as i32` cast truncates toward zero, it does not take
the ceiling. -/
theorem C5_turn_count_amended (m : Map) (i : ℕ) (d : MapSectionTurn)
    (h : (m.get i).shape = .turn d) :
    (sectionSegments (m.get i)).length =
      (roundToOdd (rustCastI32 (|d.turning_angle| * (180 / π) / 15))).toNat ∧
    mapSegmentation m =
      (List.range m.length).flatMap (fun j => sectionSegments (m.get j)) := by
  refine ⟨?_, rfl⟩
  simp only [sectionSegments, h, roundToOdd]
  rw [turnSegs_length]

/-- **C5** amended theorem, applied to a one-section map holding the 50°
turn. -/
theorem C5_turn_count_witness :
    (sectionSegments (map50.get 0)).length =
      (roundToOdd (rustCastI32
        (|(⟨1, 1, 5 * π / 18⟩ : MapSectionTurn).turning_angle| * (180 / π) / 15))).toNat ∧
    mapSegmentation map50 =
      (List.range map50.length).flatMap (fun j => sectionSegments (map50.get j)) :=
  C5_turn_count_amended map50 0 ⟨1, 1, 5 * π / 18⟩ rfl

/-- **C6** (turn parity and shading): every turn section is split into an
odd number of segments, at least 1; the first segment has
`is_lighter = false` and the flag alternates along the turn's segments
(`mapSegmentation` concatenates these per-section lists in order). -/
theorem C6_turn_parity (m : Map) (i : ℕ) (d : MapSectionTurn)
    (h : (m.get i).shape = .turn d) :
    Odd (sectionSegments (m.get i)).length ∧
    1 ≤ (sectionSegments (m.get i)).length ∧
    (∀ j : ℕ, j < (sectionSegments (m.get i)).length →
      ((sectionSegments (m.get i))[j]?).map MapSectionSegment.is_lighter =
        some (if j % 2 = 0 then false else true)) ∧
    mapSegmentation m =
      (List.range m.length).flatMap (fun j => sectionSegments (m.get j)) := by
  have hcast : 0 ≤ rustCastI32 (|d.turning_angle| * (180 / π) / 15) :=
    rustCastI32_nonneg (by positivity)
  have hmod : rustCastI32 (|d.turning_angle| * (180 / π) / 15) % 2 = 0 ∨
      rustCastI32 (|d.turning_angle| * (180 / π) / 15) % 2 = 1 := by omega
  refine ⟨?_, ?_, ?_, rfl⟩
  · simp only [sectionSegments, h]
    rw [turnSegs_length]
    rcases hmod with h2 | h2
    · rw [if_pos h2]
      exact Nat.odd_iff.mpr (by omega)
    · rw [if_neg (by omega)]
      exact Nat.odd_iff.mpr (by omega)
  · simp only [sectionSegments, h]
    rw [turnSegs_length]
    rcases hmod with h2 | h2
    · rw [if_pos h2]
      omega
    · rw [if_neg (by omega)]
      omega
  · intro j hj
    simp only [sectionSegments, h] at hj ⊢
    rw [turnSegs_length] at hj
    rw [turnSegs_lighter (m.get i) d _ _ _ _ _ _ _ 0 false j hj, Bool.not_false]

/-- **C6** applied to a one-section map holding the 50° turn. -/
theorem C6_turn_parity_witness :
    Odd (sectionSegments (map50.get 0)).length ∧
    1 ≤ (sectionSegments (map50.get 0)).length ∧
    (∀ j : ℕ, j < (sectionSegments (map50.get 0)).length →
      ((sectionSegments (map50.get 0))[j]?).map MapSectionSegment.is_lighter =
        some (if j % 2 = 0 then false else true)) ∧
    mapSegmentation map50 =
      (List.range map50.length).flatMap (fun j => sectionSegments (map50.get j)) :=
  C6_turn_parity map50 0 ⟨1, 1, 5 * π / 18⟩ rfl

end

end FR
